import Mathlib

/-!
# MediFind backend (`server.js`)

A shallow embedding of the in-memory stores and of the request handlers of
`server.js`: price-alert registration, the admin inventory update with its
alert scan and WebSocket broadcast, the two catalogue queries, the haversine
distance and the availability report, prescriptions, consultations and orders,
and the price-trends report.

Conventions of the embedding.

* A JavaScript number is a `Num`: NaN and the two infinities are explicit,
  a finite double is the rational it denotes.  Comparisons follow the
  language (`NaN` compares false with everything).
* A request value is a `JSValue`.  Arrays and objects are carried by the text
  `ToString` gives them, which is all `parseInt`, `parseFloat` and a
  truthiness test can see of them; an array or object whose `ToString` throws
  (the JSON value `{"toString": 1}`) is the value `unprintable`.
* A handler that throws is answered by the error-handling middleware with
  status 500; what the handler wrote and sent before the throw stays written
  and sent.
* Built-ins that are not defined in the repository (`parseInt`, `parseFloat`,
  `toLowerCase`, `localeCompare`, the outcome of sorting with a random
  comparator) are fields of a `Host`; general theorems hold for every host.
* The global `let` arrays are the fields of `State`; a handler takes the state
  and returns the response together with the next state and what it sent.
* Clock readings (`new Date().toISOString()`) are an input `now` of the
  handler that reads them, and the values drawn from `Math.random()` are an
  input of the handler that draws them.
* The arithmetic of `calculateDistance` is on `Num` with a rounding `fl` that
  may overflow to an infinity, and `Math` is a parameter (`JSMath`).
* The search handler is also given on array objects (`Heap`), where `filter`,
  `slice` and the spread make a new array and `sort` writes in place, to state
  what a run does to the array of the global `medicines`.
-/

namespace MediFind

/-! ## Numbers and request values -/

/-- A JavaScript number; `fin q` is the finite double denoting `q`
(both zeros are `fin 0`). -/
inductive Num where
  | nan
  | ninf
  | fin (q : ℚ)
  | pinf
  deriving DecidableEq

namespace Num

/-- JavaScript `a < b`. -/
def lt : Num → Num → Bool
  | nan, _ => false
  | _, nan => false
  | pinf, _ => false
  | _, ninf => false
  | ninf, _ => true
  | _, pinf => true
  | fin a, fin b => decide (a < b)

/-- JavaScript `a <= b`. -/
def le : Num → Num → Bool
  | nan, _ => false
  | _, nan => false
  | ninf, _ => true
  | _, pinf => true
  | pinf, _ => false
  | _, ninf => false
  | fin a, fin b => decide (a ≤ b)

/-- JavaScript `a > b`. -/
def gt (a b : Num) : Bool := lt b a

/-- JavaScript `a >= b`. -/
def ge (a b : Num) : Bool := le b a

/-- JavaScript `a === b` on two numbers. -/
def strictEq : Num → Num → Bool
  | nan, _ => false
  | _, nan => false
  | a, b => decide (a = b)

/-- Truthiness of a number: `0` and `NaN` are falsy. -/
def truthy : Num → Bool
  | nan => false
  | fin q => decide (q ≠ 0)
  | _ => true

/-- JavaScript `a - b`.  On two finite doubles the rounded difference has the
sign of the exact one and is zero only when they are equal, which is all a
sort comparator uses of it; the exact difference stands for it. -/
def sub : Num → Num → Num
  | nan, _ => nan
  | _, nan => nan
  | pinf, pinf => nan
  | ninf, ninf => nan
  | pinf, _ => pinf
  | ninf, _ => ninf
  | fin _, pinf => ninf
  | fin _, ninf => pinf
  | fin a, fin b => fin (a - b)

/-- JavaScript `a + b` on two numbers; `fl` rounds the exact sum of two finite
doubles (to a double, or to an infinity on overflow). -/
def add (fl : ℚ → Num) : Num → Num → Num
  | nan, _ => nan
  | _, nan => nan
  | pinf, ninf => nan
  | ninf, pinf => nan
  | pinf, _ => pinf
  | ninf, _ => ninf
  | _, pinf => pinf
  | _, ninf => ninf
  | fin a, fin b => fl (a + b)

/-- The sign rule of a product with one infinite factor of the given sign. -/
def infTimes (positive : Bool) (a : ℚ) : Num :=
  if a = 0 then nan
  else if decide (0 < a) = positive then pinf
  else ninf

/-- JavaScript `a * b` on two numbers; `fl` rounds the exact product of two
finite doubles. -/
def mul (fl : ℚ → Num) : Num → Num → Num
  | nan, _ => nan
  | _, nan => nan
  | fin a, fin b => fl (a * b)
  | fin a, pinf => infTimes true a
  | fin a, ninf => infTimes false a
  | pinf, fin b => infTimes true b
  | ninf, fin b => infTimes false b
  | pinf, pinf => pinf
  | ninf, ninf => pinf
  | pinf, ninf => ninf
  | ninf, pinf => ninf

/-- The number is neither NaN nor an infinity. -/
def isFinite : Num → Bool
  | fin _ => true
  | _ => false

/-- JavaScript `-a`. -/
def neg : Num → Num
  | nan => nan
  | ninf => pinf
  | fin a => fin (-a)
  | pinf => ninf

/-- JavaScript `a - b` with the rounding of the difference of two finite
doubles made explicit. -/
def minus (fl : ℚ → Num) : Num → Num → Num
  | nan, _ => nan
  | _, nan => nan
  | pinf, pinf => nan
  | ninf, ninf => nan
  | pinf, _ => pinf
  | ninf, _ => ninf
  | fin _, pinf => ninf
  | fin _, ninf => pinf
  | fin a, fin b => fl (a - b)

/-- JavaScript `a / d` for a literal `d` that is a positive number. -/
def divBy (fl : ℚ → Num) (a : Num) (d : ℚ) : Num :=
  match a with
  | nan => nan
  | ninf => ninf
  | fin a => fl (a / d)
  | pinf => pinf

end Num

/-- A value of a JSON or url-encoded request body.  An array or object is
`object text` when its conversion to a string returns `text`, and `unprintable`
when that conversion throws. -/
inductive JSValue where
  | undefined
  | null
  | bool (b : Bool)
  | number (n : Num)
  | string (s : String)
  | object (text : String)
  | unprintable
  deriving DecidableEq

/-- Truthiness (`!v` is its negation). -/
def JSValue.truthy : JSValue → Bool
  | .undefined => false
  | .null => false
  | .bool b => b
  | .number n => n.truthy
  | .string s => decide (s ≠ "")
  | .object _ => true
  | .unprintable => true

/-- The conversion of the value to a string or to a number returns: it throws
a `TypeError` for `unprintable`, an array or object that has no usable
`toString`, such as the JSON value `{"toString": 1}`.  `parseInt`,
`parseFloat`, a template literal and an arithmetic operator all start with this
conversion. -/
def JSValue.stringifies : JSValue → Bool
  | .unprintable => false
  | _ => true

/-- JavaScript `a === b` on two request values.  Two objects read from a
request body are distinct objects, so they are never strictly equal. -/
def JSValue.strictEq : JSValue → JSValue → Bool
  | .undefined, .undefined => true
  | .null, .null => true
  | .bool a, .bool b => a == b
  | .number a, .number b => a.strictEq b
  | .string a, .string b => a == b
  | _, _ => false

/-- The expression `v || d`. -/
def JSValue.orElse (v d : JSValue) : JSValue :=
  if v.truthy then v else d

/-! ## Records -/

/-- An entry of `price_history`. -/
structure PricePoint where
  date : String
  price : Num
  deriving DecidableEq

/-- An element of `medicines`. -/
structure Medicine where
  id : Num
  name : String
  description : String
  price : Num
  category : List String
  rating : Num
  reviews : Num
  availability : String
  pharmacies : List String
  composition : String
  manufacturer : String
  prescription_required : Bool
  price_history : Option (List PricePoint)
  deriving DecidableEq

/-- The `coordinates` of a pharmacy. -/
structure Coordinates where
  lat : Num
  lng : Num
  deriving DecidableEq

/-- An element of `pharmacies`. -/
structure Pharmacy where
  id : Num
  name : String
  location : String
  phone : String
  address : String
  hours : String
  coordinates : Option Coordinates
  delivery_radius : Num
  deriving DecidableEq

/-- An element of `priceAlerts`. -/
structure AlertRecord where
  id : Nat
  medicine_id : Num
  medicine_name : String
  max_price : Num
  email : JSValue
  created_at : String
  active : Bool
  deriving DecidableEq

/-- An element of `prescriptions`. -/
structure PrescriptionRecord where
  id : Nat
  patient_name : JSValue
  doctor_name : JSValue
  medicines_list : JSValue
  notes : JSValue
  uploaded_at : String
  status : String
  deriving DecidableEq

/-- An element of `consultations`. -/
structure ConsultationRecord where
  id : Nat
  patient_name : JSValue
  phone : JSValue
  preferred_time : JSValue
  consultation_type : JSValue
  query : JSValue
  status : String
  booked_at : String
  deriving DecidableEq

/-- An object of the array `medicines` of an order request, by the four
properties the handler reads (`undefined` for a property the object lacks). -/
structure OrderItem where
  id : JSValue
  medicine_id : JSValue
  price : JSValue
  quantity : JSValue
  deriving DecidableEq

/-- An element of `orders`. -/
structure OrderRecord where
  id : Nat
  customer_name : JSValue
  phone : JSValue
  address : JSValue
  medicines : List OrderItem
  pharmacy_id : JSValue
  delivery_option : JSValue
  total_amount : Num
  status : String
  created_at : String
  estimated_delivery : String
  deriving DecidableEq

/-- A piece of a template literal, before the number is printed. -/
inductive Piece where
  | text (s : String)
  | num (n : Num)
  deriving DecidableEq

/-- The object `alertData` built for one matching alert, before
`JSON.stringify`. -/
structure AlertData where
  type : String
  message : List Piece
  medicine : String
  current_price : Num
  target_price : Num
  timestamp : String
  deriving DecidableEq

/-- A WebSocket client of `wss.clients`. -/
structure Client where
  id : Nat
  readyState : Nat
  deriving DecidableEq

/-- The constant `WebSocket.OPEN`. -/
def WebSocket.OPEN : Nat := 1

/-- Built-ins of the language that the repository calls and does not define;
`toNumber` is the conversion an arithmetic operator applies to its operands and
`fl` the rounding of an exact arithmetic result to a double (or to an infinity
on overflow).  `parseInt` and `parseFloat` throw at a value that does not
convert to a string; the handlers test `stringifies` before they read these
fields, and the value of the fields there, which no handler reads, is fixed to
NaN. -/
structure Host where
  parseInt : JSValue → Num
  parseFloat : JSValue → Num
  toLowerCase : String → String
  localeCompare : String → String → Num
  randomOrder : List Medicine → List Medicine
  toNumber : JSValue → Num
  fl : ℚ → Num
  parseInt_unprintable : parseInt .unprintable = .nan
  parseFloat_unprintable : parseFloat .unprintable = .nan

/-- The module-level stores of `server.js`. -/
structure State where
  medicines : List Medicine
  pharmacies : List Pharmacy
  priceAlerts : List AlertRecord
  currentId : Nat
  clients : List Client
  prescriptions : List PrescriptionRecord
  consultations : List ConsultationRecord
  orders : List OrderRecord
  deriving DecidableEq

/-- The body of a response; `internalError` is the body
`{ error: 'Something went wrong!', timestamp }` of the error-handling middleware,
which answers every request whose handler throws. -/
inductive Body where
  | error (msg : String)
  | internalError (timestamp : String)
  | alertCreated (alert : AlertRecord)
  | inventoryUpdated (id : Num) (name : String) (price : Num) (pharmacy : String)
  | prescriptionCreated (prescription : PrescriptionRecord)
  | consultationCreated (consultation : ConsultationRecord)
  | orderCreated (order : OrderRecord)
  | priceTrends (medicine_id : Num) (medicine_name : String)
      (price_history : Option (List PricePoint)) (current_price : Num)
  deriving DecidableEq

/-- A response: HTTP status and JSON body. -/
structure Response where
  status : Nat
  body : Body
  deriving DecidableEq

/-! ## Broadcast and alert scan -/

/-- The function `sendAlertToClients`: the sends it performs, as the list of
(client, payload) in the iteration order of `wss.clients`. -/
def sendAlertToClients (clients : List Client) (alertData : AlertData) :
    List (Client × AlertData) :=
  (clients.filter (fun client => client.readyState == WebSocket.OPEN)).map
    (fun client => (client, alertData))

/-- The predicate of the `priceAlerts.filter` in `checkPriceAlerts`. -/
def alertMatches (medicine : Medicine) (oldPrice : Num) (alert : AlertRecord) : Bool :=
  alert.medicine_id.strictEq medicine.id &&
  alert.active &&
  medicine.price.le alert.max_price &&
  oldPrice.gt alert.max_price

/-- The local `relevantAlerts` of `checkPriceAlerts`. -/
def relevantAlerts (priceAlerts : List AlertRecord) (medicine : Medicine) (oldPrice : Num) :
    List AlertRecord :=
  priceAlerts.filter (alertMatches medicine oldPrice)

/-- The `alertData` literal of `checkPriceAlerts`. -/
def mkAlertData (now : String) (medicine : Medicine) (alert : AlertRecord) : AlertData :=
  { type := "price_alert"
    message := [.text "Price alert: ", .text medicine.name, .text " is now â‚¹",
      .num medicine.price, .text ", below your target of â‚¹", .num alert.max_price]
    medicine := medicine.name
    current_price := medicine.price
    target_price := alert.max_price
    timestamp := now }

/-- The alerts the `relevantAlerts.forEach` of `checkPriceAlerts` visits.  The
callback sends the payload of the alert and then logs a template literal that
reads `alert.email`; at an alert whose e-mail does not convert to a string the
log line throws, after the send, and the loop visits no later alert. -/
def reached : List AlertRecord → List AlertRecord
  | [] => []
  | alert :: rest => if alert.email.stringifies then alert :: reached rest else [alert]

/-- The function `checkPriceAlerts`: the payloads handed to
`sendAlertToClients`, in order (`medicine` already carries the new price). -/
def checkPriceAlerts (now : String) (priceAlerts : List AlertRecord) (medicine : Medicine)
    (oldPrice : Num) : List AlertData :=
  (reached (relevantAlerts priceAlerts medicine oldPrice)).map (mkAlertData now medicine)

/-- The call of `checkPriceAlerts` throws: the log line of the loop meets a
matching alert whose e-mail does not convert to a string. -/
def checkPriceAlertsThrows (priceAlerts : List AlertRecord) (medicine : Medicine)
    (oldPrice : Num) : Bool :=
  (relevantAlerts priceAlerts medicine oldPrice).any (fun alert => !alert.email.stringifies)

/-! ## `POST /api/alerts/price` -/

/-- The handler of `POST /api/alerts/price` on the body fields
`medicine_id`, `max_price`, `email`.  The callback of `find` evaluates
`parseInt(medicine_id)` at the first record of the catalogue, and throws there
when `medicine_id` does not convert to a string.  The alert literal evaluates
`currentId++` before `parseFloat(max_price)`: when that call throws, the counter
has advanced and no alert is stored. -/
def postAlertsPrice (H : Host) (now : String) (s : State)
    (medicine_id max_price email : JSValue) : Response × State :=
  if !medicine_id.truthy || !max_price.truthy || !email.truthy then
    (⟨400, .error "Medicine ID, max price, and email are required"⟩, s)
  else if !s.medicines.isEmpty && !medicine_id.stringifies then
    (⟨500, .internalError now⟩, s)
  else
    match s.medicines.find? (fun m => m.id.strictEq (H.parseInt medicine_id)) with
    | none => (⟨404, .error "Medicine not found"⟩, s)
    | some medicine =>
      if !max_price.stringifies then
        (⟨500, .internalError now⟩, { s with currentId := s.currentId + 1 })
      else
        let alert : AlertRecord :=
          { id := s.currentId
            medicine_id := H.parseInt medicine_id
            medicine_name := medicine.name
            max_price := H.parseFloat max_price
            email := email
            created_at := now
            active := true }
        (⟨201, .alertCreated alert⟩,
          { s with priceAlerts := s.priceAlerts ++ [alert], currentId := s.currentId + 1 })

/-! ## `PUT /api/admin/inventory/:pharmacyId/medicine/:medicineId` -/

/-- In-place update of the object `find` returned: the first element
satisfying `p`. -/
def modifyFirst {α : Type} (p : α → Bool) (f : α → α) : List α → List α
  | [] => []
  | x :: xs => if p x then f x :: xs else x :: modifyFirst p f xs

/-- The expression `new Date().toISOString().split('T')[0]` on the clock
reading `now`: the text before the first `T`. -/
def datePart (now : String) : String :=
  String.mk (now.data.takeWhile (fun c => c ≠ 'T'))

/-- The two assignments to `medicine.price` and `medicine.price_history`. -/
def setPrice (now : String) (newPrice : Num) (medicine : Medicine) : Medicine :=
  { medicine with
    price := newPrice
    price_history :=
      some (medicine.price_history.getD [] ++ [⟨datePart now, newPrice⟩]) }

/-- What one inventory update does. -/
structure InventoryOutcome where
  response : Response
  state : State
  notifications : List AlertData
  deliveries : List (Client × AlertData)
  deriving DecidableEq

/-- The handler of the inventory update on the route parameters and the body
field `price` (the body field `stock` is read and not used).  `parseFloat(price)`
throws, before anything is written, at a price that does not convert to a
string.  When `checkPriceAlerts` throws, the price and the history entry are
written and the payloads up to the throw are sent; the answer is then the 500
of the error-handling middleware. -/
def putAdminInventory (H : Host) (now : String) (s : State)
    (pharmacyId medicineId : String) (price : JSValue) : InventoryOutcome :=
  match s.pharmacies.find? (fun p => p.id.strictEq (H.parseInt (.string pharmacyId))) with
  | none => ⟨⟨404, .error "Pharmacy not found"⟩, s, [], []⟩
  | some pharmacy =>
    match s.medicines.find? (fun m => m.id.strictEq (H.parseInt (.string medicineId))) with
    | none => ⟨⟨404, .error "Medicine not found"⟩, s, [], []⟩
    | some medicine =>
      if !medicine.pharmacies.contains pharmacy.name then
        ⟨⟨400, .error "Medicine not available at this pharmacy"⟩, s, [], []⟩
      else if price ≠ .undefined then
        if !price.stringifies then
          ⟨⟨500, .internalError now⟩, s, [], []⟩
        else
          let oldPrice := medicine.price
          let medicine' := setPrice now (H.parseFloat price) medicine
          let sent := checkPriceAlerts now s.priceAlerts medicine' oldPrice
          let medicines' :=
            modifyFirst (fun m => m.id.strictEq (H.parseInt (.string medicineId)))
              (setPrice now (H.parseFloat price)) s.medicines
          let response : Response :=
            if checkPriceAlertsThrows s.priceAlerts medicine' oldPrice then
              ⟨500, .internalError now⟩
            else
              ⟨200, .inventoryUpdated medicine'.id medicine'.name medicine'.price pharmacy.name⟩
          ⟨response, { s with medicines := medicines' }, sent,
            sent.flatMap (sendAlertToClients s.clients)⟩
      else
        ⟨⟨200, .inventoryUpdated medicine.id medicine.name medicine.price pharmacy.name⟩,
          s, [], []⟩

/-! ## Prescriptions, consultations and orders -/

/-- The handler of `POST /api/prescriptions/upload`. -/
def postPrescriptionsUpload (now : String) (s : State)
    (patient_name doctor_name medicines_list notes : JSValue) : Response × State :=
  let prescription : PrescriptionRecord :=
    { id := s.currentId
      patient_name := patient_name
      doctor_name := doctor_name
      medicines_list := medicines_list
      notes := notes
      uploaded_at := now
      status := "pending" }
  (⟨201, .prescriptionCreated prescription⟩,
    { s with prescriptions := s.prescriptions ++ [prescription], currentId := s.currentId + 1 })

/-- The handler of `POST /api/consultations/book`. -/
def postConsultationsBook (now : String) (s : State)
    (patient_name phone preferred_time consultation_type query : JSValue) : Response × State :=
  if !patient_name.truthy || !phone.truthy then
    (⟨400, .error "Patient name and phone are required"⟩, s)
  else
    let consultation : ConsultationRecord :=
      { id := s.currentId
        patient_name := patient_name
        phone := phone
        preferred_time := preferred_time
        consultation_type := consultation_type.orElse (.string "general")
        query := query
        status := "scheduled"
        booked_at := now }
    (⟨201, .consultationCreated consultation⟩,
      { s with consultations := s.consultations ++ [consultation], currentId := s.currentId + 1 })

/-- The `medicines.reduce(..., 0)` of the order handler.  Inside the handler
the name `medicines` is the array of the request body (the destructuring
`const { ..., medicines, ... } = req.body` shadows the catalogue), so the
`find` of the callback searches the request array itself.  The product
converts both operands to numbers; the result is `none` when one of the
conversions throws. -/
def total_amount (H : Host) (medicines : List OrderItem) : Option Num :=
  medicines.foldl (fun acc item =>
    match acc with
    | none => none
    | some sum =>
      match medicines.find? (fun m => m.id.strictEq item.medicine_id) with
      | some medicine =>
        if medicine.price.stringifies && item.quantity.stringifies then
          some (Num.add H.fl sum
            (Num.mul H.fl (H.toNumber medicine.price) (H.toNumber item.quantity)))
        else none
      | none => some (Num.add H.fl sum (.fin 0))) (some (.fin 0))

/-- The handler of `POST /api/orders`; the body field `medicines` is absent
or an array of objects, `estimated` is the clock reading a day ahead.  The
total is computed before `currentId++`: when it throws, no store is written. -/
def postOrders (H : Host) (now estimated : String) (s : State)
    (customer_name phone address : JSValue) (medicines : Option (List OrderItem))
    (pharmacy_id delivery_option : JSValue) : Response × State :=
  match medicines with
  | none => (⟨400, .error "Customer details and medicines are required"⟩, s)
  | some items =>
    if !customer_name.truthy || !phone.truthy || items.length == 0 then
      (⟨400, .error "Customer details and medicines are required"⟩, s)
    else
      match total_amount H items with
      | none => (⟨500, .internalError now⟩, s)
      | some total =>
        let order : OrderRecord :=
          { id := s.currentId
            customer_name := customer_name
            phone := phone
            address := address
            medicines := items
            pharmacy_id := pharmacy_id
            delivery_option := delivery_option.orElse (.string "standard")
            total_amount := total
            status := "confirmed"
            created_at := now
            estimated_delivery := estimated }
        (⟨201, .orderCreated order⟩,
          { s with orders := s.orders ++ [order], currentId := s.currentId + 1 })

/-! ## Reports -/

/-- The mock history the price-trends report stores on a medicine that has
none (`0.9` and `0.95` stand for the doubles of these literals). -/
def mockHistory (H : Host) (medicine : Medicine) : List PricePoint :=
  [⟨"2023-10-01", Num.mul H.fl medicine.price (.fin (9 / 10))⟩,
   ⟨"2023-10-15", Num.mul H.fl medicine.price (.fin (95 / 100))⟩,
   ⟨"2023-11-01", medicine.price⟩]

/-- The conditional assignment to `medicine.price_history` of the price-trends
report. -/
def fillHistory (H : Host) (medicine : Medicine) : Medicine :=
  match medicine.price_history with
  | none => { medicine with price_history := some (mockHistory H medicine) }
  | some [] => { medicine with price_history := some (mockHistory H medicine) }
  | some (_ :: _) => medicine

/-- The handler of `GET /api/reports/price-trends/:medicineId`. -/
def getReportsPriceTrends (H : Host) (s : State) (medicineId : String) : Response × State :=
  match s.medicines.find? (fun m => m.id.strictEq (H.parseInt (.string medicineId))) with
  | none => (⟨404, .error "Medicine not found"⟩, s)
  | some medicine =>
    let medicine' := fillHistory H medicine
    let medicines' :=
      modifyFirst (fun m => m.id.strictEq (H.parseInt (.string medicineId)))
        (fillHistory H) s.medicines
    (⟨200, .priceTrends (H.parseInt (.string medicineId)) medicine'.name
        medicine'.price_history medicine'.price⟩,
      { s with medicines := medicines' })

/-! ## Catalogue queries -/

/-- The method `String.prototype.includes`. -/
def strIncludes (s t : String) : Bool :=
  s.data.tails.any (fun u => t.data.isPrefixOf u)

/-- The method `Array.prototype.sort` with a comparator: a stable sort in which
`a` stays before `b` unless the comparator returns a positive number (a NaN
result counts as `0`).  For a consistent comparator this is the order the
language fixes; for an inconsistent one the language leaves the order to the
engine and the embedding keeps the insertion order of this algorithm. -/
def sortWith (cmp : Medicine → Medicine → Num) (l : List Medicine) : List Medicine :=
  l.insertionSort (fun a b => (cmp a b).gt (.fin 0) = false)

/-- The call `results.slice(0, end)`: a NaN end counts as `0`, a fractional one
is truncated, a negative one counts from the end of the list. -/
def slice0 {α : Type} (l : List α) : Num → List α
  | .nan => []
  | .ninf => []
  | .pinf => l
  | .fin q =>
    let k : Int := Int.tdiv q.num q.den
    if k < 0 then l.take (l.length - k.natAbs) else l.take k.toNat

/-- The statement `if (v) { results = f(v, results) }` for a query parameter. -/
def whenGiven (v : Option String) (f : String → List Medicine → List Medicine)
    (results : List Medicine) : List Medicine :=
  match v with
  | some x => if x ≠ "" then f x results else results
  | none => results

/-- The destructuring default `{ limit = d } = req.query`: the number `d`
when the parameter is absent, the text of the parameter otherwise. -/
def withDefault (limit : Option String) (d : ℚ) : JSValue :=
  match limit with
  | some x => .string x
  | none => .number (.fin d)

/-- The query string of `GET /api/medicines/search` (`maxDistance` is read and
not used). -/
structure SearchQuery where
  q : Option String
  location : Option String
  category : Option String
  sort : Option String
  limit : Option String
  minPrice : Option String
  maxPrice : Option String
  deriving DecidableEq

/-- The `switch (sort)` of the search handler. -/
def sortResults (H : Host) (sort : String) (results : List Medicine) : List Medicine :=
  if sort = "price-low" then sortWith (fun a b => a.price.sub b.price) results
  else if sort = "price-high" then sortWith (fun a b => b.price.sub a.price) results
  else if sort = "rating" then sortWith (fun a b => b.rating.sub a.rating) results
  else if sort = "name" then sortWith (fun a b => H.localeCompare a.name b.name) results
  else if sort = "distance" then H.randomOrder results
  else results

/-- The filters of the search handler, in the order of the source. -/
def searchFilters (H : Host) (query : SearchQuery) (medicines : List Medicine) :
    List Medicine :=
  let results := medicines
  let results := whenGiven query.q (fun q rs =>
    rs.filter (fun medicine =>
      strIncludes (H.toLowerCase medicine.name) (H.toLowerCase q) ||
      strIncludes (H.toLowerCase medicine.description) (H.toLowerCase q) ||
      strIncludes (H.toLowerCase medicine.composition) (H.toLowerCase q))) results
  let results := whenGiven query.category (fun category rs =>
    if category ≠ "all" then rs.filter (fun medicine => medicine.category.contains category)
    else rs) results
  let results := whenGiven query.minPrice (fun minPrice rs =>
    rs.filter (fun medicine => medicine.price.ge (H.parseFloat (.string minPrice)))) results
  let results := whenGiven query.maxPrice (fun maxPrice rs =>
    rs.filter (fun medicine => medicine.price.le (H.parseFloat (.string maxPrice)))) results
  let results := whenGiven query.location (fun location rs =>
    rs.filter (fun medicine =>
      medicine.pharmacies.any (fun pharmacy =>
        strIncludes (H.toLowerCase pharmacy) (H.toLowerCase location)))) results
  results

/-- The list `results` of the search handler: filters, sort, cap
(`limit = 10` when the parameter is absent). -/
def searchResults (H : Host) (medicines : List Medicine) (query : SearchQuery) :
    List Medicine :=
  let results := searchFilters H query medicines
  let results := whenGiven query.sort (sortResults H) results
  slice0 results (H.parseInt (withDefault query.limit 10))

/-- The JSON answer of `GET /api/medicines/search`. -/
structure SearchResponse where
  query : Option String
  category : Option String
  location : Option String
  results : List Medicine
  total : Nat
  timestamp : String
  deriving DecidableEq

/-- The handler of `GET /api/medicines/search`. -/
def getMedicinesSearch (H : Host) (now : String) (medicines : List Medicine)
    (query : SearchQuery) : SearchResponse :=
  let results := searchResults H medicines query
  { query := query.q
    category := query.category
    location := query.location
    results := results
    total := results.length
    timestamp := now }

/-- The JSON answer of `GET /api/medicines/category/:category`. -/
structure CategoryResponse where
  category : String
  medicines : List Medicine
  total : Nat
  deriving DecidableEq

/-- The handler of `GET /api/medicines/category/:category` (`limit = 20` when
the parameter is absent). -/
def getMedicinesCategory (H : Host) (medicines : List Medicine) (category : String)
    (limit : Option String) : CategoryResponse :=
  let limit : JSValue := withDefault limit 20
  let results := medicines
  let results :=
    if category ≠ "all" then
      medicines.filter (fun medicine => medicine.category.contains category)
    else results
  let results := slice0 results (H.parseInt limit)
  { category := category, medicines := results, total := results.length }

/-! ## Distance -/

/-- The double `Math.PI`. -/
def PI : ℚ := 884279719003555 / 281474976710656

/-- The double arithmetic and the `Math` functions `calculateDistance` uses:
`fl` rounds the exact result of an operation on two finite doubles to a double,
or to an infinity when it overflows; the functions take and return any number,
NaN and the infinities included. -/
structure JSMath where
  fl : ℚ → Num
  sin : Num → Num
  cos : Num → Num
  sqrt : Num → Num
  atan2 : Num → Num → Num

/-- The function `calculateDistance`, one rounding for each arithmetic
operation of the source. -/
def calculateDistance (M : JSMath) (lat1 lng1 lat2 lng2 : Num) : Num :=
  let R : Num := .fin 6371
  let dLat := Num.divBy M.fl (Num.mul M.fl (Num.minus M.fl lat2 lat1) (.fin PI)) 180
  let dLng := Num.divBy M.fl (Num.mul M.fl (Num.minus M.fl lng2 lng1) (.fin PI)) 180
  let a :=
    Num.add M.fl
      (Num.mul M.fl (M.sin (Num.divBy M.fl dLat 2)) (M.sin (Num.divBy M.fl dLat 2)))
      (Num.mul M.fl
        (Num.mul M.fl
          (Num.mul M.fl
            (M.cos (Num.divBy M.fl (Num.mul M.fl lat1 (.fin PI)) 180))
            (M.cos (Num.divBy M.fl (Num.mul M.fl lat2 (.fin PI)) 180)))
          (M.sin (Num.divBy M.fl dLng 2)))
        (M.sin (Num.divBy M.fl dLng 2)))
  let c := Num.mul M.fl (.fin 2) (M.atan2 (M.sqrt a) (M.sqrt (Num.minus M.fl (.fin 1) a)))
  Num.mul M.fl R c

/-! ## Availability -/

/-- The values one entry of the availability report derives from
`Math.random()`: the fallback distance, the stock label, the price variation
and the delivery hours. -/
structure Mock where
  distance : Num
  stock : String
  variation : Num
  hours : Num
  deriving DecidableEq

/-- An element of `availabilityData`; `distance` is the number before
`toFixed(1)` and the unit are appended, `deliveryTime` the number of hours. -/
structure AvailabilityEntry where
  pharmacy : String
  pharmacy_info : Pharmacy
  stock : String
  price : Num
  distance : Num
  deliveryTime : Num
  deriving DecidableEq

/-- Truthiness of a query parameter. -/
def given (v : Option String) : Bool :=
  match v with
  | some x => decide (x ≠ "")
  | none => false

/-- The list `availabilityData`: one entry for each listed pharmacy name that
is the name of a pharmacy record, in the order of the list; `mock i` holds the
random values of the entry at position `i`. -/
def availabilityData (H : Host) (M : JSMath) (mock : Nat → Mock) (pharmacies : List Pharmacy)
    (medicine : Medicine) (userLat userLng : Option String) : List AvailabilityEntry :=
  medicine.pharmacies.enum.filterMap (fun ip =>
    match pharmacies.find? (fun p => p.name == ip.2) with
    | none => none
    | some pharmacy =>
      let distance : Num :=
        match pharmacy.coordinates with
        | some coordinates =>
          if given userLat && given userLng then
            calculateDistance M (H.parseFloat (.string (userLat.getD "")))
              (H.parseFloat (.string (userLng.getD ""))) coordinates.lat coordinates.lng
          else (mock ip.1).distance
        | none => (mock ip.1).distance
      some
        { pharmacy := ip.2
          pharmacy_info := pharmacy
          stock := (mock ip.1).stock
          price := Num.add H.fl medicine.price (mock ip.1).variation
          distance := distance
          deliveryTime := (mock ip.1).hours })

/-- The JSON answer of `GET /api/medicines/:id/availability`. -/
structure AvailabilityResponse where
  medicine_id : Num
  medicine_name : String
  availability : List AvailabilityEntry
  last_updated : String
  deriving DecidableEq

/-- The handler of `GET /api/medicines/:id/availability`. -/
def getMedicinesAvailability (H : Host) (M : JSMath) (mock : Nat → Mock) (now : String)
    (s : State) (id : String) (userLat userLng : Option String) :
    Except Response AvailabilityResponse :=
  match s.medicines.find? (fun m => m.id.strictEq (H.parseInt (.string id))) with
  | none => .error ⟨404, .error "Medicine not found"⟩
  | some medicine =>
    .ok
      { medicine_id := H.parseInt (.string id)
        medicine_name := medicine.name
        availability := availabilityData H M mock s.pharmacies medicine userLat userLng
        last_updated := now }

/-! ## The search handler on array objects -/

/-- The array objects alive during one run of a handler; a reference to an
array is its index. -/
structure Heap where
  arrays : List (List Medicine)
  deriving DecidableEq

/-- A new array object: the extended heap and the reference to the array. -/
def Heap.alloc (h : Heap) (a : List Medicine) : Heap × Nat :=
  (⟨h.arrays ++ [a]⟩, h.arrays.length)

/-- The elements of the array behind a reference. -/
def Heap.read (h : Heap) (r : Nat) : List Medicine :=
  h.arrays.getD r []

/-- An in-place update of the array behind a reference. -/
def Heap.write (h : Heap) (r : Nat) (a : List Medicine) : Heap :=
  ⟨h.arrays.set r a⟩

/-- The statement `if (v) { results = results.filter(p(v)) }`: `filter` makes a
new array and the variable `results` takes its reference. -/
def filterStage (v : Option String) (p : String → Medicine → Bool) (hr : Heap × Nat) :
    Heap × Nat :=
  match v with
  | some x => if x ≠ "" then hr.1.alloc ((hr.1.read hr.2).filter (p x)) else hr
  | none => hr

/-- The statement `if (category && category !== 'all') { results =
results.filter(...) }`. -/
def categoryStage (category : Option String) (hr : Heap × Nat) : Heap × Nat :=
  match category with
  | some c =>
    if c ≠ "" ∧ c ≠ "all" then
      hr.1.alloc ((hr.1.read hr.2).filter (fun medicine => medicine.category.contains c))
    else hr
  | none => hr

/-- The statement `if (sort) { switch (sort) { ... results.sort(...) ... } }`:
`sort` reorders the array behind `results` in place. -/
def sortStage (H : Host) (sort : Option String) (hr : Heap × Nat) : Heap × Nat :=
  match sort with
  | some x => if x ≠ "" then (hr.1.write hr.2 (sortResults H x (hr.1.read hr.2)), hr.2) else hr
  | none => hr

/-- The body of the search handler on array objects: `medicines` is the
reference held by the global, the result is the final heap and the reference
held by `results`. -/
def searchRun (H : Host) (query : SearchQuery) (h : Heap) (medicines : Nat) : Heap × Nat :=
  let hr := h.alloc (h.read medicines)
  let hr := filterStage query.q (fun q medicine =>
    strIncludes (H.toLowerCase medicine.name) (H.toLowerCase q) ||
    strIncludes (H.toLowerCase medicine.description) (H.toLowerCase q) ||
    strIncludes (H.toLowerCase medicine.composition) (H.toLowerCase q)) hr
  let hr := categoryStage query.category hr
  let hr := filterStage query.minPrice (fun minPrice medicine =>
    medicine.price.ge (H.parseFloat (.string minPrice))) hr
  let hr := filterStage query.maxPrice (fun maxPrice medicine =>
    medicine.price.le (H.parseFloat (.string maxPrice))) hr
  let hr := filterStage query.location (fun location medicine =>
    medicine.pharmacies.any (fun pharmacy =>
      strIncludes (H.toLowerCase pharmacy) (H.toLowerCase location))) hr
  let hr := sortStage H query.sort hr
  hr.1.alloc (slice0 (hr.1.read hr.2) (H.parseInt (withDefault query.limit 10)))

/-- The search handler as a step on the stores: the global `medicines` is the
array object 0 of the run, and the catalogue after the run is what that object
holds then. -/
def getMedicinesSearchRun (H : Host) (now : String) (s : State) (query : SearchQuery) :
    SearchResponse × State :=
  let hr := searchRun H query ⟨[s.medicines]⟩ 0
  let results := hr.1.read hr.2
  ({ query := query.q
     category := query.category
     location := query.location
     results := results
     total := results.length
     timestamp := now },
   { s with medicines := hr.1.read 0 })

/-! ## Requests -/

/-- The requests that can change the stores, the search, and `readOnly` for
the other routes, which answer from the stores without assigning to them, and
for a request whose handler throws before it assigns to a store (an order
whose `medicines` is a text, or an array holding `null`);
`clientsChanged` is a WebSocket connection opening or closing. -/
inductive Request where
  | postAlertsPrice (now : String) (medicine_id max_price email : JSValue)
  | putAdminInventory (now : String) (pharmacyId medicineId : String) (price : JSValue)
  | postPrescriptionsUpload (now : String)
      (patient_name doctor_name medicines_list notes : JSValue)
  | postConsultationsBook (now : String)
      (patient_name phone preferred_time consultation_type query : JSValue)
  | postOrders (now estimated : String) (customer_name phone address : JSValue)
      (medicines : Option (List OrderItem)) (pharmacy_id delivery_option : JSValue)
  | getReportsPriceTrends (medicineId : String)
  | getMedicinesSearch (now : String) (query : SearchQuery)
  | readOnly
  | clientsChanged (clients : List Client)

/-- The stores after a request. -/
def step (H : Host) (s : State) : Request → State
  | .postAlertsPrice now medicine_id max_price email =>
    (postAlertsPrice H now s medicine_id max_price email).2
  | .putAdminInventory now pharmacyId medicineId price =>
    (putAdminInventory H now s pharmacyId medicineId price).state
  | .postPrescriptionsUpload now patient_name doctor_name medicines_list notes =>
    (postPrescriptionsUpload now s patient_name doctor_name medicines_list notes).2
  | .postConsultationsBook now patient_name phone preferred_time consultation_type query =>
    (postConsultationsBook now s patient_name phone preferred_time consultation_type query).2
  | .postOrders now estimated customer_name phone address medicines pharmacy_id
      delivery_option =>
    (postOrders H now estimated s customer_name phone address medicines pharmacy_id
      delivery_option).2
  | .getReportsPriceTrends medicineId => (getReportsPriceTrends H s medicineId).2
  | .getMedicinesSearch now query => (getMedicinesSearchRun H now s query).2
  | .readOnly => s
  | .clientsChanged clients => { s with clients := clients }

/-- The stores after a sequence of requests. -/
def run (H : Host) (s : State) (requests : List Request) : State :=
  requests.foldl (step H) s

/-! ## Seed data and a reference host -/

/-- The seeded medicine record. -/
def dolo : Medicine :=
  { id := .fin 1
    name := "Dolo 650"
    description := "Paracetamol Tablets"
    price := .fin 45
    category := ["popular"]
    rating := .fin (9 / 2)
    reviews := .fin 1200
    availability := "in-stock"
    pharmacies := ["Apollo", "MedPlus", "Fortis"]
    composition := "Paracetamol 650mg"
    manufacturer := "Micro Labs Ltd"
    prescription_required := false
    price_history := some
      [⟨"2023-10-01", .fin 42⟩, ⟨"2023-10-15", .fin (87 / 2)⟩, ⟨"2023-11-01", .fin 45⟩] }

/-- The initial value of `medicines`. -/
def medicines : List Medicine := [dolo]

/-- The seeded pharmacy record 1. -/
def apollo : Pharmacy :=
  { id := .fin 1
    name := "Apollo Pharmacy"
    location := "Multiple Locations"
    phone := "+91-9999999999"
    address := "123 Main St, City Center"
    hours := "8:00 AM - 10:00 PM"
    coordinates := some ⟨.fin (129716 / 10000), .fin (775946 / 10000)⟩
    delivery_radius := .fin 5 }

/-- The seeded pharmacy record 2. -/
def medplus : Pharmacy :=
  { id := .fin 2
    name := "MedPlus"
    location := "Multiple Locations"
    phone := "+91-8888888888"
    address := "456 Oak Ave, Downtown"
    hours := "9:00 AM - 9:00 PM"
    coordinates := some ⟨.fin (129680 / 10000), .fin (775870 / 10000)⟩
    delivery_radius := .fin 4 }

/-- The seeded pharmacy record 3. -/
def fortis : Pharmacy :=
  { id := .fin 3
    name := "Fortis Healthcare"
    location := "Multiple Locations"
    phone := "+91-7777777777"
    address := "789 Elm St, Medical District"
    hours := "24/7"
    coordinates := some ⟨.fin (129750 / 10000), .fin (776000 / 10000)⟩
    delivery_radius := .fin 7 }

/-- The initial value of `pharmacies`. -/
def pharmacies : List Pharmacy := [apollo, medplus, fortis]

/-- The stores at process start, with the given connected clients. -/
def initialState (clients : List Client) : State :=
  { medicines := medicines
    pharmacies := pharmacies
    priceAlerts := []
    currentId := 11
    clients := clients
    prescriptions := []
    consultations := []
    orders := [] }

/-- The number an optional sign and a non-empty run of decimal digits denote,
`NaN` for any other text. -/
def digitsValue (s : String) : Num :=
  let signed : Bool × List Char :=
    match s.data with
    | '-' :: r => (true, r)
    | '+' :: r => (false, r)
    | r => (false, r)
  if signed.2 ≠ [] ∧ signed.2.all Char.isDigit = true then
    let n : Nat := signed.2.foldl (fun n c => 10 * n + (c.toNat - 48)) 0
    .fin (if signed.1 then -(n : ℚ) else (n : ℚ))
  else .nan

/-- A host for evaluating the handlers on concrete requests.  It agrees with
the language on the inputs used below: `parseInt` and `parseFloat` of a
signed run of decimal digits and `parseFloat` of a number (printing a
double and reading it back returns it), `parseInt` of an integer of magnitude
below `10^21`, lower-casing of ASCII text.  Other inputs are outside this
fragment and read as NaN; `localeCompare` is the code-point order,
`randomOrder` leaves the list as it is, `toNumber` covers numbers, booleans,
`null` and signed runs of digits, and `fl` is exact (the arithmetic of the
examples stays within the integers a double holds). -/
def refHost : Host :=
  { parseInt := fun v =>
      match v with
      | .string s => digitsValue s
      | .number (.fin q) =>
        if q.den = 1 ∧ q.num.natAbs < 10 ^ 21 then .fin q else .nan
      | _ => .nan
    parseFloat := fun v =>
      match v with
      | .string s => digitsValue s
      | .number n => n
      | _ => .nan
    toLowerCase := fun s => String.mk (s.data.map Char.toLower)
    localeCompare := fun a b => if a < b then .fin (-1) else if a = b then .fin 0 else .fin 1
    randomOrder := fun l => l
    toNumber := fun v =>
      match v with
      | .number n => n
      | .string s => if s = "" then .fin 0 else digitsValue s
      | .bool b => if b then .fin 1 else .fin 0
      | .null => .fin 0
      | _ => .nan
    fl := fun q => .fin q
    parseInt_unprintable := rfl
    parseFloat_unprintable := rfl }

/-! ## Auxiliary notions for the statements -/

/-- The three lookups of the inventory update succeed in `s`: the route names
`pharmacy` and `medicine`, and the medicine lists the pharmacy. -/
def Stocked (H : Host) (s : State) (pharmacyId medicineId : String) (pharmacy : Pharmacy)
    (medicine : Medicine) : Prop :=
  s.pharmacies.find? (fun p => p.id.strictEq (H.parseInt (.string pharmacyId))) = some pharmacy ∧
  s.medicines.find? (fun m => m.id.strictEq (H.parseInt (.string medicineId))) = some medicine ∧
  medicine.pharmacies.contains pharmacy.name = true

instance (H : Host) (s : State) (pharmacyId medicineId : String) (pharmacy : Pharmacy)
    (medicine : Medicine) : Decidable (Stocked H s pharmacyId medicineId pharmacy medicine) := by
  unfold Stocked; infer_instance

/-- The pair of a heap and a reference extends the heap `h0`: the arrays of
`h0` are a prefix of its arrays, and the reference is to an array made since. -/
def Extends (h0 : Heap) (hr : Heap × Nat) : Prop :=
  h0.arrays <+: hr.1.arrays ∧ h0.arrays.length ≤ hr.2 ∧ hr.2 < hr.1.arrays.length

/-- The ids stored in the four lists that draw from `currentId`. -/
def allIds (s : State) : List Nat :=
  s.prescriptions.map (fun r => r.id) ++ s.consultations.map (fun r => r.id) ++
    s.orders.map (fun r => r.id) ++ s.priceAlerts.map (fun r => r.id)

/-- The stored ids are pairwise distinct across the four lists, lie between the
initial value 11 of the counter and its current value, the counter has advanced
at least once for each stored record, and within each list the ids increase. -/
def IdsOk (s : State) : Prop :=
  (allIds s).Nodup ∧
  (∀ i ∈ allIds s, 11 ≤ i ∧ i < s.currentId) ∧
  11 + (allIds s).length ≤ s.currentId ∧
  (s.prescriptions.map (fun r => r.id)).Sorted (fun a b => a < b) ∧
  (s.consultations.map (fun r => r.id)).Sorted (fun a b => a < b) ∧
  (s.orders.map (fun r => r.id)).Sorted (fun a b => a < b) ∧
  (s.priceAlerts.map (fun r => r.id)).Sorted (fun a b => a < b)

/-- The total the order handler is described to store: for each item the
catalogue price of the medicine whose id is `item.medicine_id` times
`item.quantity`, and 0 for an item whose medicine is not in the catalogue. -/
def catalogTotal (H : Host) (catalog : List Medicine) (items : List OrderItem) : Num :=
  items.foldl (fun sum item =>
    match catalog.find? (fun m => (JSValue.number m.id).strictEq item.medicine_id) with
    | some medicine => Num.add H.fl sum (Num.mul H.fl medicine.price (H.toNumber item.quantity))
    | none => Num.add H.fl sum (.fin 0)) (.fin 0)

/-- A second catalogue record for the examples, under the id and name the
interaction checker gives to medicine 2. -/
def azithral : Medicine :=
  { id := .fin 2
    name := "Azithral 500"
    description := "Azithromycin Tablets"
    price := .fin 120
    category := ["antibiotic"]
    rating := .fin 4
    reviews := .fin 800
    availability := "in-stock"
    pharmacies := ["MedPlus"]
    composition := "Azithromycin 500mg"
    manufacturer := "Alembic"
    prescription_required := true
    price_history := none }

/-- The stores after two registrations for medicine 1 on the seeded stores:
target 40 with the e-mail `{"toString": 1}`, then target 39 with an address. -/
def unprintableFirst : State :=
  (postAlertsPrice refHost "2023-11-01T08:05:00.000Z"
    (postAlertsPrice refHost "2023-11-01T08:00:00.000Z" (initialState [])
      (.number (.fin 1)) (.number (.fin 40)) .unprintable).2
    (.number (.fin 1)) (.number (.fin 39)) (.string "second@example.com")).2

/-- The stores after three registrations for medicine 1 on the seeded stores,
with targets 40, 39 and 30 and an address each. -/
def threeAlerts : State :=
  (postAlertsPrice refHost "2023-11-01T08:10:00.000Z"
    (postAlertsPrice refHost "2023-11-01T08:05:00.000Z"
      (postAlertsPrice refHost "2023-11-01T08:00:00.000Z" (initialState [])
        (.number (.fin 1)) (.number (.fin 40)) (.string "first@example.com")).2
      (.number (.fin 1)) (.number (.fin 39)) (.string "second@example.com")).2
    (.number (.fin 1)) (.number (.fin 30)) (.string "third@example.com")).2

/-- The first record of the registry of `threeAlerts`. -/
def firstAlert : AlertRecord :=
  { id := 11, medicine_id := .fin 1, medicine_name := "Dolo 650", max_price := .fin 40,
    email := .string "first@example.com", created_at := "2023-11-01T08:00:00.000Z",
    active := true }

/-- The second record of the registry of `threeAlerts`. -/
def secondAlert : AlertRecord :=
  { id := 12, medicine_id := .fin 1, medicine_name := "Dolo 650", max_price := .fin 39,
    email := .string "second@example.com", created_at := "2023-11-01T08:05:00.000Z",
    active := true }

/-- The third record of the registry of `threeAlerts`. -/
def thirdAlert : AlertRecord :=
  { id := 13, medicine_id := .fin 1, medicine_name := "Dolo 650", max_price := .fin 30,
    email := .string "third@example.com", created_at := "2023-11-01T08:10:00.000Z",
    active := true }

/-- A stand-in for `Math` for evaluating `calculateDistance` on concrete
coordinates.  A result of magnitude `2^1024 - 2^970` or more overflows to an
infinity, as rounding to the nearest double does; below that the exact result
stands for the rounded one.  `sin`, `cos` and `sqrt` agree with `Math` at NaN
and at the infinities, `atan2` when an argument is NaN; `sin`, `sqrt` and
`atan2(_, 1)` agree with it at `0`, `cos` at `0` and `sqrt` at `1`.  Elsewhere
the values are stand-ins (the first-order terms on finite arguments). -/
def refMath : JSMath :=
  { fl := fun q =>
      if 2 ^ 1024 - 2 ^ 970 ≤ q then .pinf
      else if q ≤ -(2 ^ 1024 - 2 ^ 970) then .ninf
      else .fin q
    sin := fun x =>
      match x with
      | .fin q => .fin q
      | _ => .nan
    cos := fun x =>
      match x with
      | .fin _ => .fin 1
      | _ => .nan
    sqrt := fun x =>
      match x with
      | .fin q => if q < 0 then .nan else .fin q
      | .pinf => .pinf
      | _ => .nan
    atan2 := fun y x =>
      match y, x with
      | .fin a, .fin b => if b = 0 then .nan else .fin (a / b)
      | _, _ => .nan }

/-! ## Inventory update and alert scan -/

/-- After the in-place update the lookup returns the updated object. -/
theorem find?_modifyFirst {α : Type} (p : α → Bool) (f : α → α) (l : List α) (x : α)
    (hx : l.find? p = some x) (hf : p (f x) = true) :
    (modifyFirst p f l).find? p = some (f x) := by
  induction l with
  | nil => simp at hx
  | cons y ys ih =>
    by_cases hy : p y = true
    · have : y = x := by simpa [List.find?, hy] using hx
      subst this
      simp [modifyFirst, hy, List.find?, hf]
    · have hy' : p y = false := by simpa using hy
      have hx' : ys.find? p = some x := by simpa [List.find?, hy'] using hx
      simp [modifyFirst, hy', List.find?, ih hx']

/-- The loop visits an initial segment of the matching alerts. -/
theorem reached_isPrefix (l : List AlertRecord) : reached l <+: l := by
  induction l with
  | nil => exact List.prefix_refl _
  | cons a l ih =>
    by_cases h : a.email.stringifies = true
    · simpa [reached, h] using ih
    · have h' : a.email.stringifies = false := by simpa using h
      simp only [reached, h', Bool.false_eq_true, if_false]
      exact ⟨l, rfl⟩

/-- The loop visits every matching alert when each of their e-mails converts
to a string. -/
theorem reached_eq_self (l : List AlertRecord)
    (h : ∀ a ∈ l, a.email.stringifies = true) : reached l = l := by
  induction l with
  | nil => rfl
  | cons a l ih =>
    have ha : a.email.stringifies = true := h a (List.mem_cons_self _ _)
    simp only [reached, ha, if_true]
    rw [ih (fun b hb => h b (List.mem_cons_of_mem _ hb))]

/-- The loop on a list that starts with alerts whose e-mails convert. -/
theorem reached_append (l r : List AlertRecord)
    (h : ∀ a ∈ l, a.email.stringifies = true) : reached (l ++ r) = l ++ reached r := by
  induction l with
  | nil => rfl
  | cons a l ih =>
    have ha : a.email.stringifies = true := h a (List.mem_cons_self _ _)
    have ih' := ih (fun b hb => h b (List.mem_cons_of_mem _ hb))
    simp only [List.cons_append, reached, ha, if_true]
    exact congrArg (List.cons a) ih'

/-- The first alert of the list is always visited. -/
theorem reached_cons (a : AlertRecord) (l : List AlertRecord) :
    ∃ r, reached (a :: l) = a :: r := by
  by_cases h : a.email.stringifies = true
  · exact ⟨reached l, by simp [reached, h]⟩
  · exact ⟨[], by simp [reached, h]⟩

/-- The outcome of an accepted inventory update that carries a price which
converts to a string. -/
theorem putAdminInventory_priced (H : Host) (now : String) (s : State)
    (pharmacyId medicineId : String) (price : JSValue) (pharmacy : Pharmacy)
    (medicine : Medicine)
    (hp : s.pharmacies.find? (fun p => p.id.strictEq (H.parseInt (.string pharmacyId)))
      = some pharmacy)
    (hm : s.medicines.find? (fun m => m.id.strictEq (H.parseInt (.string medicineId)))
      = some medicine)
    (hav : medicine.pharmacies.contains pharmacy.name = true)
    (hprice : price ≠ .undefined) (hstr : price.stringifies = true) :
    putAdminInventory H now s pharmacyId medicineId price =
      ⟨if checkPriceAlertsThrows s.priceAlerts (setPrice now (H.parseFloat price) medicine)
            medicine.price = true then
          ⟨500, .internalError now⟩
        else
          ⟨200, .inventoryUpdated medicine.id medicine.name (H.parseFloat price) pharmacy.name⟩,
        { s with
          medicines :=
            modifyFirst (fun m => m.id.strictEq (H.parseInt (.string medicineId)))
              (setPrice now (H.parseFloat price)) s.medicines },
        checkPriceAlerts now s.priceAlerts (setPrice now (H.parseFloat price) medicine)
          medicine.price,
        (checkPriceAlerts now s.priceAlerts (setPrice now (H.parseFloat price) medicine)
          medicine.price).flatMap (sendAlertToClients s.clients)⟩ := by
  have hav' : pharmacy.name ∈ medicine.pharmacies := by simpa using hav
  simp [putAdminInventory, hp, hm, hav', hprice, hstr, setPrice]

/-- A price the host reads as a number converts to a string. -/
theorem stringifies_of_parseFloat (H : Host) (v : JSValue) (q : ℚ)
    (h : H.parseFloat v = .fin q) : v.stringifies = true := by
  cases v <;> first | rfl | (rw [H.parseFloat_unprintable] at h; cases h)

/-- A price that is not NaN was read from a value that converts to a string. -/
theorem stringifies_of_ne_nan (H : Host) (v : JSValue) (h : H.parseFloat v ≠ .nan) :
    v.stringifies = true := by
  cases v <;> first | rfl | exact absurd H.parseFloat_unprintable h

/-- An accepted update whose price does not convert to a string writes nothing
and emits nothing. -/
theorem putAdminInventory_unprintable (H : Host) (now : String) (s : State)
    (pharmacyId medicineId : String) (pharmacy : Pharmacy) (medicine : Medicine)
    (hs : Stocked H s pharmacyId medicineId pharmacy medicine) :
    putAdminInventory H now s pharmacyId medicineId .unprintable =
      ⟨⟨500, .internalError now⟩, s, [], []⟩ := by
  obtain ⟨hp, hm, hav⟩ := hs
  have hav' : pharmacy.name ∈ medicine.pharmacies := by simpa using hav
  simp [putAdminInventory, hp, hm, hav', JSValue.stringifies]

/-- A value is `unprintable` when it does not convert to a string. -/
theorem eq_unprintable (v : JSValue) (h : v.stringifies = false) : v = .unprintable := by
  cases v <;> first | rfl | cases h

/-- No alert matches a medicine whose price is NaN. -/
theorem relevantAlerts_nan (priceAlerts : List AlertRecord) (medicine : Medicine)
    (oldPrice : Num) (h : medicine.price = .nan) :
    relevantAlerts priceAlerts medicine oldPrice = [] := by
  simp only [relevantAlerts, List.filter_eq_nil_iff]
  intro a _
  simp [alertMatches, h, Num.le]

/-- The payloads of an accepted inventory update that carries a price are the
scan of the registry against the re-priced medicine and its old price. -/
theorem putAdminInventory_scan (H : Host) (now : String) (s : State)
    (pharmacyId medicineId : String) (price : JSValue) (pharmacy : Pharmacy)
    (medicine : Medicine) (hs : Stocked H s pharmacyId medicineId pharmacy medicine)
    (hprice : price ≠ .undefined) :
    (putAdminInventory H now s pharmacyId medicineId price).notifications =
      checkPriceAlerts now s.priceAlerts (setPrice now (H.parseFloat price) medicine)
        medicine.price := by
  by_cases hstr : price.stringifies = true
  · rw [putAdminInventory_priced H now s pharmacyId medicineId price pharmacy medicine hs.1
      hs.2.1 hs.2.2 hprice hstr]
  · have hv : price = .unprintable := eq_unprintable price (by simpa using hstr)
    subst hv
    rw [putAdminInventory_unprintable H now s pharmacyId medicineId pharmacy medicine hs]
    have hnone := relevantAlerts_nan s.priceAlerts
      (setPrice now (H.parseFloat .unprintable) medicine) medicine.price
      (by simp [setPrice, H.parseFloat_unprintable])
    simp [checkPriceAlerts, hnone, reached]

/-- The condition of the alert scan in the terms of the update. -/
theorem alertMatches_setPrice (now : String) (newPrice : Num) (medicine : Medicine) :
    alertMatches (setPrice now newPrice medicine) medicine.price =
      (fun alert => alert.active && alert.medicine_id.strictEq medicine.id &&
          (medicine.price.gt alert.max_price && alert.max_price.ge newPrice)) := by
  funext alert
  simp only [alertMatches, setPrice, Num.ge]
  cases alert.active <;> cases alert.medicine_id.strictEq medicine.id <;>
    cases newPrice.le alert.max_price <;>
    cases medicine.price.gt alert.max_price <;> rfl

/-- C1, the form the code has.  An accepted inventory update that carries a
price hands the broadcaster the payloads of the registered alerts that are
active, are for the updated medicine and have `oldPrice > max_price >= newPrice`,
in registry order, up to and including the first of them whose e-mail does not
convert to a string.  When the e-mail of each of these alerts converts, that is
one payload for each of them; in every case there are no more payloads than
such alerts, and each payload is the one of such an alert. -/
theorem putAdminInventory_notifications (H : Host) (now : String) (s : State)
    (pharmacyId medicineId : String) (price : JSValue) (pharmacy : Pharmacy)
    (medicine : Medicine)
    (hp : s.pharmacies.find? (fun p => p.id.strictEq (H.parseInt (.string pharmacyId)))
      = some pharmacy)
    (hm : s.medicines.find? (fun m => m.id.strictEq (H.parseInt (.string medicineId)))
      = some medicine)
    (hav : medicine.pharmacies.contains pharmacy.name = true)
    (hprice : price ≠ .undefined) :
    (putAdminInventory H now s pharmacyId medicineId price).notifications =
      (reached (s.priceAlerts.filter (fun alert =>
          alert.active && alert.medicine_id.strictEq medicine.id &&
          (medicine.price.gt alert.max_price && alert.max_price.ge (H.parseFloat price))))).map
        (mkAlertData now (setPrice now (H.parseFloat price) medicine)) ∧
    ((∀ alert ∈ s.priceAlerts,
        (alert.active && alert.medicine_id.strictEq medicine.id &&
          (medicine.price.gt alert.max_price && alert.max_price.ge (H.parseFloat price))) = true →
        alert.email.stringifies = true) →
      (putAdminInventory H now s pharmacyId medicineId price).notifications =
        (s.priceAlerts.filter (fun alert =>
            alert.active && alert.medicine_id.strictEq medicine.id &&
            (medicine.price.gt alert.max_price &&
              alert.max_price.ge (H.parseFloat price)))).map
          (mkAlertData now (setPrice now (H.parseFloat price) medicine)) ∧
      (putAdminInventory H now s pharmacyId medicineId price).notifications.length =
        s.priceAlerts.countP (fun alert =>
            alert.active && alert.medicine_id.strictEq medicine.id &&
            (medicine.price.gt alert.max_price &&
              alert.max_price.ge (H.parseFloat price)))) ∧
    (putAdminInventory H now s pharmacyId medicineId price).notifications.length ≤
      s.priceAlerts.countP (fun alert =>
          alert.active && alert.medicine_id.strictEq medicine.id &&
          (medicine.price.gt alert.max_price && alert.max_price.ge (H.parseFloat price))) ∧
    (∀ d ∈ (putAdminInventory H now s pharmacyId medicineId price).notifications,
      ∃ alert ∈ s.priceAlerts,
        (alert.active && alert.medicine_id.strictEq medicine.id &&
          (medicine.price.gt alert.max_price && alert.max_price.ge (H.parseFloat price))) = true ∧
        d = mkAlertData now (setPrice now (H.parseFloat price) medicine) alert) := by
  rw [putAdminInventory_scan H now s pharmacyId medicineId price pharmacy medicine ⟨hp, hm, hav⟩
    hprice]
  simp only [checkPriceAlerts, relevantAlerts, alertMatches_setPrice]
  refine ⟨trivial, ?_, ?_, ?_⟩
  · intro hall
    rw [reached_eq_self _ (fun a ha => hall a (List.mem_filter.1 ha).1 (List.mem_filter.1 ha).2)]
    simp only [List.length_map, List.countP_eq_length_filter, and_self]
  · rw [List.length_map, List.countP_eq_length_filter]
    exact (reached_isPrefix _).length_le
  · intro d hd
    obtain ⟨a, ha, rfl⟩ := List.mem_map.1 hd
    have ha' := (reached_isPrefix _).subset ha
    exact ⟨a, (List.mem_filter.1 ha').1, (List.mem_filter.1 ha').2, rfl⟩

/-- C1, counterexample.  Two alerts for medicine 1 are registered, with
targets 40 and 39, the first with the e-mail `{"toString": 1}`.  The update of
the price from 45 to 38 matches both, and the broadcaster is handed one
payload, that of the first: the log line after its send throws, and the request
is answered 500. -/
theorem putAdminInventory_stops_at_unprintable_email :
    (unprintableFirst.priceAlerts.filter (fun alert =>
        alert.active && alert.medicine_id.strictEq dolo.id &&
        (dolo.price.gt alert.max_price && alert.max_price.ge (.fin 38)))).map
      (fun alert => alert.max_price) = [.fin 40, .fin 39] ∧
    (putAdminInventory refHost "2023-11-02T09:00:00.000Z" unprintableFirst "2" "1"
      (.number (.fin 38))).notifications.map (fun d => d.target_price) = [.fin 40] ∧
    (putAdminInventory refHost "2023-11-02T09:00:00.000Z" unprintableFirst "2" "1"
      (.number (.fin 38))).response.status = 500 := by
  refine ⟨by decide, by decide, by decide⟩

/-- Witness of C1: three alerts registered for medicine 1 on the seeded stores,
with targets 40, 39 and 30; the update from 45 to 38 through pharmacy 2 hands
over the payloads of the first two. -/
theorem putAdminInventory_notifications_witness :
    threeAlerts.priceAlerts.map (fun alert => alert.max_price) = [.fin 40, .fin 39, .fin 30] ∧
    (putAdminInventory refHost "2023-11-02T09:00:00.000Z" threeAlerts "2" "1"
        (.number (.fin 38))).notifications.map (fun d => d.target_price) = [.fin 40, .fin 39] ∧
    (putAdminInventory refHost "2023-11-02T09:00:00.000Z" threeAlerts "2" "1"
        (.number (.fin 38))).notifications =
      (threeAlerts.priceAlerts.filter (fun alert =>
          alert.active && alert.medicine_id.strictEq dolo.id &&
          (dolo.price.gt alert.max_price &&
            alert.max_price.ge (refHost.parseFloat (.number (.fin 38)))))).map
        (mkAlertData "2023-11-02T09:00:00.000Z"
          (setPrice "2023-11-02T09:00:00.000Z" (refHost.parseFloat (.number (.fin 38)))
            dolo)) :=
  ⟨by decide, by decide,
    ((putAdminInventory_notifications refHost "2023-11-02T09:00:00.000Z" threeAlerts "2" "1"
      (.number (.fin 38)) medplus dolo
      (by rfl) (by rfl) (by rfl) (by decide)).2.1 (by decide)).1⟩

/-! ## Alert registration -/

/-- No number is strictly equal to NaN. -/
theorem Num.strictEq_nan (a : Num) : a.strictEq .nan = false := by
  cases a <;> rfl

/-- A `medicine_id` that names a medicine of the catalogue converts to a
string. -/
theorem stringifies_of_find (H : Host) (catalog : List Medicine) (medicine_id : JSValue)
    (medicine : Medicine)
    (hfind : catalog.find? (fun m => m.id.strictEq (H.parseInt medicine_id)) = some medicine) :
    medicine_id.stringifies = true := by
  cases medicine_id <;> first
    | rfl
    | (have h := @List.find?_some Medicine (fun m => m.id.strictEq (H.parseInt .unprintable))
        _ _ hfind
       rw [H.parseInt_unprintable] at h
       simp [Num.strictEq_nan] at h)

/-- C2, refuted as stated: on the seeded stores a registration for the unknown
medicine id 999 with an empty `email` is answered 400, not 404, and one whose
`medicine_id` is `{"toString": 1}`, which names no medicine, is answered 500. -/
theorem postAlertsPrice_unknown_medicine_not_always_404 :
    (initialState []).medicines.find?
        (fun m => m.id.strictEq (refHost.parseInt (.number (.fin 999)))) = none ∧
    (postAlertsPrice refHost "2023-11-02T09:00:00.000Z" (initialState [])
        (.number (.fin 999)) (.number (.fin 40)) (.string "")).1.status = 400 ∧
    (postAlertsPrice refHost "2023-11-02T09:00:00.000Z" (initialState [])
        .unprintable (.number (.fin 40)) (.string "user@example.com")).1.status = 500 := by
  refine ⟨?_, ?_, ?_⟩ <;> rfl

/-- C2, amended. A registration whose `medicine_id` matches no medicine of the
catalogue always fails and leaves every store as it was, the counter included.
It is answered 400 (the required fields check, which comes first) when
`medicine_id`, `max_price` or `email` is falsy; otherwise 500 when the
catalogue is not empty and `medicine_id` does not convert to a string
(`parseInt` throws at the first record); otherwise 404. -/
theorem postAlertsPrice_unknown_medicine (H : Host) (now : String) (s : State)
    (medicine_id max_price email : JSValue)
    (hnone : s.medicines.find? (fun m => m.id.strictEq (H.parseInt medicine_id)) = none) :
    (postAlertsPrice H now s medicine_id max_price email).1.status =
      (if medicine_id.truthy && max_price.truthy && email.truthy then
        (if !s.medicines.isEmpty && !medicine_id.stringifies then 500 else 404)
      else 400) ∧
    (postAlertsPrice H now s medicine_id max_price email).2 = s := by
  unfold postAlertsPrice
  cases medicine_id.truthy <;> cases max_price.truthy <;> cases email.truthy <;>
    cases (!s.medicines.isEmpty && !medicine_id.stringifies) <;>
    simp [hnone]

/-- Witness of the amended C2: the unknown id 999 with a complete body. -/
theorem postAlertsPrice_unknown_medicine_witness :
    (postAlertsPrice refHost "2023-11-02T09:00:00.000Z" (initialState [])
        (.number (.fin 999)) (.number (.fin 40)) (.string "user@example.com")).1.status = 404 ∧
    (postAlertsPrice refHost "2023-11-02T09:00:00.000Z" (initialState [])
        (.number (.fin 999)) (.number (.fin 40)) (.string "user@example.com")).2 =
      initialState [] :=
  postAlertsPrice_unknown_medicine refHost "2023-11-02T09:00:00.000Z" (initialState [])
    (.number (.fin 999)) (.number (.fin 40)) (.string "user@example.com") (by rfl)

/-- C3, refuted as stated: on the seeded stores a registration for medicine 1
with the negative target `-5`, and one with the non-numeric target `"cheap"`,
are both answered 201 and stored. -/
theorem postAlertsPrice_accepts_negative_and_non_numeric :
    (postAlertsPrice refHost "2023-11-02T09:00:00.000Z" (initialState [])
        (.number (.fin 1)) (.number (.fin (-5))) (.string "user@example.com")).1.status = 201 ∧
    ((postAlertsPrice refHost "2023-11-02T09:00:00.000Z" (initialState [])
        (.number (.fin 1)) (.number (.fin (-5))) (.string "user@example.com")).2.priceAlerts.map
      (fun a => a.max_price)) = [.fin (-5)] ∧
    (postAlertsPrice refHost "2023-11-02T09:00:00.000Z" (initialState [])
        (.number (.fin 1)) (.string "cheap") (.string "user@example.com")).1.status = 201 ∧
    ((postAlertsPrice refHost "2023-11-02T09:00:00.000Z" (initialState [])
        (.number (.fin 1)) (.string "cheap") (.string "user@example.com")).2.priceAlerts.map
      (fun a => a.max_price)) = [.nan] := by
  refine ⟨?_, ?_, ?_, ?_⟩ <;> rfl

/-- C3, amended. A registration is answered 400 and changes no store whenever
`max_price` is falsy (absent, `null`, `false`, `0`, NaN or the empty string) or
`email` is falsy.  Nothing else is validated: when the three fields are truthy
and the medicine exists, a `max_price` that converts to a string is answered
201 and appends the alert whose `max_price` is `parseFloat(max_price)`, be it
negative or NaN; a `max_price` that does not convert makes `parseFloat` throw,
which is answered 500, with no alert stored and one id consumed. -/
theorem postAlertsPrice_validation (H : Host) (now : String) (s : State)
    (medicine_id max_price email : JSValue) :
    ((max_price.truthy = false ∨ email.truthy = false) →
      (postAlertsPrice H now s medicine_id max_price email).1.status = 400 ∧
      (postAlertsPrice H now s medicine_id max_price email).2 = s) ∧
    (∀ medicine : Medicine,
      medicine_id.truthy = true → max_price.truthy = true → email.truthy = true →
      s.medicines.find? (fun m => m.id.strictEq (H.parseInt medicine_id)) = some medicine →
      (max_price.stringifies = true →
        (postAlertsPrice H now s medicine_id max_price email).1.status = 201 ∧
        (postAlertsPrice H now s medicine_id max_price email).2 =
          { s with
            priceAlerts := s.priceAlerts ++
              [{ id := s.currentId
                 medicine_id := H.parseInt medicine_id
                 medicine_name := medicine.name
                 max_price := H.parseFloat max_price
                 email := email
                 created_at := now
                 active := true }]
            currentId := s.currentId + 1 }) ∧
      (max_price.stringifies = false →
        (postAlertsPrice H now s medicine_id max_price email).1.status = 500 ∧
        (postAlertsPrice H now s medicine_id max_price email).2 =
          { s with currentId := s.currentId + 1 })) := by
  constructor
  · intro h
    unfold postAlertsPrice
    rcases h with h | h <;> simp [h]
  · intro medicine h1 h2 h3 hfind
    have hstr := stringifies_of_find H s.medicines medicine_id medicine hfind
    constructor
    · intro h4
      simp [postAlertsPrice, h1, h2, h3, hfind, hstr, h4]
    · intro h4
      simp [postAlertsPrice, h1, h2, h3, hfind, hstr, h4]

/-- Witness of the amended C3: an empty `email` is rejected, the target `-5`
for the seeded medicine is stored, and the target `{"toString": 1}` is answered
500 with the registry as it was. -/
theorem postAlertsPrice_validation_witness :
    ((postAlertsPrice refHost "2023-11-02T09:00:00.000Z" (initialState [])
        (.number (.fin 1)) (.number (.fin 40)) (.string "")).1.status = 400 ∧
      (postAlertsPrice refHost "2023-11-02T09:00:00.000Z" (initialState [])
        (.number (.fin 1)) (.number (.fin 40)) (.string "")).2 = initialState []) ∧
    ((postAlertsPrice refHost "2023-11-02T09:00:00.000Z" (initialState [])
        (.number (.fin 1)) (.number (.fin (-5))) (.string "user@example.com")).1.status = 201 ∧
      (postAlertsPrice refHost "2023-11-02T09:00:00.000Z" (initialState [])
        (.number (.fin 1)) (.number (.fin (-5))) (.string "user@example.com")).2 =
        { initialState [] with
          priceAlerts := (initialState []).priceAlerts ++
            [{ id := (initialState []).currentId
               medicine_id := refHost.parseInt (.number (.fin 1))
               medicine_name := dolo.name
               max_price := refHost.parseFloat (.number (.fin (-5)))
               email := .string "user@example.com"
               created_at := "2023-11-02T09:00:00.000Z"
               active := true }]
          currentId := (initialState []).currentId + 1 }) ∧
    ((postAlertsPrice refHost "2023-11-02T09:00:00.000Z" (initialState [])
        (.number (.fin 1)) .unprintable (.string "user@example.com")).1.status = 500 ∧
      (postAlertsPrice refHost "2023-11-02T09:00:00.000Z" (initialState [])
        (.number (.fin 1)) .unprintable (.string "user@example.com")).2 =
        { initialState [] with currentId := (initialState []).currentId + 1 }) :=
  ⟨(postAlertsPrice_validation refHost "2023-11-02T09:00:00.000Z" (initialState [])
      (.number (.fin 1)) (.number (.fin 40)) (.string "")).1 (Or.inr (by rfl)),
   ((postAlertsPrice_validation refHost "2023-11-02T09:00:00.000Z" (initialState [])
      (.number (.fin 1)) (.number (.fin (-5))) (.string "user@example.com")).2 dolo
      (by rfl) (by rfl) (by rfl) (by rfl)).1 (by rfl),
   ((postAlertsPrice_validation refHost "2023-11-02T09:00:00.000Z" (initialState [])
      (.number (.fin 1)) .unprintable (.string "user@example.com")).2 dolo
      (by rfl) (by rfl) (by rfl) (by rfl)).2 (by rfl)⟩

/-! ## Sequences of price updates -/

/-- An accepted update that carries a price which converts to a string keeps
the three lookups valid, now returning the re-priced medicine, keeps the
registry, and emits the scan of the registry against the re-priced medicine and
its old price. -/
theorem putAdminInventory_step (H : Host) (now : String) (s : State)
    (pharmacyId medicineId : String) (price : JSValue) (pharmacy : Pharmacy)
    (medicine : Medicine) (hs : Stocked H s pharmacyId medicineId pharmacy medicine)
    (hprice : price ≠ .undefined) (hstr : price.stringifies = true) :
    Stocked H (putAdminInventory H now s pharmacyId medicineId price).state pharmacyId
        medicineId pharmacy (setPrice now (H.parseFloat price) medicine) ∧
    (putAdminInventory H now s pharmacyId medicineId price).state.priceAlerts = s.priceAlerts ∧
    (putAdminInventory H now s pharmacyId medicineId price).notifications =
      checkPriceAlerts now s.priceAlerts (setPrice now (H.parseFloat price) medicine)
        medicine.price := by
  obtain ⟨hp, hm, hav⟩ := hs
  rw [putAdminInventory_priced H now s pharmacyId medicineId price pharmacy medicine hp hm hav
    hprice hstr]
  refine ⟨⟨hp, ?_, hav⟩, rfl, rfl⟩
  have hid : medicine.id.strictEq (H.parseInt (.string medicineId)) = true :=
    @List.find?_some Medicine (fun m => m.id.strictEq (H.parseInt (.string medicineId))) _ _ hm
  exact find?_modifyFirst (fun m => m.id.strictEq (H.parseInt (.string medicineId)))
    (setPrice now (H.parseFloat price)) s.medicines medicine hm hid

/-- An old price at or below the target is not above it. -/
theorem Num.gt_eq_false_of_le (a b : Num) (h : a.le b = true) : a.gt b = false := by
  cases a <;> cases b <;> simp_all [Num.le, Num.gt, Num.lt]

/-- A new price above the target is not at or below it. -/
theorem Num.le_eq_false_of_gt (a b : Num) (h : a.gt b = true) : a.le b = false := by
  cases a <;> cases b <;> simp_all [Num.le, Num.gt, Num.lt]

/-- C4. From stores in which "Dolo 650" costs 45 and the registry is one
active alert for it with target 40, the accepted price updates 50, 38, 35 emit
no notification, then exactly one, then none. -/
theorem dolo_three_updates (H : Host) (now1 now2 now3 : String) (s : State)
    (pharmacyId medicineId : String) (v1 v2 v3 : JSValue) (pharmacy : Pharmacy)
    (medicine : Medicine) (alert : AlertRecord)
    (hs : Stocked H s pharmacyId medicineId pharmacy medicine)
    (hname : medicine.name = "Dolo 650") (hprice : medicine.price = .fin 45)
    (hreg : s.priceAlerts = [alert]) (hact : alert.active = true)
    (hid : alert.medicine_id.strictEq medicine.id = true) (htarget : alert.max_price = .fin 40)
    (h1 : v1 ≠ .undefined ∧ H.parseFloat v1 = .fin 50)
    (h2 : v2 ≠ .undefined ∧ H.parseFloat v2 = .fin 38)
    (h3 : v3 ≠ .undefined ∧ H.parseFloat v3 = .fin 35) :
    (putAdminInventory H now1 s pharmacyId medicineId v1).notifications.length = 0 ∧
    (putAdminInventory H now2 (putAdminInventory H now1 s pharmacyId medicineId v1).state
      pharmacyId medicineId v2).notifications.length = 1 ∧
    (putAdminInventory H now3
      (putAdminInventory H now2 (putAdminInventory H now1 s pharmacyId medicineId v1).state
        pharmacyId medicineId v2).state pharmacyId medicineId v3).notifications.length = 0 ∧
    ((putAdminInventory H now2 (putAdminInventory H now1 s pharmacyId medicineId v1).state
      pharmacyId medicineId v2).notifications.map (fun d => (d.medicine, d.current_price)))
      = [("Dolo 650", .fin 38)] := by
  obtain ⟨hs1, hr1, hn1⟩ :=
    putAdminInventory_step H now1 s pharmacyId medicineId v1 pharmacy medicine hs h1.1
      (stringifies_of_parseFloat H v1 50 h1.2)
  obtain ⟨hs2, hr2, hn2⟩ :=
    putAdminInventory_step H now2 _ pharmacyId medicineId v2 pharmacy _ hs1 h2.1
      (stringifies_of_parseFloat H v2 38 h2.2)
  obtain ⟨_, _, hn3⟩ :=
    putAdminInventory_step H now3 _ pharmacyId medicineId v3 pharmacy _ hs2 h3.1
      (stringifies_of_parseFloat H v3 35 h3.2)
  rw [hn3, hn2, hn1, hr2, hr1, hreg]
  have e1 : Num.le (.fin 50) (.fin 40) = false := by decide
  have e2 : Num.le (.fin 38) (.fin 40) = true := by decide
  have e3 : Num.gt (.fin 50) (.fin 40) = true := by decide
  have e4 : Num.gt (.fin 38) (.fin 40) = false := by decide
  obtain ⟨r, hr⟩ := reached_cons alert []
  have hr' : reached [alert] = [alert] := by
    have hpre := reached_isPrefix [alert]
    rw [hr] at hpre ⊢
    have hlen := hpre.length_le
    cases r with
    | nil => rfl
    | cons x xs => simp at hlen
  simp [checkPriceAlerts, relevantAlerts, alertMatches, setPrice, mkAlertData, h1.2, h2.2, h3.2,
    hprice, hact, hid, htarget, hname, e1, e2, e3, e4, hr', reached]

/-- The seeded stores after the registration of an alert with target 40 for
medicine 1: the witness of C4. -/
theorem dolo_three_updates_witness :
    (putAdminInventory refHost "2023-11-02T09:00:00.000Z"
      (postAlertsPrice refHost "2023-11-01T08:00:00.000Z" (initialState [])
        (.number (.fin 1)) (.number (.fin 40)) (.string "user@example.com")).2
      "2" "1" (.number (.fin 50))).notifications.length = 0 ∧
    (putAdminInventory refHost "2023-11-03T09:00:00.000Z"
      (putAdminInventory refHost "2023-11-02T09:00:00.000Z"
        (postAlertsPrice refHost "2023-11-01T08:00:00.000Z" (initialState [])
          (.number (.fin 1)) (.number (.fin 40)) (.string "user@example.com")).2
        "2" "1" (.number (.fin 50))).state
      "2" "1" (.number (.fin 38))).notifications.length = 1 ∧
    (putAdminInventory refHost "2023-11-04T09:00:00.000Z"
      (putAdminInventory refHost "2023-11-03T09:00:00.000Z"
        (putAdminInventory refHost "2023-11-02T09:00:00.000Z"
          (postAlertsPrice refHost "2023-11-01T08:00:00.000Z" (initialState [])
            (.number (.fin 1)) (.number (.fin 40)) (.string "user@example.com")).2
          "2" "1" (.number (.fin 50))).state
        "2" "1" (.number (.fin 38))).state
      "2" "1" (.number (.fin 35))).notifications.length = 0 :=
  have h := dolo_three_updates refHost "2023-11-02T09:00:00.000Z" "2023-11-03T09:00:00.000Z"
    "2023-11-04T09:00:00.000Z"
    (postAlertsPrice refHost "2023-11-01T08:00:00.000Z" (initialState [])
      (.number (.fin 1)) (.number (.fin 40)) (.string "user@example.com")).2
    "2" "1" (.number (.fin 50)) (.number (.fin 38)) (.number (.fin 35)) medplus dolo
    { id := 11, medicine_id := .fin 1, medicine_name := "Dolo 650", max_price := .fin 40,
      email := .string "user@example.com", created_at := "2023-11-01T08:00:00.000Z",
      active := true }
    ⟨by rfl, by rfl, by rfl⟩ (by rfl) (by rfl) (by rfl) (by rfl) (by rfl) (by rfl)
    ⟨by decide, by rfl⟩ ⟨by decide, by rfl⟩ ⟨by decide, by rfl⟩
  ⟨h.1, h.2.1, h.2.2.1⟩

/-! ## Broadcast -/

/-- The loop visits the same positions when each e-mail is replaced by one
that converts to a string exactly when the old one does. -/
theorem reached_map_email (l : List AlertRecord) (e : AlertRecord → JSValue)
    (he : ∀ a ∈ l, (e a).stringifies = a.email.stringifies) :
    reached (l.map (fun a => { a with email := e a })) =
      (reached l).map (fun a => { a with email := e a }) := by
  induction l with
  | nil => rfl
  | cons a l ih =>
    have ha := he a (List.mem_cons_self _ _)
    have ih' := ih (fun b hb => he b (List.mem_cons_of_mem _ hb))
    by_cases h : a.email.stringifies = true
    · have h' : (e a).stringifies = true := by rw [ha]; exact h
      simp only [List.map_cons, reached, h, h', if_true]
      exact congrArg _ ih'
    · have h0 : a.email.stringifies = false := by simpa using h
      have h' : (e a).stringifies = false := by rw [ha]; exact h0
      simp [reached, h0, h']

/-- The payloads of the scan are the same when each e-mail of the registry is
replaced by one that converts to a string exactly when the old one does. -/
theorem checkPriceAlerts_email (now : String) (alerts : List AlertRecord)
    (e : AlertRecord → JSValue) (medicine : Medicine) (oldPrice : Num)
    (he : ∀ a ∈ alerts, (e a).stringifies = a.email.stringifies) :
    checkPriceAlerts now (alerts.map (fun a => { a with email := e a })) medicine oldPrice =
      checkPriceAlerts now alerts medicine oldPrice := by
  have hfilter : (alerts.map (fun a => { a with email := e a })).filter
        (alertMatches medicine oldPrice) =
      (alerts.filter (alertMatches medicine oldPrice)).map (fun a => { a with email := e a }) := by
    rw [List.filter_map]
    rfl
  simp only [checkPriceAlerts, relevantAlerts, hfilter]
  rw [reached_map_email _ e (fun a ha => he a (List.mem_filter.1 ha).1), List.map_map]
  rfl

/-- C5. The sends of `sendAlertToClients` go to the clients whose `readyState`
is `OPEN`, each once and in the order of `wss.clients`, and to no other client,
and each carries the payload; the payload of an alert, and so its sends, are
the same whatever the `email` of the alert.  An inventory update sends every
payload it emits in this way, and all its sends are the same when each e-mail
of the registry is replaced by another one that converts to a string exactly
when the old one does. -/
theorem sendAlertToClients_recipients (H : Host) (now : String) (s : State)
    (pharmacyId medicineId : String) (price : JSValue) (e : AlertRecord → JSValue)
    (clients : List Client) (alertData : AlertData) (medicine : Medicine)
    (alert : AlertRecord)
    (he : ∀ a ∈ s.priceAlerts, (e a).stringifies = a.email.stringifies) :
    (sendAlertToClients clients alertData).map Prod.fst =
      clients.filter (fun client => client.readyState == WebSocket.OPEN) ∧
    (∀ client : Client, client ∈ (sendAlertToClients clients alertData).map Prod.fst ↔
      client ∈ clients ∧ client.readyState = WebSocket.OPEN) ∧
    (∀ d ∈ sendAlertToClients clients alertData, d.2 = alertData) ∧
    sendAlertToClients clients (mkAlertData now medicine { alert with email := e alert }) =
      sendAlertToClients clients (mkAlertData now medicine alert) ∧
    (putAdminInventory H now s pharmacyId medicineId price).deliveries =
      (putAdminInventory H now s pharmacyId medicineId price).notifications.flatMap
        (sendAlertToClients s.clients) ∧
    (putAdminInventory H now
        { s with priceAlerts := s.priceAlerts.map (fun a => { a with email := e a }) }
        pharmacyId medicineId price).deliveries =
      (putAdminInventory H now s pharmacyId medicineId price).deliveries := by
  have hrec : (sendAlertToClients clients alertData).map Prod.fst =
      clients.filter (fun client => client.readyState == WebSocket.OPEN) := by
    simp [sendAlertToClients, List.map_map, Function.comp_def]
  refine ⟨hrec, ?_, ?_, rfl, ?_, ?_⟩
  · intro client
    rw [hrec]
    simp [List.mem_filter]
  · intro d hd
    simp only [sendAlertToClients, List.mem_map] at hd
    obtain ⟨c, _, rfl⟩ := hd
    rfl
  · unfold putAdminInventory
    cases s.pharmacies.find? (fun p => p.id.strictEq (H.parseInt (.string pharmacyId))) with
    | none => rfl
    | some pharmacy =>
      cases s.medicines.find? (fun m => m.id.strictEq (H.parseInt (.string medicineId))) with
      | none => rfl
      | some medicine =>
        simp only []
        split_ifs <;> rfl
  · unfold putAdminInventory
    simp only [checkPriceAlerts_email _ _ e _ _ he]
    cases s.pharmacies.find? (fun p => p.id.strictEq (H.parseInt (.string pharmacyId))) with
    | none => rfl
    | some pharmacy =>
      cases s.medicines.find? (fun m => m.id.strictEq (H.parseInt (.string medicineId))) with
      | none => rfl
      | some medicine =>
        simp only []
        split_ifs <;> rfl

/-- Witness of C5: three alerts registered for medicine 1, one open and one
closed client; the update from 45 to 38 sends the two payloads to the open
client, also when every e-mail of the registry is replaced by another
address. -/
theorem sendAlertToClients_recipients_witness :
    (putAdminInventory refHost "2023-11-02T09:00:00.000Z"
        { threeAlerts with clients := [⟨1, WebSocket.OPEN⟩, ⟨2, 3⟩] } "2" "1"
        (.number (.fin 38))).deliveries.map (fun d => (d.1.id, d.2.target_price)) =
      [(1, .fin 40), (1, .fin 39)] ∧
    (putAdminInventory refHost "2023-11-02T09:00:00.000Z"
        { { threeAlerts with clients := [⟨1, WebSocket.OPEN⟩, ⟨2, 3⟩] } with
          priceAlerts :=
            ({ threeAlerts with clients := [⟨1, WebSocket.OPEN⟩, ⟨2, 3⟩] } : State).priceAlerts.map
              (fun a => { a with email := (fun _ => .string "other@example.com") a }) }
        "2" "1" (.number (.fin 38))).deliveries =
      (putAdminInventory refHost "2023-11-02T09:00:00.000Z"
        { threeAlerts with clients := [⟨1, WebSocket.OPEN⟩, ⟨2, 3⟩] } "2" "1"
        (.number (.fin 38))).deliveries :=
  ⟨by decide,
    (sendAlertToClients_recipients refHost "2023-11-02T09:00:00.000Z"
      { threeAlerts with clients := [⟨1, WebSocket.OPEN⟩, ⟨2, 3⟩] } "2" "1" (.number (.fin 38))
      (fun _ => .string "other@example.com") [⟨1, WebSocket.OPEN⟩, ⟨2, 3⟩]
      (mkAlertData "2023-11-02T09:00:00.000Z" dolo
        { id := 11, medicine_id := .fin 1, medicine_name := "Dolo 650", max_price := .fin 40,
          email := .string "first@example.com", created_at := "2023-11-01T08:00:00.000Z",
          active := true })
      dolo
      { id := 11, medicine_id := .fin 1, medicine_name := "Dolo 650", max_price := .fin 40,
        email := .string "first@example.com", created_at := "2023-11-01T08:00:00.000Z",
        active := true }
      (by decide)).2.2.2.2.2⟩

/-! ## Re-arming -/

/-- The scan of a registry at one of its alerts that matches, when the e-mail
of each matching alert registered before it converts to a string: the payloads
of the matching alerts before it, its own payload, and, when its own e-mail
converts, the scan of the alerts after it. -/
theorem checkPriceAlerts_at_match (now : String) (pre post : List AlertRecord)
    (alert : AlertRecord) (medicine : Medicine) (oldPrice : Num)
    (hm : alertMatches medicine oldPrice alert = true)
    (hpre : ∀ a ∈ relevantAlerts pre medicine oldPrice, a.email.stringifies = true) :
    checkPriceAlerts now (pre ++ alert :: post) medicine oldPrice =
      (relevantAlerts pre medicine oldPrice).map (mkAlertData now medicine) ++
        (mkAlertData now medicine alert ::
          (if alert.email.stringifies then checkPriceAlerts now post medicine oldPrice
            else [])) := by
  unfold checkPriceAlerts relevantAlerts at *
  rw [List.filter_append, List.filter_cons, if_pos hm, reached_append _ _ hpre]
  by_cases h : alert.email.stringifies = true
  · simp [reached, h]
  · simp [reached, h]

/-- The scan of a registry skips an alert that does not match. -/
theorem checkPriceAlerts_at_miss (now : String) (pre post : List AlertRecord)
    (alert : AlertRecord) (medicine : Medicine) (oldPrice : Num)
    (hm : alertMatches medicine oldPrice alert = false) :
    checkPriceAlerts now (pre ++ alert :: post) medicine oldPrice =
      checkPriceAlerts now (pre ++ post) medicine oldPrice := by
  unfold checkPriceAlerts relevantAlerts
  simp [List.filter_append, List.filter_cons, hm]

/-- C6, the form the code has.  Take an active alert for the updated medicine
anywhere in the registry, and three accepted updates that take the price from
above its target to at or below it, back above, and again to at or below.  On
the first and on the third update, when the e-mail of each matching alert
registered before it converts to a string, the alert contributes exactly one
payload, placed after the payloads of those alerts; on the second it
contributes none.  Alone in the registry it fires exactly twice over the three
updates.  It contributes nothing to an update whose old price is at or below
its target. -/
theorem alert_rearms (H : Host) (now1 now2 now3 : String) (s : State)
    (pharmacyId medicineId : String) (v1 v2 v3 : JSValue) (pharmacy : Pharmacy)
    (medicine : Medicine) (pre post : List AlertRecord) (alert : AlertRecord)
    (hs : Stocked H s pharmacyId medicineId pharmacy medicine)
    (hreg : s.priceAlerts = pre ++ alert :: post) (hact : alert.active = true)
    (hid : alert.medicine_id.strictEq medicine.id = true)
    (hv1 : v1 ≠ .undefined) (hv2 : v2 ≠ .undefined) (hv3 : v3 ≠ .undefined)
    (h0 : medicine.price.gt alert.max_price = true)
    (h1 : (H.parseFloat v1).le alert.max_price = true)
    (h2 : (H.parseFloat v2).gt alert.max_price = true)
    (h3 : (H.parseFloat v3).le alert.max_price = true) :
    ((∀ a ∈ relevantAlerts pre (setPrice now1 (H.parseFloat v1) medicine) medicine.price,
        a.email.stringifies = true) →
      (putAdminInventory H now1 s pharmacyId medicineId v1).notifications =
        (relevantAlerts pre (setPrice now1 (H.parseFloat v1) medicine) medicine.price).map
            (mkAlertData now1 (setPrice now1 (H.parseFloat v1) medicine)) ++
          (mkAlertData now1 (setPrice now1 (H.parseFloat v1) medicine) alert ::
            (if alert.email.stringifies then
              checkPriceAlerts now1 post (setPrice now1 (H.parseFloat v1) medicine)
                medicine.price
            else []))) ∧
    (putAdminInventory H now2 (putAdminInventory H now1 s pharmacyId medicineId v1).state
        pharmacyId medicineId v2).notifications =
      checkPriceAlerts now2 (pre ++ post)
          (setPrice now2 (H.parseFloat v2) (setPrice now1 (H.parseFloat v1) medicine))
          (H.parseFloat v1) ∧
    ((∀ a ∈ relevantAlerts pre
          (setPrice now3 (H.parseFloat v3)
            (setPrice now2 (H.parseFloat v2) (setPrice now1 (H.parseFloat v1) medicine)))
          (H.parseFloat v2),
        a.email.stringifies = true) →
      (putAdminInventory H now3
          (putAdminInventory H now2 (putAdminInventory H now1 s pharmacyId medicineId v1).state
            pharmacyId medicineId v2).state pharmacyId medicineId v3).notifications =
        (relevantAlerts pre
            (setPrice now3 (H.parseFloat v3)
              (setPrice now2 (H.parseFloat v2) (setPrice now1 (H.parseFloat v1) medicine)))
            (H.parseFloat v2)).map
          (mkAlertData now3
            (setPrice now3 (H.parseFloat v3)
              (setPrice now2 (H.parseFloat v2) (setPrice now1 (H.parseFloat v1) medicine)))) ++
          (mkAlertData now3
              (setPrice now3 (H.parseFloat v3)
                (setPrice now2 (H.parseFloat v2) (setPrice now1 (H.parseFloat v1) medicine)))
              alert ::
            (if alert.email.stringifies then
              checkPriceAlerts now3 post
                (setPrice now3 (H.parseFloat v3)
                  (setPrice now2 (H.parseFloat v2) (setPrice now1 (H.parseFloat v1) medicine)))
                (H.parseFloat v2)
            else []))) ∧
    (pre = [] → post = [] →
      (putAdminInventory H now1 s pharmacyId medicineId v1).notifications.length +
      (putAdminInventory H now2 (putAdminInventory H now1 s pharmacyId medicineId v1).state
        pharmacyId medicineId v2).notifications.length +
      (putAdminInventory H now3
        (putAdminInventory H now2 (putAdminInventory H now1 s pharmacyId medicineId v1).state
          pharmacyId medicineId v2).state pharmacyId medicineId v3).notifications.length = 2) ∧
    (∀ (now : String) (t : State) (v : JSValue) (m : Medicine),
      Stocked H t pharmacyId medicineId pharmacy m → t.priceAlerts = pre ++ alert :: post →
      v ≠ .undefined → m.price.le alert.max_price = true →
      (putAdminInventory H now t pharmacyId medicineId v).notifications =
        checkPriceAlerts now (pre ++ post) (setPrice now (H.parseFloat v) m) m.price) := by
  have s1 : v1.stringifies = true :=
    stringifies_of_ne_nan H v1 (by intro h; rw [h] at h1; simp [Num.le] at h1)
  have s2 : v2.stringifies = true :=
    stringifies_of_ne_nan H v2 (by
      intro h; rw [h] at h2; cases hmax : alert.max_price <;> rw [hmax] at h2 <;>
        simp [Num.gt, Num.lt] at h2)
  have s3 : v3.stringifies = true :=
    stringifies_of_ne_nan H v3 (by intro h; rw [h] at h3; simp [Num.le] at h3)
  obtain ⟨hs1, hr1, hn1⟩ :=
    putAdminInventory_step H now1 s pharmacyId medicineId v1 pharmacy medicine hs hv1 s1
  obtain ⟨hs2, hr2, hn2⟩ :=
    putAdminInventory_step H now2 _ pharmacyId medicineId v2 pharmacy _ hs1 hv2 s2
  obtain ⟨_, _, hn3⟩ :=
    putAdminInventory_step H now3 _ pharmacyId medicineId v3 pharmacy _ hs2 hv3 s3
  have m1 : alertMatches (setPrice now1 (H.parseFloat v1) medicine) medicine.price alert
      = true := by
    simp [alertMatches, setPrice, hid, hact, h0, h1]
  have m2 : alertMatches
      (setPrice now2 (H.parseFloat v2) (setPrice now1 (H.parseFloat v1) medicine))
      (setPrice now1 (H.parseFloat v1) medicine).price alert = false := by
    simp [alertMatches, setPrice, Num.le_eq_false_of_gt _ _ h2]
  have m3 : alertMatches
      (setPrice now3 (H.parseFloat v3)
        (setPrice now2 (H.parseFloat v2) (setPrice now1 (H.parseFloat v1) medicine)))
      (setPrice now2 (H.parseFloat v2) (setPrice now1 (H.parseFloat v1) medicine)).price alert
      = true := by
    simp [alertMatches, setPrice, hid, hact, h2, h3]
  have e1 := hn1
  have e2 := hn2
  have e3 := hn3
  rw [hr2, hr1, hreg] at e3
  rw [hr1, hreg, checkPriceAlerts_at_miss _ _ _ _ _ _ m2] at e2
  rw [hreg] at e1
  refine ⟨?_, by simpa [setPrice] using e2, ?_, ?_, ?_⟩
  · intro hpre
    rw [e1, checkPriceAlerts_at_match _ _ _ _ _ _ m1 hpre]
  · intro hpre
    rw [e3]
    exact checkPriceAlerts_at_match _ _ _ _ _ _ m3 hpre
  · intro hpre hpost
    subst hpre hpost
    rw [e1, e2, e3, checkPriceAlerts_at_match _ _ _ _ _ _ m1 (by simp [relevantAlerts]),
      checkPriceAlerts_at_match _ _ _ _ _ _ m3 (by simp [relevantAlerts])]
    simp [checkPriceAlerts, relevantAlerts, reached]
  · intro now t v m ht hregt hv hle
    have hm : alertMatches (setPrice now (H.parseFloat v) m) m.price alert = false := by
      simp [alertMatches, Num.gt_eq_false_of_le _ _ hle]
    rw [putAdminInventory_scan H now t pharmacyId medicineId v pharmacy m ht hv, hregt,
      checkPriceAlerts_at_miss _ _ _ _ _ _ hm]

/-- C6, counterexample.  Two active alerts for medicine 1 are registered, the
first with target 40 and the e-mail `{"toString": 1}`, the second with target
39.  The price goes from 45 to 38, back to 50 and down to 35: it crosses the
target 39 downwards twice, and the second alert never fires, because each scan
throws at the log line of the first alert. -/
theorem alert_after_unprintable_email_never_fires :
    unprintableFirst.priceAlerts.map (fun a => (a.max_price, a.active)) =
      [(.fin 40, true), (.fin 39, true)] ∧
    (putAdminInventory refHost "2023-11-02T09:00:00.000Z" unprintableFirst
      "2" "1" (.number (.fin 38))).notifications.map (fun d => d.target_price) = [.fin 40] ∧
    (putAdminInventory refHost "2023-11-03T09:00:00.000Z"
      (putAdminInventory refHost "2023-11-02T09:00:00.000Z" unprintableFirst
        "2" "1" (.number (.fin 38))).state
      "2" "1" (.number (.fin 50))).notifications = [] ∧
    (putAdminInventory refHost "2023-11-04T09:00:00.000Z"
      (putAdminInventory refHost "2023-11-03T09:00:00.000Z"
        (putAdminInventory refHost "2023-11-02T09:00:00.000Z" unprintableFirst
          "2" "1" (.number (.fin 38))).state
        "2" "1" (.number (.fin 50))).state
      "2" "1" (.number (.fin 35))).notifications.map (fun d => d.target_price) = [.fin 40] := by
  refine ⟨by decide, by decide, by decide, by decide⟩

/-- Witness of C6: the second of three alerts registered for medicine 1, with
target 39, over the prices 38, 50, 35 after 45. -/
theorem alert_rearms_witness :
    threeAlerts.priceAlerts = [firstAlert] ++ secondAlert :: [thirdAlert] ∧
    (putAdminInventory refHost "2023-11-02T09:00:00.000Z" threeAlerts
        "2" "1" (.number (.fin 38))).notifications =
      (relevantAlerts [firstAlert]
          (setPrice "2023-11-02T09:00:00.000Z" (refHost.parseFloat (.number (.fin 38))) dolo)
          dolo.price).map
        (mkAlertData "2023-11-02T09:00:00.000Z"
          (setPrice "2023-11-02T09:00:00.000Z" (refHost.parseFloat (.number (.fin 38))) dolo)) ++
      (mkAlertData "2023-11-02T09:00:00.000Z"
          (setPrice "2023-11-02T09:00:00.000Z" (refHost.parseFloat (.number (.fin 38))) dolo)
          secondAlert ::
        (if secondAlert.email.stringifies then
          checkPriceAlerts "2023-11-02T09:00:00.000Z" [thirdAlert]
            (setPrice "2023-11-02T09:00:00.000Z" (refHost.parseFloat (.number (.fin 38))) dolo)
            dolo.price
        else [])) ∧
    (putAdminInventory refHost "2023-11-03T09:00:00.000Z"
        (putAdminInventory refHost "2023-11-02T09:00:00.000Z" threeAlerts
          "2" "1" (.number (.fin 38))).state
        "2" "1" (.number (.fin 50))).notifications =
      checkPriceAlerts "2023-11-03T09:00:00.000Z" ([firstAlert] ++ [thirdAlert])
        (setPrice "2023-11-03T09:00:00.000Z" (refHost.parseFloat (.number (.fin 50)))
          (setPrice "2023-11-02T09:00:00.000Z" (refHost.parseFloat (.number (.fin 38))) dolo))
        (refHost.parseFloat (.number (.fin 38))) :=
  have h := alert_rearms refHost "2023-11-02T09:00:00.000Z" "2023-11-03T09:00:00.000Z"
    "2023-11-04T09:00:00.000Z" threeAlerts
    "2" "1" (.number (.fin 38)) (.number (.fin 50)) (.number (.fin 35)) medplus dolo
    [firstAlert] [thirdAlert] secondAlert
    ⟨by rfl, by rfl, by rfl⟩ (by rfl) (by rfl) (by rfl)
    (by decide) (by decide) (by decide) (by decide) (by decide) (by decide) (by decide)
  ⟨by rfl, h.1 (by decide), h.2.1⟩

/-! ## Search: filters, sort and cap -/

/-- A stage `if (v) { results = f(v, results) }` whose `f` is a filter is a
filter. -/
theorem whenGiven_isFilter (v : Option String) (f : String → List Medicine → List Medicine)
    (hf : ∀ x, ∃ P : Medicine → Bool, ∀ l, f x l = l.filter P) :
    ∃ P : Medicine → Bool, ∀ l, whenGiven v f l = l.filter P := by
  cases v with
  | none => exact ⟨fun _ => true, fun l => by simp [whenGiven]⟩
  | some x =>
    by_cases hx : x = ""
    · exact ⟨fun _ => true, fun l => by simp [whenGiven, hx]⟩
    · obtain ⟨P, hP⟩ := hf x
      exact ⟨P, fun l => by simp [whenGiven, hx, hP]⟩

/-- The five filter stages of the search handler amount to one filter. -/
theorem searchFilters_isFilter (H : Host) (query : SearchQuery) :
    ∃ P : Medicine → Bool, ∀ l, searchFilters H query l = l.filter P := by
  obtain ⟨P1, h1⟩ := whenGiven_isFilter query.q (fun q rs =>
    rs.filter (fun medicine =>
      strIncludes (H.toLowerCase medicine.name) (H.toLowerCase q) ||
      strIncludes (H.toLowerCase medicine.description) (H.toLowerCase q) ||
      strIncludes (H.toLowerCase medicine.composition) (H.toLowerCase q)))
    (fun x => ⟨_, fun _ => rfl⟩)
  obtain ⟨P2, h2⟩ := whenGiven_isFilter query.category (fun category rs =>
    if category ≠ "all" then rs.filter (fun medicine => medicine.category.contains category)
    else rs)
    (fun x => by
      by_cases hx : x = "all"
      · exact ⟨fun _ => true, fun l => by simp [hx]⟩
      · exact ⟨fun medicine => medicine.category.contains x, fun l => by
          simp only [ne_eq, hx, not_false_eq_true, if_true]⟩)
  obtain ⟨P3, h3⟩ := whenGiven_isFilter query.minPrice (fun minPrice rs =>
    rs.filter (fun medicine => medicine.price.ge (H.parseFloat (.string minPrice))))
    (fun x => ⟨_, fun _ => rfl⟩)
  obtain ⟨P4, h4⟩ := whenGiven_isFilter query.maxPrice (fun maxPrice rs =>
    rs.filter (fun medicine => medicine.price.le (H.parseFloat (.string maxPrice))))
    (fun x => ⟨_, fun _ => rfl⟩)
  obtain ⟨P5, h5⟩ := whenGiven_isFilter query.location (fun location rs =>
    rs.filter (fun medicine =>
      medicine.pharmacies.any (fun pharmacy =>
        strIncludes (H.toLowerCase pharmacy) (H.toLowerCase location))))
    (fun x => ⟨_, fun _ => rfl⟩)
  refine ⟨fun m => P1 m && (P2 m && (P3 m && (P4 m && P5 m))), fun l => ?_⟩
  simp only [searchFilters, h1, h2, h3, h4, h5, List.filter_filter]
  congr 1
  funext m
  cases P1 m <;> cases P2 m <;> cases P3 m <;> cases P4 m <;> cases P5 m <;> rfl

/-- Inserting into a list whose neighbours are related keeps them related,
when the relation is total. -/
theorem chain'_orderedInsert {α : Type} (r : α → α → Prop) [DecidableRel r]
    (htot : ∀ a b, r a b ∨ r b a) (a : α) (l : List α) (hl : l.Chain' r) :
    (l.orderedInsert r a).Chain' r := by
  induction l with
  | nil => simp
  | cons b l ih =>
    by_cases hab : r a b
    · simp only [List.orderedInsert, hab, if_true]
      exact List.Chain'.cons hab hl
    · simp only [List.orderedInsert, hab, if_false]
      have hba : r b a := (htot a b).resolve_left hab
      have hl' : l.Chain' r := hl.tail
      refine (ih hl').cons' ?_
      intro y hy
      cases l with
      | nil =>
        simp at hy
        exact hy ▸ hba
      | cons c l =>
        have hbc : r b c := (List.chain'_cons.mp hl).1
        by_cases hac : r a c
        · simp [List.orderedInsert, hac] at hy
          exact hy ▸ hba
        · simp [List.orderedInsert, hac] at hy
          exact hy ▸ hbc

/-- The output of the sort has related neighbours, when the relation is total. -/
theorem chain'_insertionSort {α : Type} (r : α → α → Prop) [DecidableRel r]
    (htot : ∀ a b, r a b ∨ r b a) (l : List α) : (l.insertionSort r).Chain' r := by
  induction l with
  | nil => simp
  | cons a l ih => exact chain'_orderedInsert r htot a _ ih

/-- The sort leaves a list with related neighbours as it is. -/
theorem insertionSort_eq_of_chain' {α : Type} (r : α → α → Prop) [DecidableRel r]
    (l : List α) (hl : l.Chain' r) : l.insertionSort r = l := by
  induction l with
  | nil => rfl
  | cons a l ih =>
    rw [List.insertionSort, ih hl.tail]
    cases l with
    | nil => rfl
    | cons b l =>
      have hab : r a b := (List.chain'_cons.mp hl).1
      simp [List.orderedInsert, hab]

/-- Swapping the operands of a difference that is positive gives one that is
not. -/
theorem Num.sub_gt_asymm (a b : Num) (h : (a.sub b).gt (.fin 0) = true) :
    (b.sub a).gt (.fin 0) = false := by
  cases a <;> cases b <;> simp_all [Num.sub, Num.gt, Num.lt]
  linarith

/-- Sorting twice with a comparator that never puts two elements each after the
other is sorting once, also after truncation. -/
theorem sortWith_take_fixed (cmp : Medicine → Medicine → Num)
    (hcmp : ∀ a b, (cmp a b).gt (.fin 0) = true → (cmp b a).gt (.fin 0) = false)
    (l : List Medicine) (n : Nat) :
    sortWith cmp ((sortWith cmp l).take n) = (sortWith cmp l).take n := by
  unfold sortWith
  apply insertionSort_eq_of_chain'
  apply List.Chain'.take
  apply chain'_insertionSort
  intro a b
  by_cases h : (cmp a b).gt (.fin 0) = true
  · exact Or.inr (hcmp a b h)
  · exact Or.inl (by simpa using h)

/-- The cap returns a prefix of the list. -/
theorem slice0_eq_take {α : Type} (l : List α) (e : Num) : ∃ n, slice0 l e = l.take n := by
  cases e with
  | nan => exact ⟨0, by simp [slice0]⟩
  | ninf => exact ⟨0, by simp [slice0]⟩
  | pinf => exact ⟨l.length, by simp [slice0]⟩
  | fin q =>
    by_cases hk : Int.tdiv q.num q.den < 0
    · exact ⟨l.length - (Int.tdiv q.num q.den).natAbs, by simp [slice0, hk]⟩
    · exact ⟨(Int.tdiv q.num q.den).toNat, by simp [slice0, hk]⟩

/-- A cap that is not negative, applied to its own output, returns it. -/
theorem slice0_slice0 {α : Type} (l : List α) (e : Num) (he : e.lt (.fin 0) = false) :
    slice0 (slice0 l e) e = slice0 l e := by
  cases e with
  | nan => simp [slice0]
  | ninf => simp [slice0]
  | pinf => simp [slice0]
  | fin q =>
    have hq : 0 ≤ q := by simpa [Num.lt] using he
    have hk : ¬ Int.tdiv q.num q.den < 0 := by
      have h1 : 0 ≤ q.num := Rat.num_nonneg.mpr hq
      have h2 : (0 : Int) ≤ (q.den : Int) := Int.natCast_nonneg _
      exact not_lt.mpr (Int.tdiv_nonneg h1 h2)
    simp [slice0, hk, List.take_take]

/-- The sort stage, for a sort other than `distance`, either leaves the list
or sorts it with one of the four comparators. -/
theorem sortStage_cases (H : Host) (sort : Option String) (hsort : sort ≠ some "distance")
    (hloc : ∀ a b, (H.localeCompare a b).gt (.fin 0) = true →
      (H.localeCompare b a).gt (.fin 0) = false) :
    (∀ l, whenGiven sort (sortResults H) l = l) ∨
    ∃ cmp : Medicine → Medicine → Num,
      (∀ a b, (cmp a b).gt (.fin 0) = true → (cmp b a).gt (.fin 0) = false) ∧
      ∀ l, whenGiven sort (sortResults H) l = sortWith cmp l := by
  cases sort with
  | none => exact Or.inl (fun l => rfl)
  | some x =>
    by_cases hx : x = ""
    · exact Or.inl (fun l => by simp [whenGiven, hx])
    · have hd : x ≠ "distance" := fun h => hsort (by rw [h])
      by_cases h1 : x = "price-low"
      · exact Or.inr ⟨fun a b => a.price.sub b.price, fun a b => Num.sub_gt_asymm _ _,
          fun l => by simp [whenGiven, sortResults, h1]⟩
      by_cases h2 : x = "price-high"
      · exact Or.inr ⟨fun a b => b.price.sub a.price, fun a b => Num.sub_gt_asymm _ _,
          fun l => by simp [whenGiven, sortResults, h2]⟩
      by_cases h3 : x = "rating"
      · exact Or.inr ⟨fun a b => b.rating.sub a.rating, fun a b => Num.sub_gt_asymm _ _,
          fun l => by simp [whenGiven, sortResults, h3]⟩
      by_cases h4 : x = "name"
      · exact Or.inr ⟨fun a b => H.localeCompare a.name b.name, fun a b => hloc _ _,
          fun l => by simp [whenGiven, sortResults, h4]⟩
      exact Or.inl (fun l => by simp [whenGiven, sortResults, hx, h1, h2, h3, h4, hd])

/-- C7, refuted as stated: with `limit=-1` the cap drops the last record, so
on a catalogue of two records the search returns the first one and, applied to
that result, returns nothing. -/
theorem searchResults_not_idempotent_negative_limit :
    searchResults refHost
        (searchResults refHost [dolo, azithral] ⟨none, none, none, none, some "-1", none, none⟩)
        ⟨none, none, none, none, some "-1", none, none⟩ ≠
      searchResults refHost [dolo, azithral] ⟨none, none, none, none, some "-1", none, none⟩ := by
  have h1 : searchResults refHost [dolo, azithral]
      ⟨none, none, none, none, some "-1", none, none⟩ = [dolo] := by rfl
  have h2 : searchResults refHost [dolo]
      ⟨none, none, none, none, some "-1", none, none⟩ = [] := by rfl
  rw [h1, h2]
  exact List.noConfusion

/-- C7, amended. For every catalogue and every query whose sort is not
`distance` and whose `limit` does not parse to a negative number (absent, not
numeric, or at least 0), the search applied to its own result with the same
query returns that result; `localeCompare` is assumed never to put two names
each after the other. -/
theorem searchResults_idempotent (H : Host) (catalog : List Medicine) (query : SearchQuery)
    (hsort : query.sort ≠ some "distance")
    (hlimit : (H.parseInt (withDefault query.limit 10)).lt (.fin 0) = false)
    (hloc : ∀ a b, (H.localeCompare a b).gt (.fin 0) = true →
      (H.localeCompare b a).gt (.fin 0) = false) :
    searchResults H (searchResults H catalog query) query = searchResults H catalog query := by
  obtain ⟨P, hP⟩ := searchFilters_isFilter H query
  simp only [searchResults, hP]
  rcases sortStage_cases H query.sort hsort hloc with hS | ⟨cmp, hcmp, hS⟩
  · simp only [hS]
    obtain ⟨n, hn⟩ := slice0_eq_take (catalog.filter P) (H.parseInt (withDefault query.limit 10))
    have hfix : (slice0 (catalog.filter P) (H.parseInt (withDefault query.limit 10))).filter P =
        slice0 (catalog.filter P) (H.parseInt (withDefault query.limit 10)) := by
      rw [List.filter_eq_self]
      intro m hm
      rw [hn] at hm
      exact (List.mem_filter.mp (List.mem_of_mem_take hm)).2
    rw [hfix]
    exact slice0_slice0 _ _ hlimit
  · simp only [hS]
    obtain ⟨n, hn⟩ := slice0_eq_take (sortWith cmp (catalog.filter P))
      (H.parseInt (withDefault query.limit 10))
    have hfix : (slice0 (sortWith cmp (catalog.filter P))
        (H.parseInt (withDefault query.limit 10))).filter P =
        slice0 (sortWith cmp (catalog.filter P)) (H.parseInt (withDefault query.limit 10)) := by
      rw [List.filter_eq_self]
      intro m hm
      rw [hn] at hm
      have hms : m ∈ sortWith cmp (catalog.filter P) := List.mem_of_mem_take hm
      have hmf : m ∈ catalog.filter P :=
        (List.perm_insertionSort _ _).mem_iff.mp hms
      exact (List.mem_filter.mp hmf).2
    rw [hfix]
    have hsorted : sortWith cmp (slice0 (sortWith cmp (catalog.filter P))
        (H.parseInt (withDefault query.limit 10))) =
        slice0 (sortWith cmp (catalog.filter P)) (H.parseInt (withDefault query.limit 10)) := by
      rw [hn]
      exact sortWith_take_fixed cmp hcmp _ n
    rw [hsorted]
    exact slice0_slice0 _ _ hlimit

/-- The comparator of the reference host never puts two names each after the
other. -/
theorem refHost_localeCompare_asymm (a b : String)
    (h : (refHost.localeCompare a b).gt (.fin 0) = true) :
    (refHost.localeCompare b a).gt (.fin 0) = false := by
  simp only [refHost] at h ⊢
  by_cases hab : a < b
  · norm_num [hab, Num.gt, Num.lt] at h
  · by_cases heq : a = b
    · simp [heq, Num.gt, Num.lt] at h
    · have hba : b < a := lt_of_le_of_ne (not_lt.mp hab) (Ne.symm heq)
      simp [hba, Num.gt, Num.lt]

/-- Witness of the amended C7: the two-record catalogue sorted by descending
price and capped at one record. -/
theorem searchResults_idempotent_witness :
    searchResults refHost
        (searchResults refHost [dolo, azithral]
          ⟨none, none, none, some "price-high", some "1", none, none⟩)
        ⟨none, none, none, some "price-high", some "1", none, none⟩ =
      searchResults refHost [dolo, azithral]
        ⟨none, none, none, some "price-high", some "1", none, none⟩ :=
  searchResults_idempotent refHost [dolo, azithral]
    ⟨none, none, none, some "price-high", some "1", none, none⟩ (by decide) (by rfl)
    refHost_localeCompare_asymm

/-- A stage `if (v) { results = f(v, results) }` whose `f` returns a sub-list
returns a sub-list. -/
theorem whenGiven_sublist (v : Option String) (f : String → List Medicine → List Medicine)
    (hf : ∀ x l, (f x l).Sublist l) (l : List Medicine) : (whenGiven v f l).Sublist l := by
  cases v with
  | none => exact List.Sublist.refl l
  | some x =>
    by_cases hx : x = ""
    · simp [whenGiven, hx]
    · simpa [whenGiven, hx] using hf x l

/-- A stage whose parameter is given and not empty runs its body. -/
theorem whenGiven_some (x : String) (hx : x ≠ "") (f : String → List Medicine → List Medicine)
    (l : List Medicine) : whenGiven (some x) f l = f x l := by
  simp [whenGiven, hx]

/-- The sort stage permutes the list, the random order included. -/
theorem sortStage_perm (H : Host) (hrand : ∀ l, (H.randomOrder l).Perm l)
    (sort : Option String) (l : List Medicine) :
    (whenGiven sort (sortResults H) l).Perm l := by
  cases sort with
  | none => exact List.Perm.refl l
  | some x =>
    by_cases hx : x = ""
    · simp [whenGiven, hx]
    · rw [whenGiven_some x hx]
      unfold sortResults
      split_ifs
      · exact List.perm_insertionSort _ _
      · exact List.perm_insertionSort _ _
      · exact List.perm_insertionSort _ _
      · exact List.perm_insertionSort _ _
      · exact hrand l
      · exact List.Perm.refl l

/-- The filter stages return a sub-list of the catalogue. -/
theorem searchFilters_sublist (H : Host) (query : SearchQuery) (l : List Medicine) :
    (searchFilters H query l).Sublist l := by
  unfold searchFilters
  refine (whenGiven_sublist _ _ (fun x l => List.filter_sublist l) _).trans ?_
  refine (whenGiven_sublist _ _ (fun x l => List.filter_sublist l) _).trans ?_
  refine (whenGiven_sublist _ _ (fun x l => List.filter_sublist l) _).trans ?_
  refine (whenGiven_sublist _ _ ?_ _).trans
    (whenGiven_sublist _ _ (fun x l => List.filter_sublist l) _)
  intro x l
  by_cases hx : x = "all"
  · simp [hx]
  · simp [hx]

/-- A record that passes the filter stages is within the price bounds the
query gives. -/
theorem searchFilters_price (H : Host) (query : SearchQuery) (l : List Medicine)
    (min max : String)
    (hmin : query.minPrice = some min) (hmin' : min ≠ "")
    (hmax : query.maxPrice = some max) (hmax' : max ≠ "")
    (m : Medicine) (hm : m ∈ searchFilters H query l) :
    (H.parseFloat (.string min)).le m.price = true ∧
    m.price.le (H.parseFloat (.string max)) = true := by
  simp only [searchFilters, hmin, hmax] at hm
  rw [whenGiven_some min hmin', whenGiven_some max hmax'] at hm
  have h := (whenGiven_sublist _ _ (fun x l => List.filter_sublist l) _).subset hm
  rw [List.mem_filter, List.mem_filter] at h
  exact ⟨h.1.2, h.2⟩

/-- C8. When the query gives `minPrice` and `maxPrice`, every record of the
search result has `parseFloat(minPrice) <= price <= parseFloat(maxPrice)` and
is a record of the catalogue, and the result as a whole is, up to order, a
sub-list of the catalogue (no record is invented or repeated). -/
theorem searchResults_price_range (H : Host) (catalog : List Medicine) (query : SearchQuery)
    (min max : String)
    (hmin : query.minPrice = some min) (hmin' : min ≠ "")
    (hmax : query.maxPrice = some max) (hmax' : max ≠ "")
    (hrand : ∀ l, (H.randomOrder l).Perm l) :
    (∀ m ∈ searchResults H catalog query,
      (H.parseFloat (.string min)).le m.price = true ∧
      m.price.le (H.parseFloat (.string max)) = true ∧
      m ∈ catalog) ∧
    (searchResults H catalog query).Subperm catalog := by
  have hsub : (searchFilters H query catalog).Sublist catalog := searchFilters_sublist H query _
  obtain ⟨n, hn⟩ := slice0_eq_take
    (whenGiven query.sort (sortResults H) (searchFilters H query catalog))
    (H.parseInt (withDefault query.limit 10))
  have hres : searchResults H catalog query =
      (whenGiven query.sort (sortResults H) (searchFilters H query catalog)).take n := by
    simp only [searchResults, hn]
  have hperm := sortStage_perm H hrand query.sort (searchFilters H query catalog)
  constructor
  · intro m hm
    rw [hres] at hm
    have h1 : m ∈ searchFilters H query catalog :=
      hperm.mem_iff.mp (List.mem_of_mem_take hm)
    have h2 := searchFilters_price H query catalog min max hmin hmin' hmax hmax' m h1
    exact ⟨h2.1, h2.2, hsub.subset h1⟩
  · rw [hres]
    exact ((List.take_sublist n _).subperm.trans hperm.subperm).trans hsub.subperm

/-- Witness of C8: the two-record catalogue searched between 40 and 100. -/
theorem searchResults_price_range_witness :
    (∀ m ∈ searchResults refHost [dolo, azithral]
        ⟨none, none, none, none, none, some "40", some "100"⟩,
      (refHost.parseFloat (.string "40")).le m.price = true ∧
      m.price.le (refHost.parseFloat (.string "100")) = true ∧
      m ∈ [dolo, azithral]) ∧
    (searchResults refHost [dolo, azithral]
      ⟨none, none, none, none, none, some "40", some "100"⟩).Subperm [dolo, azithral] :=
  searchResults_price_range refHost [dolo, azithral]
    ⟨none, none, none, none, none, some "40", some "100"⟩ "40" "100" rfl (by decide) rfl
    (by decide) (fun l => List.Perm.refl l)

/-- An end that is a natural number caps the list at that many records. -/
theorem slice0_natCast {α : Type} (l : List α) (n : Nat) :
    slice0 l (.fin (n : ℚ)) = l.take n := by
  simp [slice0, Rat.num_natCast, Rat.den_natCast]

/-- C9. With category `all` the category filter is skipped: the category
endpoint returns the first `limit` records of the catalogue in catalogue order
(the first 20 when `limit` is absent), and the search endpoint with category
`all` and no other filter or sort returns the first `limit` records (the first
10 when `limit` is absent); `limit` is a text that `parseInt` reads as the
natural number `n`. -/
theorem category_all_returns_first (H : Host) (catalog : List Medicine) (x : String) (n : Nat)
    (hx : H.parseInt (.string x) = .fin (n : ℚ))
    (h20 : H.parseInt (.number (.fin 20)) = .fin 20)
    (h10 : H.parseInt (.number (.fin 10)) = .fin 10) :
    (getMedicinesCategory H catalog "all" (some x)).medicines = catalog.take n ∧
    (getMedicinesCategory H catalog "all" (some x)).total = (catalog.take n).length ∧
    (getMedicinesCategory H catalog "all" none).medicines = catalog.take 20 ∧
    searchResults H catalog ⟨none, none, some "all", none, some x, none, none⟩ =
      catalog.take n ∧
    searchResults H catalog ⟨none, none, some "all", none, none, none, none⟩ =
      catalog.take 10 := by
  have e20 : (Num.fin 20) = .fin ((20 : Nat) : ℚ) := by norm_num
  have e10 : (Num.fin 10) = .fin ((10 : Nat) : ℚ) := by norm_num
  refine ⟨?_, ?_, ?_, ?_, ?_⟩
  · simp [getMedicinesCategory, withDefault, hx, slice0_natCast]
  · simp [getMedicinesCategory, withDefault, hx, slice0_natCast]
  · simp only [getMedicinesCategory, withDefault, ne_eq, not_true_eq_false, if_false]
    rw [h20, e20, slice0_natCast]
  · simp [searchResults, searchFilters, whenGiven, withDefault, hx, slice0_natCast]
  · simp only [searchResults, searchFilters, whenGiven, withDefault, ne_eq, not_true_eq_false,
      if_false]
    rw [h10, e10, slice0_natCast]
    simp

/-- Witness of C9: the seeded catalogue with `limit=5`. -/
theorem category_all_returns_first_witness :
    (getMedicinesCategory refHost medicines "all" (some "5")).medicines = medicines.take 5 ∧
    (getMedicinesCategory refHost medicines "all" none).medicines = medicines.take 20 ∧
    searchResults refHost medicines ⟨none, none, some "all", none, none, none, none⟩ =
      medicines.take 10 :=
  have h := category_all_returns_first refHost medicines "5" 5 (by rfl) (by rfl) (by rfl)
  ⟨h.1, h.2.2.1, h.2.2.2.2⟩

/-! ## Distance -/

/-- `Math.PI` is positive. -/
theorem PI_pos : (0 : ℚ) < PI := by
  unfold PI
  norm_num

/-- The difference of two finite numbers. -/
theorem Num.minus_fin (fl : ℚ → Num) (a b : ℚ) :
    Num.minus fl (.fin a) (.fin b) = fl (a - b) := rfl

/-- The product of two finite numbers. -/
theorem Num.mul_fin (fl : ℚ → Num) (a b : ℚ) :
    Num.mul fl (.fin a) (.fin b) = fl (a * b) := rfl

/-- The quotient of a finite number by a literal. -/
theorem Num.divBy_fin (fl : ℚ → Num) (a d : ℚ) :
    Num.divBy fl (.fin a) d = fl (a / d) := rfl

/-- The sum of two finite numbers. -/
theorem Num.add_fin (fl : ℚ → Num) (a b : ℚ) :
    Num.add fl (.fin a) (.fin b) = fl (a + b) := rfl

/-- A product with NaN is NaN. -/
theorem Num.mul_nan (fl : ℚ → Num) (x : Num) : Num.mul fl x .nan = .nan := by
  cases x <;> rfl

/-- A product of NaN is NaN. -/
theorem Num.nan_mul (fl : ℚ → Num) (x : Num) : Num.mul fl .nan x = .nan := by
  cases x <;> rfl

/-- A sum with NaN is NaN. -/
theorem Num.add_nan (fl : ℚ → Num) (x : Num) : Num.add fl x .nan = .nan := by
  cases x <;> rfl

/-- A sum of NaN is NaN. -/
theorem Num.nan_add (fl : ℚ → Num) (x : Num) : Num.add fl .nan x = .nan := by
  cases x <;> rfl

/-- A difference from NaN is NaN. -/
theorem Num.minus_nan (fl : ℚ → Num) (x : Num) : Num.minus fl x .nan = .nan := by
  cases x <;> rfl

/-- A difference of NaN is NaN. -/
theorem Num.nan_minus (fl : ℚ → Num) (x : Num) : Num.minus fl .nan x = .nan := by
  cases x <;> rfl

/-- A finite latitude in radians comes from a finite latitude. -/
theorem isFinite_of_radians (M : JSMath) (lat : Num)
    (h : (Num.divBy M.fl (Num.mul M.fl lat (.fin PI)) 180).isFinite = true) :
    lat.isFinite = true := by
  have hpi : ¬ (PI = 0) := ne_of_gt PI_pos
  cases lat with
  | fin x => rfl
  | nan => simp [Num.mul, Num.divBy, Num.isFinite] at h
  | pinf => simp [Num.mul, Num.infTimes, hpi, PI_pos, Num.divBy, Num.isFinite] at h
  | ninf => simp [Num.mul, Num.infTimes, hpi, PI_pos, Num.divBy, Num.isFinite] at h

/-- C10, the form the code has.  `Math` is assumed to give `sin(0) = 0`,
`sqrt(0) = 0`, `sqrt(1) = 1`, `atan2(0, 1) = 0`, a cosine between -1 and 1 at
every finite argument, and NaN for `sin`, `cos`, `sqrt`, `atan2` at NaN and for
`cos` at an infinity; the rounding is assumed exact at 0 and 1 and finite on
numbers between -1 and 1.  Then the distance of a pair to itself is 0 when the
longitude is finite and the latitude in radians, `lat * Math.PI / 180`, is
finite (the latitude is finite and the product does not overflow), and NaN for
every other pair. -/
theorem calculateDistance_self (M : JSMath) (lat lng : Num)
    (hfl0 : M.fl 0 = .fin 0) (hfl1 : M.fl 1 = .fin 1)
    (hflfin : ∀ q : ℚ, |q| ≤ 1 → (M.fl q).isFinite = true)
    (hsin0 : M.sin (.fin 0) = .fin 0) (hsqrt0 : M.sqrt (.fin 0) = .fin 0)
    (hsqrt1 : M.sqrt (.fin 1) = .fin 1) (hatan : M.atan2 (.fin 0) (.fin 1) = .fin 0)
    (hcos : ∀ x : ℚ, ∃ c : ℚ, M.cos (.fin x) = .fin c ∧ |c| ≤ 1)
    (hsinN : M.sin .nan = .nan) (hsqrtN : M.sqrt .nan = .nan)
    (hatanN : M.atan2 .nan .nan = .nan)
    (hcosN : ∀ x : Num, x.isFinite = false → M.cos x = .nan) :
    (lng.isFinite = true →
      (Num.divBy M.fl (Num.mul M.fl lat (.fin PI)) 180).isFinite = true →
      calculateDistance M lat lng lat lng = .fin 0) ∧
    ((lng.isFinite = false ∨
        (Num.divBy M.fl (Num.mul M.fl lat (.fin PI)) 180).isFinite = false) →
      calculateDistance M lat lng lat lng = .nan) := by
  constructor
  · intro hlng hrad
    have hlat := isFinite_of_radians M lat hrad
    cases lat with
    | fin x =>
      cases lng with
      | fin y =>
        cases hr : Num.divBy M.fl (Num.mul M.fl (.fin x) (.fin PI)) 180 with
        | fin r =>
          obtain ⟨c, hc, hc1⟩ := hcos r
          have hcc : |c * c| ≤ 1 := by
            rw [abs_mul]
            exact mul_le_one₀ hc1 (abs_nonneg c) hc1
          have hd := hflfin (c * c) hcc
          cases hcd : M.fl (c * c) with
          | fin d =>
            unfold calculateDistance
            simp only [hr, hc]
            simp only [Num.minus_fin, Num.mul_fin, Num.divBy_fin, Num.add_fin, sub_self,
              zero_mul, zero_div, hfl0, hsin0, hcd, mul_zero, add_zero, hsqrt0, sub_zero, hfl1,
              hsqrt1, hatan]
          | nan => rw [hcd] at hd; cases hd
          | pinf => rw [hcd] at hd; cases hd
          | ninf => rw [hcd] at hd; cases hd
        | nan => rw [hr] at hrad; cases hrad
        | pinf => rw [hr] at hrad; cases hrad
        | ninf => rw [hr] at hrad; cases hrad
      | nan => cases hlng
      | pinf => cases hlng
      | ninf => cases hlng
    | nan => cases hlat
    | pinf => cases hlat
    | ninf => cases hlat
  · intro h
    have hfinish : ∀ a : Num, a = .nan →
        Num.mul M.fl (.fin 6371)
          (Num.mul M.fl (.fin 2) (M.atan2 (M.sqrt a) (M.sqrt (Num.minus M.fl (.fin 1) a)))) =
          .nan := by
      intro a ha
      subst ha
      simp only [Num.minus_nan, hsqrtN, hatanN, Num.mul_nan]
    unfold calculateDistance
    apply hfinish
    rcases h with h | h
    · have hd : Num.divBy M.fl
          (Num.divBy M.fl (Num.mul M.fl (Num.minus M.fl lng lng) (.fin PI)) 180) 2 = .nan := by
        cases lng with
        | fin y => cases h
        | nan => rfl
        | pinf => rfl
        | ninf => rfl
      simp only [hd, hsinN, Num.mul_nan, Num.add_nan]
    · have hc := hcosN _ h
      simp only [hc, Num.nan_mul, Num.add_nan]

/-- The rounding of `refMath` leaves a number of magnitude at most
`2^1023` as it is. -/
theorem refMath_fl_small (q : ℚ) (h : |q| ≤ 2 ^ 1023) : refMath.fl q = .fin q := by
  have h1 : ¬ ((2 : ℚ) ^ 1024 - 2 ^ 970 ≤ q) := by
    intro h'
    have := le_trans h' (le_trans (le_abs_self q) h)
    norm_num at this
  have h2 : ¬ (q ≤ -((2 : ℚ) ^ 1024 - 2 ^ 970)) := by
    intro h'
    have h3 : (2 : ℚ) ^ 1024 - 2 ^ 970 ≤ -q := le_neg_of_le_neg h'
    have := le_trans h3 (le_trans (neg_le_abs q) h)
    norm_num at this
  simp only [refMath, if_neg h1, if_neg h2]

/-- C10, counterexample.  The latitude `2^1023` is a finite double; its product
with `Math.PI` overflows to `Infinity`, whose cosine is NaN, and the distance
of the pair `(2^1023, 0)` to itself is NaN.  So is the distance to itself of a
pair whose latitude is NaN. -/
theorem calculateDistance_self_not_zero :
    calculateDistance refMath (.fin (2 ^ 1023)) (.fin 0) (.fin (2 ^ 1023)) (.fin 0) = .nan ∧
    calculateDistance refMath .nan (.fin 0) .nan (.fin 0) = .nan := by
  have hover : refMath.fl (2 ^ 1023 * PI) = .pinf := by
    have h : (2 : ℚ) ^ 1024 - 2 ^ 970 ≤ 2 ^ 1023 * PI := by
      unfold PI
      norm_num
    simp only [refMath, if_pos h]
  have hcos : refMath.cos .pinf = .nan := rfl
  have hsin : refMath.sin .nan = .nan := rfl
  have hsqrt : refMath.sqrt .nan = .nan := rfl
  have hatan : refMath.atan2 .nan .nan = .nan := rfl
  have hdiv : ∀ d : ℚ, Num.divBy refMath.fl .pinf d = .pinf := fun _ => rfl
  have hdivN : ∀ d : ℚ, Num.divBy refMath.fl .nan d = .nan := fun _ => rfl
  constructor
  · unfold calculateDistance
    simp only [Num.mul_fin, hover, hdiv, hcos, Num.nan_mul, Num.add_nan, Num.minus_nan, hsqrt,
      hatan, Num.mul_nan]
  · unfold calculateDistance
    simp only [Num.nan_minus, Num.nan_mul, hdivN, hsin, Num.nan_add, Num.minus_nan, hsqrt,
      hatan, Num.mul_nan]

/-- Witness of C10: the coordinates of the first seeded pharmacy. -/
theorem calculateDistance_self_witness :
    calculateDistance refMath (.fin (129716 / 10000)) (.fin (775946 / 10000))
      (.fin (129716 / 10000)) (.fin (775946 / 10000)) = .fin 0 :=
  (calculateDistance_self refMath (.fin (129716 / 10000)) (.fin (775946 / 10000))
    (refMath_fl_small 0 (by norm_num)) (refMath_fl_small 1 (by norm_num))
    (fun q hq => by
      rw [refMath_fl_small q (le_trans hq (by norm_num))]
      rfl)
    rfl (by simp [refMath]) (by simp [refMath]) (by simp [refMath])
    (fun x => ⟨1, rfl, by norm_num⟩)
    rfl rfl rfl
    (fun x hx => by cases x <;> first | rfl | cases hx)).1 rfl
    (by
      have h1 : refMath.fl (129716 / 10000 * PI) = .fin (129716 / 10000 * PI) :=
        refMath_fl_small _ (by unfold PI; rw [abs_of_nonneg (by norm_num)]; norm_num)
      have h2 : refMath.fl (129716 / 10000 * PI / 180) = .fin (129716 / 10000 * PI / 180) :=
        refMath_fl_small _ (by unfold PI; rw [abs_of_nonneg (by norm_num)]; norm_num)
      simp only [Num.mul_fin, h1, Num.divBy_fin, h2]
      rfl)

/-- Negating twice returns the number. -/
theorem Num.negate_negate (a : Num) : a.neg.neg = a := by
  cases a <;> simp [Num.neg]

/-- With an odd rounding, exchanging the operands of a difference negates
it. -/
theorem Num.minus_swap (fl : ℚ → Num) (hfl : ∀ q, fl (-q) = (fl q).neg) (a b : Num) :
    Num.minus fl a b = (Num.minus fl b a).neg := by
  cases a <;> cases b <;> first
    | rfl
    | (rename_i x y
       show fl (x - y) = (fl (y - x)).neg
       rw [← hfl, neg_sub])

/-- The sign rule for a negated finite factor. -/
theorem Num.infTimes_negate (positive : Bool) (a : ℚ) :
    Num.infTimes positive (-a) = (Num.infTimes positive a).neg := by
  unfold Num.infTimes
  rcases lt_trichotomy a 0 with h | h | h
  · have h1 : ¬ (-a = 0) := by simpa using ne_of_lt h
    have h2 : ¬ (a = 0) := ne_of_lt h
    have h3 : (0 : ℚ) < -a := by linarith
    have h4 : ¬ ((0 : ℚ) < a) := by linarith
    cases positive <;> simp [h2, h4, h, Num.neg]
  · subst h
    simp [Num.neg]
  · have h1 : ¬ (-a = 0) := by simpa using ne_of_gt h
    have h2 : ¬ (a = 0) := ne_of_gt h
    have h3 : ¬ ((0 : ℚ) < -a) := by linarith
    have h4 : ¬ (a < 0) := by linarith
    cases positive <;> simp [h2, h4, h, Num.neg]

/-- The sign rule for the other infinity. -/
theorem Num.infTimes_not (positive : Bool) (a : ℚ) :
    Num.infTimes (!positive) a = (Num.infTimes positive a).neg := by
  unfold Num.infTimes
  by_cases h0 : a = 0
  · simp [h0, Num.neg]
  · by_cases h : (0 : ℚ) < a <;> cases positive <;> simp [h0, h, Num.neg]

/-- With an odd rounding, negating the first factor negates the product. -/
theorem Num.mul_negate_left (fl : ℚ → Num) (hfl : ∀ q, fl (-q) = (fl q).neg) (a b : Num) :
    Num.mul fl a.neg b = (Num.mul fl a b).neg := by
  cases a with
  | nan => cases b <;> rfl
  | fin x =>
    cases b with
    | nan => rfl
    | fin y =>
      show fl (-x * y) = (fl (x * y)).neg
      rw [← hfl, neg_mul]
    | pinf => exact Num.infTimes_negate true x
    | ninf => exact Num.infTimes_negate false x
  | pinf =>
    cases b with
    | nan => rfl
    | fin y => exact Num.infTimes_not true y
    | pinf => rfl
    | ninf => rfl
  | ninf =>
    cases b with
    | nan => rfl
    | fin y =>
      show Num.infTimes true y = (Num.infTimes false y).neg
      exact Num.infTimes_not false y
    | pinf => rfl
    | ninf => rfl

/-- The product of two numbers does not depend on their order. -/
theorem Num.mul_swap (fl : ℚ → Num) (a b : Num) : Num.mul fl a b = Num.mul fl b a := by
  cases a <;> cases b <;> first
    | rfl
    | (rename_i x y
       show fl (x * y) = fl (y * x)
       rw [mul_comm])

/-- With an odd rounding, negating the second factor negates the product. -/
theorem Num.mul_negate_right (fl : ℚ → Num) (hfl : ∀ q, fl (-q) = (fl q).neg) (a b : Num) :
    Num.mul fl a b.neg = (Num.mul fl a b).neg := by
  rw [Num.mul_swap fl a b.neg, Num.mul_negate_left fl hfl, Num.mul_swap fl b a]

/-- With an odd rounding, negating the dividend negates the quotient. -/
theorem Num.divBy_negate (fl : ℚ → Num) (hfl : ∀ q, fl (-q) = (fl q).neg) (a : Num) (d : ℚ) :
    Num.divBy fl a.neg d = (Num.divBy fl a d).neg := by
  cases a with
  | nan => rfl
  | pinf => rfl
  | ninf => rfl
  | fin x =>
    show fl (-x / d) = (fl (x / d)).neg
    rw [← hfl, neg_div]

/-- A number is strictly equal to itself unless it is NaN. -/
theorem Num.strictEq_self (a : Num) : a.strictEq a = true ↔ a ≠ .nan := by
  cases a <;> simp [Num.strictEq]

/-- C11, the form the code has.  The rounding and `Math.sin` are assumed odd
(`fl(-q) = -fl(q)`, `sin(-x) = -sin(x)`).  Then the two calls with the pairs
exchanged return the same number, and the comparison `d(a, b) === d(b, a)` of
the language holds exactly when that number is not NaN. -/
theorem calculateDistance_symm (M : JSMath) (lat1 lng1 lat2 lng2 : Num)
    (hfl : ∀ q : ℚ, M.fl (-q) = (M.fl q).neg)
    (hsin : ∀ x : Num, M.sin x.neg = (M.sin x).neg) :
    calculateDistance M lat1 lng1 lat2 lng2 = calculateDistance M lat2 lng2 lat1 lng1 ∧
    ((calculateDistance M lat1 lng1 lat2 lng2).strictEq
        (calculateDistance M lat2 lng2 lat1 lng1) = true ↔
      calculateDistance M lat1 lng1 lat2 lng2 ≠ .nan) := by
  have hhalf : ∀ u v : Num,
      M.sin (Num.divBy M.fl
        (Num.divBy M.fl (Num.mul M.fl (Num.minus M.fl u v) (.fin PI)) 180) 2) =
      (M.sin (Num.divBy M.fl
        (Num.divBy M.fl (Num.mul M.fl (Num.minus M.fl v u) (.fin PI)) 180) 2)).neg := by
    intro u v
    rw [Num.minus_swap M.fl hfl u v, Num.mul_negate_left M.fl hfl, Num.divBy_negate M.fl hfl,
      Num.divBy_negate M.fl hfl, hsin]
  have hsq : ∀ X t : Num, Num.mul M.fl (Num.mul M.fl X t.neg) t.neg =
      Num.mul M.fl (Num.mul M.fl X t) t := by
    intro X t
    rw [Num.mul_negate_right M.fl hfl X t, Num.mul_negate_left M.fl hfl,
      Num.mul_negate_right M.fl hfl, Num.negate_negate]
  have hsq' : ∀ t : Num, Num.mul M.fl t.neg t.neg = Num.mul M.fl t t := by
    intro t
    rw [Num.mul_negate_left M.fl hfl, Num.mul_negate_right M.fl hfl, Num.negate_negate]
  have heq : calculateDistance M lat1 lng1 lat2 lng2 =
      calculateDistance M lat2 lng2 lat1 lng1 := by
    unfold calculateDistance
    simp only []
    rw [hhalf lat2 lat1, hhalf lng2 lng1, hsq, hsq',
      Num.mul_swap M.fl (M.cos (Num.divBy M.fl (Num.mul M.fl lat1 (.fin PI)) 180))]
  refine ⟨heq, ?_⟩
  rw [← heq]
  exact Num.strictEq_self _

/-- The rounding of `refMath` is odd. -/
theorem refMath_fl_odd (q : ℚ) : refMath.fl (-q) = (refMath.fl q).neg := by
  have hT : (0 : ℚ) < 2 ^ 1024 - 2 ^ 970 := by norm_num
  simp only [refMath]
  by_cases h1 : (2 : ℚ) ^ 1024 - 2 ^ 970 ≤ q
  · have h2 : ¬ ((2 : ℚ) ^ 1024 - 2 ^ 970 ≤ -q) := by intro h; linarith
    have h3 : -q ≤ -((2 : ℚ) ^ 1024 - 2 ^ 970) := by linarith
    simp only [if_pos h1, if_neg h2, if_pos h3, Num.neg]
  · by_cases h4 : q ≤ -((2 : ℚ) ^ 1024 - 2 ^ 970)
    · have h5 : (2 : ℚ) ^ 1024 - 2 ^ 970 ≤ -q := by linarith
      simp only [if_neg h1, if_pos h4, if_pos h5, Num.neg]
    · have h5 : ¬ ((2 : ℚ) ^ 1024 - 2 ^ 970 ≤ -q) := by intro h; apply h4; linarith
      have h6 : ¬ (-q ≤ -((2 : ℚ) ^ 1024 - 2 ^ 970)) := by intro h; apply h1; linarith
      simp only [if_neg h1, if_neg h4, if_neg h5, if_neg h6, Num.neg]

/-- C11, counterexample.  The latitude `2^1023` is a finite double; the
difference of latitudes times `Math.PI` overflows to an infinity, whose sine is
NaN, so the distance between `(2^1023, 0)` and `(0, 0)` is NaN in both
directions, and NaN is not equal to NaN. -/
theorem calculateDistance_nan_both_ways :
    calculateDistance refMath (.fin (2 ^ 1023)) (.fin 0) (.fin 0) (.fin 0) = .nan ∧
    calculateDistance refMath (.fin 0) (.fin 0) (.fin (2 ^ 1023)) (.fin 0) = .nan ∧
    (calculateDistance refMath (.fin (2 ^ 1023)) (.fin 0) (.fin 0) (.fin 0)).strictEq
      (calculateDistance refMath (.fin 0) (.fin 0) (.fin (2 ^ 1023)) (.fin 0)) = false := by
  have hdown : refMath.fl (0 - 2 ^ 1023) = .fin (-(2 ^ 1023)) := by
    rw [zero_sub]
    exact refMath_fl_small _ (by rw [abs_neg, abs_of_nonneg (by norm_num)])
  have hup : refMath.fl (2 ^ 1023 - 0) = .fin (2 ^ 1023) := by
    rw [sub_zero]
    exact refMath_fl_small _ (by rw [abs_of_nonneg (by norm_num)])
  have hover : refMath.fl (2 ^ 1023 * PI) = .pinf := by
    have h : (2 : ℚ) ^ 1024 - 2 ^ 970 ≤ 2 ^ 1023 * PI := by
      unfold PI
      norm_num
    simp only [refMath, if_pos h]
  have hunder : refMath.fl (-(2 ^ 1023) * PI) = .ninf := by
    rw [neg_mul, refMath_fl_odd, hover]
    rfl
  have hsinP : refMath.sin .pinf = .nan := rfl
  have hsinM : refMath.sin .ninf = .nan := rfl
  have hsqrt : refMath.sqrt .nan = .nan := rfl
  have hatan : refMath.atan2 .nan .nan = .nan := rfl
  have hdivP : ∀ d : ℚ, Num.divBy refMath.fl .pinf d = .pinf := fun _ => rfl
  have hdivM : ∀ d : ℚ, Num.divBy refMath.fl .ninf d = .ninf := fun _ => rfl
  have e1 : calculateDistance refMath (.fin (2 ^ 1023)) (.fin 0) (.fin 0) (.fin 0) = .nan := by
    unfold calculateDistance
    simp only [Num.minus_fin, hdown, Num.mul_fin, hunder, hdivM, hsinM, Num.nan_mul,
      Num.nan_add, Num.minus_nan, hsqrt, hatan, Num.mul_nan]
  have e2 : calculateDistance refMath (.fin 0) (.fin 0) (.fin (2 ^ 1023)) (.fin 0) = .nan := by
    unfold calculateDistance
    simp only [Num.minus_fin, hup, Num.mul_fin, hover, hdivP, hsinP, Num.nan_mul,
      Num.nan_add, Num.minus_nan, hsqrt, hatan, Num.mul_nan]
  refine ⟨e1, e2, ?_⟩
  rw [e1, e2]
  rfl

/-- Witness of C11: the coordinates of the first two seeded pharmacies. -/
theorem calculateDistance_symm_witness :
    calculateDistance refMath (.fin (129716 / 10000)) (.fin (775946 / 10000))
        (.fin (129680 / 10000)) (.fin (775870 / 10000)) =
      calculateDistance refMath (.fin (129680 / 10000)) (.fin (775870 / 10000))
        (.fin (129716 / 10000)) (.fin (775946 / 10000)) :=
  (calculateDistance_symm refMath (.fin (129716 / 10000)) (.fin (775946 / 10000))
    (.fin (129680 / 10000)) (.fin (775870 / 10000)) refMath_fl_odd
    (fun x => by cases x <;> rfl)).1

/-! ## The alert registry over sequences of requests -/

/-- The inventory update does not assign to the registry. -/
theorem putAdminInventory_priceAlerts (H : Host) (now : String) (s : State)
    (pharmacyId medicineId : String) (price : JSValue) :
    (putAdminInventory H now s pharmacyId medicineId price).state.priceAlerts =
      s.priceAlerts := by
  unfold putAdminInventory
  split
  · rfl
  · split
    · rfl
    · split_ifs <;> rfl

/-- A registration appends one active alert to the registry or leaves it. -/
theorem postAlertsPrice_priceAlerts (H : Host) (now : String) (s : State)
    (medicine_id max_price email : JSValue) :
    (postAlertsPrice H now s medicine_id max_price email).2.priceAlerts = s.priceAlerts ∨
    ∃ alert : AlertRecord, alert.active = true ∧
      (postAlertsPrice H now s medicine_id max_price email).2.priceAlerts =
        s.priceAlerts ++ [alert] := by
  unfold postAlertsPrice
  split
  · exact Or.inl rfl
  · split
    · exact Or.inl rfl
    · split
      · exact Or.inl rfl
      · split
        · exact Or.inl rfl
        · exact Or.inr ⟨_, rfl, rfl⟩

/-- A request other than an alert registration leaves the registry as it is;
an alert registration leaves it or appends one active alert. -/
theorem step_priceAlerts (H : Host) (s : State) (request : Request) :
    (step H s request).priceAlerts = s.priceAlerts ∨
    ((∃ now medicine_id max_price email,
        request = .postAlertsPrice now medicine_id max_price email) ∧
      ∃ alert : AlertRecord, alert.active = true ∧
        (step H s request).priceAlerts = s.priceAlerts ++ [alert]) := by
  cases request with
  | postAlertsPrice now medicine_id max_price email =>
    rcases postAlertsPrice_priceAlerts H now s medicine_id max_price email with h | h
    · exact Or.inl h
    · exact Or.inr ⟨⟨now, medicine_id, max_price, email, rfl⟩, h⟩
  | putAdminInventory now pharmacyId medicineId price =>
    exact Or.inl (putAdminInventory_priceAlerts H now s pharmacyId medicineId price)
  | postPrescriptionsUpload now patient_name doctor_name medicines_list notes =>
    exact Or.inl rfl
  | postConsultationsBook now patient_name phone preferred_time consultation_type query =>
    left
    simp only [step, postConsultationsBook]
    split_ifs <;> rfl
  | postOrders now estimated customer_name phone address medicines pharmacy_id
      delivery_option =>
    left
    simp only [step, postOrders]
    cases medicines with
    | none => rfl
    | some items =>
      simp only []
      split_ifs
      · rfl
      · cases total_amount H items <;> rfl
  | getReportsPriceTrends medicineId =>
    left
    simp only [step, getReportsPriceTrends]
    split <;> rfl
  | getMedicinesSearch now query => exact Or.inl rfl
  | readOnly => exact Or.inl rfl
  | clientsChanged clients => exact Or.inl rfl

/-- C12. Alert records are never deleted and never deactivated.  Over every
sequence of requests the registry only grows by appending: the earlier
registry is a prefix of the later one.  A request changes the registry only if
it is an alert registration, which appends one alert with `active = true`; so
every alert stored in a state reached from the initial stores is active. -/
theorem priceAlerts_append_only (H : Host) (clients : List Client) (s : State)
    (requests : List Request) (request : Request) :
    s.priceAlerts <+: (run H s requests).priceAlerts ∧
    ((∀ a ∈ s.priceAlerts, a.active = true) →
      ∀ a ∈ (run H s requests).priceAlerts, a.active = true) ∧
    (∀ a ∈ (run H (initialState clients) requests).priceAlerts, a.active = true) ∧
    ((step H s request).priceAlerts ≠ s.priceAlerts →
      (∃ now medicine_id max_price email,
        request = .postAlertsPrice now medicine_id max_price email) ∧
      ∃ alert : AlertRecord, alert.active = true ∧
        (step H s request).priceAlerts = s.priceAlerts ++ [alert]) := by
  have hrun : ∀ (requests : List Request) (s : State),
      s.priceAlerts <+: (run H s requests).priceAlerts ∧
      ((∀ a ∈ s.priceAlerts, a.active = true) →
        ∀ a ∈ (run H s requests).priceAlerts, a.active = true) := by
    intro requests
    induction requests with
    | nil => intro s; exact ⟨List.prefix_refl _, fun h => h⟩
    | cons r rs ih =>
      intro s
      obtain ⟨hpre, hact⟩ := ih (step H s r)
      have hstep : s.priceAlerts <+: (step H s r).priceAlerts ∧
          ((∀ a ∈ s.priceAlerts, a.active = true) →
            ∀ a ∈ (step H s r).priceAlerts, a.active = true) := by
        rcases step_priceAlerts H s r with h | ⟨_, alert, hal, h⟩
        · rw [h]; exact ⟨List.prefix_refl _, fun h => h⟩
        · rw [h]
          refine ⟨List.prefix_append _ _, fun hs a ha => ?_⟩
          rcases List.mem_append.mp ha with ha | ha
          · exact hs a ha
          · rw [List.mem_singleton.mp ha]; exact hal
      exact ⟨hstep.1.trans hpre, fun hs => hact (hstep.2 hs)⟩
  refine ⟨(hrun requests s).1, (hrun requests s).2, ?_, ?_⟩
  · exact (hrun requests (initialState clients)).2 (fun a ha => by simp [initialState] at ha)
  · intro hne
    rcases step_priceAlerts H s request with h | h
    · exact absurd h hne
    · exact h

/-! ## The search handler and the catalogue -/

/-- A new array extends the heap and holds what it was made of. -/
theorem alloc_extends (h0 h : Heap) (a : List Medicine) (hpre : h0.arrays <+: h.arrays) :
    Extends h0 (h.alloc a) ∧ (h.alloc a).1.read (h.alloc a).2 = a := by
  refine ⟨⟨hpre.trans (List.prefix_append _ _), hpre.length_le, ?_⟩, ?_⟩
  · simp [Heap.alloc]
  · simp [Heap.alloc, Heap.read, List.getD_eq_getElem?_getD]

/-- Writing behind a reference made since `h0` keeps the arrays of `h0`. -/
theorem write_extends (h0 : Heap) (hr : Heap × Nat) (a : List Medicine) (he : Extends h0 hr) :
    Extends h0 (hr.1.write hr.2 a, hr.2) ∧ (hr.1.write hr.2 a).read hr.2 = a := by
  obtain ⟨⟨t, ht⟩, hle, hlt⟩ := he
  refine ⟨⟨⟨t.set (hr.2 - h0.arrays.length) a, ?_⟩, hle, ?_⟩, ?_⟩
  · simp only [Heap.write, ← ht]
    rw [List.set_append_right _ _ hle]
  · simpa [Heap.write] using hlt
  · simp [Heap.write, Heap.read, List.getD_eq_getElem?_getD, List.getElem?_set, hlt]

/-- An array of `h0` is read the same in a heap that extends it. -/
theorem read_of_extends (h0 : Heap) (hr : Heap × Nat) (he : Extends h0 hr) (i : Nat)
    (hi : i < h0.arrays.length) : hr.1.read i = h0.read i := by
  obtain ⟨⟨t, ht⟩, _, _⟩ := he
  simp [Heap.read, List.getD_eq_getElem?_getD, ← ht, List.getElem?_append_left hi]

/-- A filter stage on array objects computes the stage of the pure pipeline
and keeps the earlier arrays. -/
theorem filterStage_spec (h0 : Heap) (v : Option String) (p : String → Medicine → Bool)
    (hr : Heap × Nat) (he : Extends h0 hr) :
    Extends h0 (filterStage v p hr) ∧
    (filterStage v p hr).1.read (filterStage v p hr).2 =
      whenGiven v (fun x rs => rs.filter (p x)) (hr.1.read hr.2) := by
  cases v with
  | none => exact ⟨he, rfl⟩
  | some x =>
    by_cases hx : x = ""
    · simpa [filterStage, whenGiven, hx] using he
    · simpa [filterStage, whenGiven, hx] using alloc_extends h0 hr.1 _ he.1

/-- The category stage on array objects computes the stage of the pure
pipeline and keeps the earlier arrays. -/
theorem categoryStage_spec (h0 : Heap) (category : Option String) (hr : Heap × Nat)
    (he : Extends h0 hr) :
    Extends h0 (categoryStage category hr) ∧
    (categoryStage category hr).1.read (categoryStage category hr).2 =
      whenGiven category (fun category rs =>
        if category ≠ "all" then rs.filter (fun medicine => medicine.category.contains category)
        else rs) (hr.1.read hr.2) := by
  cases category with
  | none => exact ⟨he, rfl⟩
  | some c =>
    by_cases hc : c = ""
    · simpa [categoryStage, whenGiven, hc] using he
    · by_cases hall : c = "all"
      · simpa [categoryStage, whenGiven, hall] using he
      · simpa [categoryStage, whenGiven, hc, hall] using alloc_extends h0 hr.1 _ he.1

/-- The sort stage on array objects computes the stage of the pure pipeline
and keeps the earlier arrays. -/
theorem sortStage_spec (H : Host) (h0 : Heap) (sort : Option String) (hr : Heap × Nat)
    (he : Extends h0 hr) :
    Extends h0 (sortStage H sort hr) ∧
    (sortStage H sort hr).1.read (sortStage H sort hr).2 =
      whenGiven sort (sortResults H) (hr.1.read hr.2) := by
  cases sort with
  | none => exact ⟨he, rfl⟩
  | some x =>
    by_cases hx : x = ""
    · simpa [sortStage, whenGiven, hx] using he
    · simpa [sortStage, whenGiven, hx] using write_extends h0 hr _ he

/-- The search handler on array objects keeps every array that existed before
the run and returns the list of the pure pipeline. -/
theorem searchRun_spec (H : Host) (query : SearchQuery) (h : Heap) (medicines : Nat) :
    Extends h (searchRun H query h medicines) ∧
    (searchRun H query h medicines).1.read (searchRun H query h medicines).2 =
      searchResults H (h.read medicines) query := by
  obtain ⟨e0, r0⟩ := alloc_extends h h (h.read medicines) (List.prefix_refl _)
  obtain ⟨e1, r1⟩ := filterStage_spec h query.q (fun q medicine =>
    strIncludes (H.toLowerCase medicine.name) (H.toLowerCase q) ||
    strIncludes (H.toLowerCase medicine.description) (H.toLowerCase q) ||
    strIncludes (H.toLowerCase medicine.composition) (H.toLowerCase q)) _ e0
  obtain ⟨e2, r2⟩ := categoryStage_spec h query.category _ e1
  obtain ⟨e3, r3⟩ := filterStage_spec h query.minPrice (fun minPrice medicine =>
    medicine.price.ge (H.parseFloat (.string minPrice))) _ e2
  obtain ⟨e4, r4⟩ := filterStage_spec h query.maxPrice (fun maxPrice medicine =>
    medicine.price.le (H.parseFloat (.string maxPrice))) _ e3
  obtain ⟨e5, r5⟩ := filterStage_spec h query.location (fun location medicine =>
    medicine.pharmacies.any (fun pharmacy =>
      strIncludes (H.toLowerCase pharmacy) (H.toLowerCase location))) _ e4
  obtain ⟨e6, r6⟩ := sortStage_spec H h query.sort _ e5
  obtain ⟨e7, r7⟩ := alloc_extends h _
    (slice0 ((sortStage H query.sort _).1.read (sortStage H query.sort _).2)
      (H.parseInt (withDefault query.limit 10))) e6.1
  refine ⟨e7, r7.trans ?_⟩
  rw [r6, r5, r4, r3, r2, r1, r0]
  rfl


/-- The pure pipeline reads `parseInt`, `parseFloat`, `toLowerCase` and
`localeCompare` of the host and, for a sort other than `distance`, nothing
else of it. -/
theorem searchResults_host (H H' : Host) (catalog : List Medicine) (query : SearchQuery)
    (hsort : query.sort ≠ some "distance")
    (hint : H'.parseInt = H.parseInt) (hfloat : H'.parseFloat = H.parseFloat)
    (hlower : H'.toLowerCase = H.toLowerCase) (hloc : H'.localeCompare = H.localeCompare) :
    searchResults H' catalog query = searchResults H catalog query := by
  have hstage : ∀ l, whenGiven query.sort (sortResults H') l =
      whenGiven query.sort (sortResults H) l := by
    intro l
    cases hq : query.sort with
    | none => rfl
    | some x =>
      have hd : x ≠ "distance" := fun h => hsort (by rw [hq, h])
      by_cases hx : x = ""
      · simp [whenGiven, hx]
      · simp only [whenGiven, hx, ne_eq, not_false_eq_true, if_true, sortResults, hloc, hd,
          if_false]
  simp only [searchResults, searchFilters, hint, hfloat, hlower, hstage]

/-- C13. The search is a function of the catalogue and the query alone: its
result list is the one of the pure pipeline on the catalogue, so two runs with
the same catalogue and query return the same list whatever the rest of the
stores, the clock and, for a sort other than `distance`, the random source.
The run leaves the stores unchanged, the catalogue and the order of its
records included: the filters and the sort act on arrays made during the run,
never on the array of the global `medicines`. -/
theorem getMedicinesSearchRun_pure (H H' : Host) (now now' : String) (s s' : State)
    (query : SearchQuery) (hcat : s'.medicines = s.medicines)
    (hsort : query.sort ≠ some "distance")
    (hint : H'.parseInt = H.parseInt) (hfloat : H'.parseFloat = H.parseFloat)
    (hlower : H'.toLowerCase = H.toLowerCase) (hloc : H'.localeCompare = H.localeCompare) :
    (getMedicinesSearchRun H now s query).1.results = searchResults H s.medicines query ∧
    (getMedicinesSearchRun H' now' s' query).1.results =
      (getMedicinesSearchRun H now s query).1.results ∧
    (getMedicinesSearchRun H now s query).2 = s ∧
    (∀ (h : Heap) (medicines i : Nat), i < h.arrays.length →
      (searchRun H query h medicines).1.read i = h.read i) := by
  have hres : ∀ (H : Host) (now : String) (s : State),
      (getMedicinesSearchRun H now s query).1.results = searchResults H s.medicines query := by
    intro H now s
    exact (searchRun_spec H query ⟨[s.medicines]⟩ 0).2
  refine ⟨hres H now s, ?_, ?_, ?_⟩
  · rw [hres H' now' s', hres H now s, hcat]
    exact searchResults_host H H' s.medicines query hsort hint hfloat hlower hloc
  · have h0 : (searchRun H query ⟨[s.medicines]⟩ 0).1.read 0 = s.medicines :=
      read_of_extends ⟨[s.medicines]⟩ _ (searchRun_spec H query ⟨[s.medicines]⟩ 0).1 0
        (by simp)
    show { s with medicines := (searchRun H query ⟨[s.medicines]⟩ 0).1.read 0 } = s
    rw [h0]
  · intro h medicines i hi
    exact read_of_extends h _ (searchRun_spec H query h medicines).1 i hi

/-- Witness of C13: the seeded stores and the stores after an order, two
clock readings, and two hosts that differ in the random source only. -/
theorem getMedicinesSearchRun_pure_witness :
    (getMedicinesSearchRun { refHost with randomOrder := List.reverse } "2023-11-03T09:00:00.000Z"
        { initialState [] with currentId := 12 }
        ⟨none, none, none, some "price-low", none, none, none⟩).1.results =
      (getMedicinesSearchRun refHost "2023-11-02T09:00:00.000Z" (initialState [])
        ⟨none, none, none, some "price-low", none, none, none⟩).1.results ∧
    (getMedicinesSearchRun refHost "2023-11-02T09:00:00.000Z" (initialState [])
        ⟨none, none, none, some "price-low", none, none, none⟩).2 = initialState [] :=
  have h := getMedicinesSearchRun_pure refHost { refHost with randomOrder := List.reverse }
    "2023-11-02T09:00:00.000Z" "2023-11-03T09:00:00.000Z" (initialState [])
    { initialState [] with currentId := 12 }
    ⟨none, none, none, some "price-low", none, none, none⟩ rfl (by decide) rfl rfl rfl rfl
  ⟨h.2.1, h.2.2.1⟩

/-! ## Order of the search result -/

/-- On two numbers that are not NaN, the comparator `a - b` leaves `a` before
`b` exactly when `a <= b`. -/
theorem Num.sub_not_gt_iff_le (a b : Num) (ha : a ≠ .nan) (hb : b ≠ .nan) :
    (a.sub b).gt (.fin 0) = false ↔ a.le b = true := by
  cases a <;> cases b <;> simp_all [Num.sub, Num.gt, Num.lt, Num.le]

/-- The order `<=` of numbers is transitive. -/
theorem Num.le_of_le_of_le (a b c : Num) (hab : a.le b = true) (hbc : b.le c = true) :
    a.le c = true := by
  cases a <;> cases b <;> cases c <;> simp_all [Num.le]
  exact hab.trans hbc

/-- Neighbours related by a relation that is transitive on the elements of the
list are related pairwise. -/
theorem pairwise_of_chain' {α : Type} (r : α → α → Prop) (l : List α)
    (htrans : ∀ a ∈ l, ∀ b ∈ l, ∀ c ∈ l, r a b → r b c → r a c) (hl : l.Chain' r) :
    l.Pairwise r := by
  induction l with
  | nil => exact List.Pairwise.nil
  | cons a l ih =>
    have htail : l.Pairwise r :=
      ih (fun x hx y hy z hz => htrans x (List.mem_cons_of_mem _ hx) y
        (List.mem_cons_of_mem _ hy) z (List.mem_cons_of_mem _ hz)) hl.tail
    refine List.Pairwise.cons ?_ htail
    cases l with
    | nil => intro x hx; simp at hx
    | cons b l =>
      have hab : r a b := (List.chain'_cons.mp hl).1
      intro x hx
      rcases List.mem_cons.mp hx with rfl | hx
      · exact hab
      · exact htrans a (List.mem_cons_self _ _) b (List.mem_cons_of_mem _ (List.mem_cons_self _ _))
          x (List.mem_cons_of_mem _ (List.mem_cons_of_mem _ hx)) hab
          ((List.pairwise_cons.mp htail).1 x hx)

/-- The sort orders the list pairwise when the comparator never puts two
elements each after the other and is transitive on the elements of the list. -/
theorem sortWith_pairwise (cmp : Medicine → Medicine → Num) (l : List Medicine)
    (hasym : ∀ a b, (cmp a b).gt (.fin 0) = true → (cmp b a).gt (.fin 0) = false)
    (htrans : ∀ a ∈ l, ∀ b ∈ l, ∀ c ∈ l, (cmp a b).gt (.fin 0) = false →
      (cmp b c).gt (.fin 0) = false → (cmp a c).gt (.fin 0) = false) :
    (sortWith cmp l).Pairwise (fun a b => (cmp a b).gt (.fin 0) = false) := by
  have hperm : (sortWith cmp l).Perm l := List.perm_insertionSort _ _
  apply pairwise_of_chain'
  · intro a ha b hb c hc
    exact htrans a (hperm.mem_iff.mp ha) b (hperm.mem_iff.mp hb) c (hperm.mem_iff.mp hc)
  · apply chain'_insertionSort
    intro a b
    by_cases h : (cmp a b).gt (.fin 0) = true
    · exact Or.inr (hasym a b h)
    · exact Or.inl (by simpa using h)

/-- Sorting by a numeric key that is never NaN orders the list by `<=` on the
key. -/
theorem sortWith_key_pairwise (key : Medicine → Num) (l : List Medicine)
    (hkey : ∀ m ∈ l, key m ≠ .nan) :
    (sortWith (fun a b => (key a).sub (key b)) l).Pairwise
      (fun a b => (key a).le (key b) = true) := by
  have hperm : (sortWith (fun a b => (key a).sub (key b)) l).Perm l :=
    List.perm_insertionSort _ _
  have h := sortWith_pairwise (fun a b => (key a).sub (key b)) l
    (fun a b => Num.sub_gt_asymm _ _)
    (fun a ha b hb c hc hab hbc => by
      rw [Num.sub_not_gt_iff_le _ _ (hkey a ha) (hkey b hb)] at hab
      rw [Num.sub_not_gt_iff_le _ _ (hkey b hb) (hkey c hc)] at hbc
      rw [Num.sub_not_gt_iff_le _ _ (hkey a ha) (hkey c hc)]
      exact Num.le_of_le_of_le _ _ _ hab hbc)
  refine List.Pairwise.imp_of_mem ?_ h
  intro a b ha hb hab
  exact (Num.sub_not_gt_iff_le _ _ (hkey a (hperm.mem_iff.mp ha))
    (hkey b (hperm.mem_iff.mp hb))).mp hab

/-- Sorting by a numeric key that is never NaN with the operands exchanged
orders the list by `>=` on the key. -/
theorem sortWith_key_desc_pairwise (key : Medicine → Num) (l : List Medicine)
    (hkey : ∀ m ∈ l, key m ≠ .nan) :
    (sortWith (fun a b => (key b).sub (key a)) l).Pairwise
      (fun a b => (key b).le (key a) = true) := by
  have hperm : (sortWith (fun a b => (key b).sub (key a)) l).Perm l :=
    List.perm_insertionSort _ _
  have h := sortWith_pairwise (fun a b => (key b).sub (key a)) l
    (fun a b => Num.sub_gt_asymm _ _)
    (fun a ha b hb c hc hab hbc => by
      rw [Num.sub_not_gt_iff_le _ _ (hkey b hb) (hkey a ha)] at hab
      rw [Num.sub_not_gt_iff_le _ _ (hkey c hc) (hkey b hb)] at hbc
      rw [Num.sub_not_gt_iff_le _ _ (hkey c hc) (hkey a ha)]
      exact Num.le_of_le_of_le _ _ _ hbc hab)
  refine List.Pairwise.imp_of_mem ?_ h
  intro a b ha hb hab
  exact (Num.sub_not_gt_iff_le _ _ (hkey b (hperm.mem_iff.mp hb))
    (hkey a (hperm.mem_iff.mp ha))).mp hab


/-- C14, refuted as stated: a catalogue holding a record whose price is NaN
(what an inventory update with a non-numeric price stores) is returned by the
`price-low` sort with the record priced 2 ahead of the record priced 1. -/
theorem searchResults_not_sorted_with_nan_price :
    (searchResults refHost
        [{ dolo with price := .fin 2 }, { azithral with price := .nan },
          { dolo with id := .fin 3, price := .fin 1 }]
        ⟨none, none, none, some "price-low", none, none, none⟩).map (fun m => m.price) =
      [.fin 2, .nan, .fin 1] ∧
    ¬ (searchResults refHost
        [{ dolo with price := .fin 2 }, { azithral with price := .nan },
          { dolo with id := .fin 3, price := .fin 1 }]
        ⟨none, none, none, some "price-low", none, none, none⟩).Pairwise
      (fun a b => a.price.le b.price = true) := by
  have h : searchResults refHost
      [{ dolo with price := .fin 2 }, { azithral with price := .nan },
        { dolo with id := .fin 3, price := .fin 1 }]
      ⟨none, none, none, some "price-low", none, none, none⟩ =
      [{ dolo with price := .fin 2 }, { azithral with price := .nan },
        { dolo with id := .fin 3, price := .fin 1 }] := by rfl
  rw [h]
  refine ⟨rfl, ?_⟩
  intro hp
  have h2 := (List.pairwise_cons.mp hp).1 { azithral with price := .nan } (by simp)
  simp [Num.le] at h2

/-- C14, amended. For every catalogue and every query, the returned list is, up
to order, a sub-list of the filtered records, and it is ordered by the
requested key: prices ascending for `price-low` and descending for
`price-high` when no filtered record has a NaN price, ratings descending for
`rating` when no filtered record has a NaN rating, and for `name` no record is
followed by one that `localeCompare` puts before it.  `localeCompare` is
assumed a consistent comparator and the random order a permutation. -/
theorem searchResults_sorted (H : Host) (catalog : List Medicine) (query : SearchQuery)
    (hasym : ∀ a b, (H.localeCompare a b).gt (.fin 0) = true →
      (H.localeCompare b a).gt (.fin 0) = false)
    (htrans : ∀ a b c, (H.localeCompare a b).gt (.fin 0) = false →
      (H.localeCompare b c).gt (.fin 0) = false → (H.localeCompare a c).gt (.fin 0) = false)
    (hrand : ∀ l, (H.randomOrder l).Perm l) :
    (searchResults H catalog query).Subperm (searchFilters H query catalog) ∧
    (query.sort = some "price-low" →
      (∀ m ∈ searchFilters H query catalog, m.price ≠ .nan) →
      (searchResults H catalog query).Pairwise (fun a b => a.price.le b.price = true)) ∧
    (query.sort = some "price-high" →
      (∀ m ∈ searchFilters H query catalog, m.price ≠ .nan) →
      (searchResults H catalog query).Pairwise (fun a b => b.price.le a.price = true)) ∧
    (query.sort = some "rating" →
      (∀ m ∈ searchFilters H query catalog, m.rating ≠ .nan) →
      (searchResults H catalog query).Pairwise (fun a b => b.rating.le a.rating = true)) ∧
    (query.sort = some "name" →
      (searchResults H catalog query).Pairwise
        (fun a b => (H.localeCompare a.name b.name).gt (.fin 0) = false)) := by
  obtain ⟨n, hn⟩ := slice0_eq_take
    (whenGiven query.sort (sortResults H) (searchFilters H query catalog))
    (H.parseInt (withDefault query.limit 10))
  have hres : searchResults H catalog query =
      (whenGiven query.sort (sortResults H) (searchFilters H query catalog)).take n := by
    simp only [searchResults, hn]
  rw [hres]
  refine ⟨(List.take_sublist n _).subperm.trans (sortStage_perm H hrand query.sort _).subperm,
    ?_, ?_, ?_, ?_⟩
  · intro hs hp
    rw [hs, whenGiven_some _ (by decide)]
    exact (sortWith_key_pairwise (fun m => m.price) _ hp).sublist (List.take_sublist n _)
  · intro hs hp
    rw [hs, whenGiven_some _ (by decide)]
    exact (sortWith_key_desc_pairwise (fun m => m.price) _ hp).sublist (List.take_sublist n _)
  · intro hs hr
    rw [hs, whenGiven_some _ (by decide)]
    exact (sortWith_key_desc_pairwise (fun m => m.rating) _ hr).sublist (List.take_sublist n _)
  · intro hs
    rw [hs, whenGiven_some _ (by decide)]
    exact (sortWith_pairwise (fun a b => H.localeCompare a.name b.name) _
      (fun a b => hasym _ _) (fun a _ b _ c _ => htrans _ _ _)).sublist (List.take_sublist n _)

/-- The comparator of the reference host is transitive. -/
theorem refHost_localeCompare_trans (a b c : String)
    (hab : (refHost.localeCompare a b).gt (.fin 0) = false)
    (hbc : (refHost.localeCompare b c).gt (.fin 0) = false) :
    (refHost.localeCompare a c).gt (.fin 0) = false := by
  have key : ∀ x y : String, (refHost.localeCompare x y).gt (.fin 0) = false ↔ x ≤ y := by
    intro x y
    simp only [refHost]
    by_cases hxy : x < y
    · simp [hxy, Num.gt, Num.lt, le_of_lt hxy]
    · by_cases heq : x = y
      · simp [heq, Num.gt, Num.lt]
      · have hyx : y < x := lt_of_le_of_ne (not_lt.mp hxy) (Ne.symm heq)
        simp [hxy, heq, Num.gt, Num.lt, not_le.mpr hyx]
  rw [key] at hab hbc ⊢
  exact hab.trans hbc

/-- Witness of the amended C14: a three-record catalogue whose cheapest record
has a NaN rating, by descending price and by name. -/
theorem searchResults_sorted_witness :
    (searchResults refHost
        [{ dolo with rating := .nan }, azithral, { dolo with id := .fin 3, price := .fin 60 }]
        ⟨none, none, none, some "price-high", none, none, none⟩).Pairwise
      (fun a b => b.price.le a.price = true) ∧
    (searchResults refHost
        [{ dolo with rating := .nan }, azithral, { dolo with id := .fin 3, price := .fin 60 }]
        ⟨none, none, none, some "name", none, none, none⟩).Pairwise
      (fun a b => (refHost.localeCompare a.name b.name).gt (.fin 0) = false) :=
  ⟨(searchResults_sorted refHost
      [{ dolo with rating := .nan }, azithral, { dolo with id := .fin 3, price := .fin 60 }]
      ⟨none, none, none, some "price-high", none, none, none⟩
      refHost_localeCompare_asymm refHost_localeCompare_trans
      (fun l => List.Perm.refl l)).2.2.1 rfl (by decide),
    (searchResults_sorted refHost
      [{ dolo with rating := .nan }, azithral, { dolo with id := .fin 3, price := .fin 60 }]
      ⟨none, none, none, some "name", none, none, none⟩
      refHost_localeCompare_asymm refHost_localeCompare_trans
      (fun l => List.Perm.refl l)).2.2.2.2 rfl⟩

/-! ## Cap of the search result -/

/-- C15. When `limit` (the number 10 when the parameter is absent) parses to
the natural number `n`, the search returns the first `min n k` records of the
filtered and sorted list of length `k`, hence at most `n` records, and the
reported `total` is the length of the returned list. -/
theorem getMedicinesSearch_cap (H : Host) (now : String) (catalog : List Medicine)
    (query : SearchQuery) (n : Nat)
    (hn : H.parseInt (withDefault query.limit 10) = .fin (n : ℚ)) :
    (getMedicinesSearch H now catalog query).results =
      (whenGiven query.sort (sortResults H) (searchFilters H query catalog)).take
        (min n (whenGiven query.sort (sortResults H) (searchFilters H query catalog)).length) ∧
    (getMedicinesSearch H now catalog query).results.length =
      min n (whenGiven query.sort (sortResults H) (searchFilters H query catalog)).length ∧
    (getMedicinesSearch H now catalog query).results.length ≤ n ∧
    (getMedicinesSearch H now catalog query).total =
      (getMedicinesSearch H now catalog query).results.length := by
  have hres : (getMedicinesSearch H now catalog query).results =
      (whenGiven query.sort (sortResults H) (searchFilters H query catalog)).take n := by
    simp only [getMedicinesSearch, searchResults, hn, slice0_natCast]
  refine ⟨?_, ?_, ?_, rfl⟩
  · rw [hres]
    rcases Nat.le_total n
      (whenGiven query.sort (sortResults H) (searchFilters H query catalog)).length with h | h
    · rw [Nat.min_eq_left h]
    · rw [Nat.min_eq_right h, List.take_of_length_le h, List.take_length]
  · rw [hres, List.length_take]
  · rw [hres, List.length_take]
    exact Nat.min_le_left _ _

/-- Witness of C15: the two-record catalogue with `limit=1`, and with no
`limit`. -/
theorem getMedicinesSearch_cap_witness :
    (getMedicinesSearch refHost "2023-11-02T09:00:00.000Z" [dolo, azithral]
      ⟨none, none, none, none, some "1", none, none⟩).results.length ≤ 1 ∧
    (getMedicinesSearch refHost "2023-11-02T09:00:00.000Z" [dolo, azithral]
      ⟨none, none, none, none, none, none, none⟩).results.length ≤ 10 :=
  ⟨(getMedicinesSearch_cap refHost "2023-11-02T09:00:00.000Z" [dolo, azithral]
      ⟨none, none, none, none, some "1", none, none⟩ 1 (by rfl)).2.2.1,
   (getMedicinesSearch_cap refHost "2023-11-02T09:00:00.000Z" [dolo, azithral]
      ⟨none, none, none, none, none, none, none⟩ 10 (by rfl)).2.2.1⟩

/-! ## Payload of a notification -/

/-- C16. The payload built for an alert has type `price_alert`, names the
medicine, carries as `current_price` the price of the medicine at that moment
and as `target_price` the `max_price` of that alert.  An accepted inventory
update that carries a price builds its payloads from the re-priced medicine:
projected to these four fields they are `price_alert`, the name of the updated
medicine, the price after the update and the `max_price` of the alert, over
the matching alerts the loop visits, in registry order; and each payload
emitted is the one built for a matching alert of the registry. -/
theorem putAdminInventory_payloads (H : Host) (now : String) (s : State)
    (pharmacyId medicineId : String) (price : JSValue) (pharmacy : Pharmacy)
    (medicine : Medicine) (hs : Stocked H s pharmacyId medicineId pharmacy medicine)
    (hprice : price ≠ .undefined) :
    (∀ (m : Medicine) (alert : AlertRecord),
      (mkAlertData now m alert).type = "price_alert" ∧
      (mkAlertData now m alert).medicine = m.name ∧
      (mkAlertData now m alert).current_price = m.price ∧
      (mkAlertData now m alert).target_price = alert.max_price) ∧
    (putAdminInventory H now s pharmacyId medicineId price).notifications.map
        (fun d => (d.type, d.medicine, d.current_price, d.target_price)) =
      (reached (relevantAlerts s.priceAlerts (setPrice now (H.parseFloat price) medicine)
          medicine.price)).map
        (fun alert => ("price_alert", medicine.name, H.parseFloat price, alert.max_price)) ∧
    (∀ d ∈ (putAdminInventory H now s pharmacyId medicineId price).notifications,
      d.type = "price_alert" ∧ d.medicine = medicine.name ∧
      d.current_price = H.parseFloat price ∧
      ∃ alert ∈ s.priceAlerts,
        alertMatches (setPrice now (H.parseFloat price) medicine) medicine.price alert = true ∧
        d = mkAlertData now (setPrice now (H.parseFloat price) medicine) alert ∧
        d.target_price = alert.max_price) := by
  rw [putAdminInventory_scan H now s pharmacyId medicineId price pharmacy medicine hs hprice]
  refine ⟨fun m alert => ⟨rfl, rfl, rfl, rfl⟩, ?_, ?_⟩
  · simp [checkPriceAlerts, mkAlertData, setPrice, List.map_map, Function.comp_def]
  · intro d hd
    simp only [checkPriceAlerts, List.mem_map] at hd
    obtain ⟨alert, hmem, rfl⟩ := hd
    have hrel := (reached_isPrefix _).subset hmem
    simp only [relevantAlerts, List.mem_filter] at hrel
    exact ⟨rfl, rfl, rfl, alert, hrel.1, hrel.2, rfl, rfl⟩

/-- Witness of C16: three alerts registered for medicine 1, with targets 40, 39
and 30; medicine 1 is re-priced from 45 to 38 through pharmacy 2. -/
theorem putAdminInventory_payloads_witness :
    (putAdminInventory refHost "2023-11-02T09:00:00.000Z" threeAlerts "2" "1"
      (.number (.fin 38))).notifications.map
        (fun d => (d.type, d.medicine, d.current_price, d.target_price)) =
      [("price_alert", "Dolo 650", .fin 38, .fin 40),
        ("price_alert", "Dolo 650", .fin 38, .fin 39)] ∧
    (putAdminInventory refHost "2023-11-02T09:00:00.000Z" threeAlerts "2" "1"
      (.number (.fin 38))).notifications.map
        (fun d => (d.type, d.medicine, d.current_price, d.target_price)) =
      (reached (relevantAlerts threeAlerts.priceAlerts
          (setPrice "2023-11-02T09:00:00.000Z" (refHost.parseFloat (.number (.fin 38))) dolo)
          dolo.price)).map
        (fun alert => ("price_alert", dolo.name, refHost.parseFloat (.number (.fin 38)),
          alert.max_price)) :=
  ⟨by decide,
    (putAdminInventory_payloads refHost "2023-11-02T09:00:00.000Z" threeAlerts
      "2" "1" (.number (.fin 38)) medplus dolo ⟨by rfl, by rfl, by rfl⟩ (by decide)).2.1⟩

/-! ## Rejected and accepted inventory updates -/

/-- C17. The inventory update is answered 404 when no pharmacy has the id of
the route, 404 when no medicine has the id of the route, and 400 when both
exist and the medicine does not list the name of the pharmacy; in each case
the stores (prices, price histories and alert registry included) are as
before and nothing is emitted or sent. -/
theorem putAdminInventory_failures (H : Host) (now : String) (s : State)
    (pharmacyId medicineId : String) (price : JSValue) :
    (s.pharmacies.find? (fun p => p.id.strictEq (H.parseInt (.string pharmacyId))) = none →
      putAdminInventory H now s pharmacyId medicineId price =
        ⟨⟨404, .error "Pharmacy not found"⟩, s, [], []⟩) ∧
    (s.medicines.find? (fun m => m.id.strictEq (H.parseInt (.string medicineId))) = none →
      (putAdminInventory H now s pharmacyId medicineId price).response.status = 404 ∧
      (putAdminInventory H now s pharmacyId medicineId price).state = s ∧
      (putAdminInventory H now s pharmacyId medicineId price).notifications = [] ∧
      (putAdminInventory H now s pharmacyId medicineId price).deliveries = []) ∧
    (∀ (pharmacy : Pharmacy) (medicine : Medicine),
      s.pharmacies.find? (fun p => p.id.strictEq (H.parseInt (.string pharmacyId))) =
        some pharmacy →
      s.medicines.find? (fun m => m.id.strictEq (H.parseInt (.string medicineId))) =
        some medicine →
      medicine.pharmacies.contains pharmacy.name = false →
      putAdminInventory H now s pharmacyId medicineId price =
        ⟨⟨400, .error "Medicine not available at this pharmacy"⟩, s, [], []⟩) := by
  refine ⟨?_, ?_, ?_⟩
  · intro hp
    simp [putAdminInventory, hp]
  · intro hm
    unfold putAdminInventory
    cases s.pharmacies.find? (fun p => p.id.strictEq (H.parseInt (.string pharmacyId))) with
    | none => exact ⟨rfl, rfl, rfl, rfl⟩
    | some pharmacy => simp [hm]
  · intro pharmacy medicine hp hm hav
    simp only [putAdminInventory, hp, hm, hav, Bool.not_false, if_true]

/-- Witness of C17 on the seeded stores: pharmacy 9 does not exist, medicine 7
does not exist, and medicine 1 does not list the name of pharmacy 1. -/
theorem putAdminInventory_failures_witness :
    putAdminInventory refHost "2023-11-02T09:00:00.000Z" (initialState []) "9" "1"
        (.number (.fin 40)) =
      ⟨⟨404, .error "Pharmacy not found"⟩, initialState [], [], []⟩ ∧
    (putAdminInventory refHost "2023-11-02T09:00:00.000Z" (initialState []) "2" "7"
        (.number (.fin 40))).response.status = 404 ∧
    putAdminInventory refHost "2023-11-02T09:00:00.000Z" (initialState []) "1" "1"
        (.number (.fin 40)) =
      ⟨⟨400, .error "Medicine not available at this pharmacy"⟩, initialState [], [], []⟩ :=
  ⟨(putAdminInventory_failures refHost "2023-11-02T09:00:00.000Z" (initialState []) "9" "1"
      (.number (.fin 40))).1 (by rfl),
   ((putAdminInventory_failures refHost "2023-11-02T09:00:00.000Z" (initialState []) "2" "7"
      (.number (.fin 40))).2.1 (by rfl)).1,
   (putAdminInventory_failures refHost "2023-11-02T09:00:00.000Z" (initialState []) "1" "1"
      (.number (.fin 40))).2.2 apollo dolo (by rfl) (by rfl) (by rfl)⟩

/-! ## Effect of an accepted inventory update -/

/-- The in-place update changes the found object and nothing else of the
list. -/
theorem modifyFirst_eq {α : Type} (p : α → Bool) (f : α → α) (l : List α) (x : α)
    (hx : l.find? p = some x) :
    ∃ pre post, l = pre ++ x :: post ∧ (∀ a ∈ pre, p a = false) ∧
      modifyFirst p f l = pre ++ f x :: post := by
  induction l with
  | nil => simp at hx
  | cons y ys ih =>
    by_cases hy : p y = true
    · have : y = x := by simpa [List.find?, hy] using hx
      subst this
      exact ⟨[], ys, rfl, fun a ha => by simp at ha, by simp [modifyFirst, hy]⟩
    · have hy' : p y = false := by simpa using hy
      have hx' : ys.find? p = some x := by simpa [List.find?, hy'] using hx
      obtain ⟨pre, post, hl, hpre, hmod⟩ := ih hx'
      refine ⟨y :: pre, post, by rw [hl]; rfl, ?_, by simp [modifyFirst, hy', hmod]⟩
      intro a ha
      rcases List.mem_cons.mp ha with rfl | ha
      · exact hy'
      · exact hpre a ha

/-- C18, counterexample.  On the seeded stores the update of medicine 1
through pharmacy 2 with the price `"abc"` is answered 200, and the price of the
medicine afterwards is NaN, as is the price of the entry added to its
history. -/
theorem putAdminInventory_stores_nan :
    (putAdminInventory refHost "2023-11-02T09:00:00.000Z" (initialState []) "2" "1"
      (.string "abc")).response.status = 200 ∧
    (putAdminInventory refHost "2023-11-02T09:00:00.000Z" (initialState []) "2" "1"
      (.string "abc")).state.medicines.map (fun m => m.price) = [.nan] ∧
    (putAdminInventory refHost "2023-11-02T09:00:00.000Z" (initialState []) "2" "1"
      (.string "abc")).state.medicines.map
        (fun m => (m.price_history.getD []).map (fun e => e.price)) =
      [[.fin 42, .fin (87 / 2), .fin 45, .nan]] := by
  refine ⟨by rfl, by rfl, by rfl⟩

/-- C18, amended.  An accepted inventory update that supplies a price `p` which
converts to a string leaves the medicine with the price `parseFloat(p)` (the
number `p` itself when `p` is a number, as `parseFloat` returns a number it is
given; NaN when `parseFloat` reads no number in `p`) and with its previous
history followed by exactly one entry, whose price is that price; every other
record of the catalogue and every other store is as before.  It is answered
200, or 500 when the log line of the alert scan throws, the price being
written in both cases.  A price that does not convert to a string is answered
500 and changes nothing.  An accepted update that supplies no price leaves the
stores as they were and emits nothing. -/
theorem putAdminInventory_effect (H : Host) (now : String) (s : State)
    (pharmacyId medicineId : String) (price : JSValue) (pharmacy : Pharmacy)
    (medicine : Medicine) (hs : Stocked H s pharmacyId medicineId pharmacy medicine) :
    (price ≠ .undefined → price.stringifies = true →
      (putAdminInventory H now s pharmacyId medicineId price).response.status =
        (if checkPriceAlertsThrows s.priceAlerts (setPrice now (H.parseFloat price) medicine)
          medicine.price then 500 else 200) ∧
      (∃ pre post : List Medicine, ∃ updated : Medicine,
        s.medicines = pre ++ medicine :: post ∧
        (putAdminInventory H now s pharmacyId medicineId price).state =
          { s with medicines := pre ++ updated :: post } ∧
        updated.price = H.parseFloat price ∧
        (∀ n : Num, price = .number n → H.parseFloat (.number n) = n → updated.price = n) ∧
        updated.price_history =
          some (medicine.price_history.getD [] ++ [⟨datePart now, H.parseFloat price⟩]) ∧
        updated = { medicine with
          price := updated.price, price_history := updated.price_history })) ∧
    (price.stringifies = false →
      (putAdminInventory H now s pharmacyId medicineId price).response.status = 500 ∧
      (putAdminInventory H now s pharmacyId medicineId price).state = s ∧
      (putAdminInventory H now s pharmacyId medicineId price).notifications = [] ∧
      (putAdminInventory H now s pharmacyId medicineId price).deliveries = []) ∧
    (price = .undefined →
      (putAdminInventory H now s pharmacyId medicineId price).response.status = 200 ∧
      (putAdminInventory H now s pharmacyId medicineId price).state = s ∧
      (putAdminInventory H now s pharmacyId medicineId price).notifications = [] ∧
      (putAdminInventory H now s pharmacyId medicineId price).deliveries = []) := by
  obtain ⟨hp, hm, hav⟩ := hs
  refine ⟨?_, ?_, ?_⟩
  · intro hprice hstr
    rw [putAdminInventory_priced H now s pharmacyId medicineId price pharmacy medicine hp hm hav
      hprice hstr]
    obtain ⟨pre, post, hl, _, hmod⟩ :=
      modifyFirst_eq (fun m => m.id.strictEq (H.parseInt (.string medicineId)))
        (setPrice now (H.parseFloat price)) s.medicines medicine hm
    refine ⟨?_, pre, post, setPrice now (H.parseFloat price) medicine, hl, ?_, rfl, ?_, rfl,
      rfl⟩
    · simp only []
      split_ifs <;> rfl
    · simp only [hmod]
    · intro n hn hpf
      rw [hn, hpf]
      rfl
  · intro hstr
    have hv : price = .unprintable := eq_unprintable price hstr
    subst hv
    rw [putAdminInventory_unprintable H now s pharmacyId medicineId pharmacy medicine
      ⟨hp, hm, hav⟩]
    exact ⟨rfl, rfl, rfl, rfl⟩
  · intro hprice
    have hav' : pharmacy.name ∈ medicine.pharmacies := by simpa using hav
    simp [putAdminInventory, hp, hm, hav', hprice]

/-- Witness of the amended C18: medicine 1 of the seeded stores re-priced to 38
through pharmacy 2, the same request with the price `{"toString": 1}`, and the
same request without a price. -/
theorem putAdminInventory_effect_witness :
    (∃ pre post : List Medicine, ∃ updated : Medicine,
      (initialState []).medicines = pre ++ dolo :: post ∧
      (putAdminInventory refHost "2023-11-02T09:00:00.000Z" (initialState []) "2" "1"
          (.number (.fin 38))).state =
        { initialState [] with medicines := pre ++ updated :: post } ∧
      updated.price = refHost.parseFloat (.number (.fin 38)) ∧
      (∀ n : Num, JSValue.number (.fin 38) = .number n → refHost.parseFloat (.number n) = n →
        updated.price = n) ∧
      updated.price_history =
        some (dolo.price_history.getD [] ++
          [⟨datePart "2023-11-02T09:00:00.000Z", refHost.parseFloat (.number (.fin 38))⟩]) ∧
      updated = { dolo with price := updated.price, price_history := updated.price_history }) ∧
    (putAdminInventory refHost "2023-11-02T09:00:00.000Z" (initialState []) "2" "1"
      .unprintable).state = initialState [] ∧
    (putAdminInventory refHost "2023-11-02T09:00:00.000Z" (initialState []) "2" "1"
      .undefined).state = initialState [] :=
  ⟨((putAdminInventory_effect refHost "2023-11-02T09:00:00.000Z" (initialState []) "2" "1"
      (.number (.fin 38)) medplus dolo ⟨by rfl, by rfl, by rfl⟩).1 (by decide) (by rfl)).2,
   ((putAdminInventory_effect refHost "2023-11-02T09:00:00.000Z" (initialState []) "2" "1"
      .unprintable medplus dolo ⟨by rfl, by rfl, by rfl⟩).2.1 (by rfl)).2.1,
   ((putAdminInventory_effect refHost "2023-11-02T09:00:00.000Z" (initialState []) "2" "1"
      .undefined medplus dolo ⟨by rfl, by rfl, by rfl⟩).2.2 rfl).2.1⟩

/-! ## Order total -/

/-- C19, the code at a failing input: an order of two units of the seeded
medicine 1 (catalogue price 45) is accepted and stored with `total_amount` 0,
where the catalogue prices give 90: the callback searches the `medicines`
array of the request, whose objects have no `id`, not the catalogue. -/
theorem postOrders_total_ignores_catalogue :
    (postOrders refHost "2023-11-02T09:00:00.000Z" "2023-11-03T09:00:00.000Z" (initialState [])
        (.string "Asha") (.string "9876543210") (.string "12 Park Road")
        (some [⟨.undefined, .number (.fin 1), .undefined, .number (.fin 2)⟩])
        (.number (.fin 2)) .undefined).1.status = 201 ∧
    (postOrders refHost "2023-11-02T09:00:00.000Z" "2023-11-03T09:00:00.000Z" (initialState [])
        (.string "Asha") (.string "9876543210") (.string "12 Park Road")
        (some [⟨.undefined, .number (.fin 1), .undefined, .number (.fin 2)⟩])
        (.number (.fin 2)) .undefined).2.orders.map (fun o => o.total_amount) = [.fin 0] ∧
    catalogTotal refHost (initialState []).medicines
        [⟨.undefined, .number (.fin 1), .undefined, .number (.fin 2)⟩] = .fin 90 := by
  refine ⟨rfl, ?_, ?_⟩
  · simp [postOrders, total_amount, JSValue.truthy, JSValue.strictEq, initialState, Num.add,
      refHost]
  · simp [catalogTotal, initialState, medicines, dolo, JSValue.strictEq, Num.strictEq,
      Num.add, Num.mul, refHost]
    norm_num

/-! ## Seeded pharmacy names -/

/-- C20, the code on the seeded stores: the seeded medicine lists `Apollo` and
`Fortis`, which are the names of no pharmacy record (the records are named
`Apollo Pharmacy` and `Fortis Healthcare`); so a price update of medicine 1
through pharmacy 1 or through pharmacy 3 is answered 400, and the availability
report of medicine 1 has one entry, for `MedPlus`, for the three pharmacies
listed. -/
theorem seeded_pharmacy_names_mismatch :
    dolo.pharmacies.filter (fun name => !(pharmacies.map (fun p => p.name)).contains name) =
      ["Apollo", "Fortis"] ∧
    (putAdminInventory refHost "2023-11-02T09:00:00.000Z" (initialState []) "1" "1"
        (.number (.fin 40))).response =
      ⟨400, .error "Medicine not available at this pharmacy"⟩ ∧
    (putAdminInventory refHost "2023-11-02T09:00:00.000Z" (initialState []) "3" "1"
        (.number (.fin 40))).response =
      ⟨400, .error "Medicine not available at this pharmacy"⟩ ∧
    (putAdminInventory refHost "2023-11-02T09:00:00.000Z" (initialState []) "2" "1"
        (.number (.fin 40))).response.status = 200 ∧
    (availabilityData refHost refMath (fun _ => ⟨.fin 3, "in-stock", .fin 0, .fin 2⟩)
        (initialState []).pharmacies dolo none none).map (fun e => e.pharmacy) = ["MedPlus"] ∧
    dolo.pharmacies.length = 3 := by
  refine ⟨by decide, by rfl, by rfl, by rfl, by rfl, by rfl⟩

/-! ## Identifiers -/

/-- A request leaves the four lists and the counter as they are, or advances
the counter by one and stores nothing (an alert registration that throws after
`currentId++`), or appends to one of the lists one record whose id is the value
of the counter and advances the counter by one. -/
theorem step_cases (H : Host) (s : State) (request : Request) :
    (∃ (meds : List Medicine) (cl : List Client),
      step H s request = { s with medicines := meds, clients := cl }) ∨
    step H s request = { s with currentId := s.currentId + 1 } ∨
    (∃ r : PrescriptionRecord, r.id = s.currentId ∧
      step H s request =
        { s with prescriptions := s.prescriptions ++ [r], currentId := s.currentId + 1 }) ∨
    (∃ r : ConsultationRecord, r.id = s.currentId ∧
      step H s request =
        { s with consultations := s.consultations ++ [r], currentId := s.currentId + 1 }) ∨
    (∃ r : OrderRecord, r.id = s.currentId ∧
      step H s request =
        { s with orders := s.orders ++ [r], currentId := s.currentId + 1 }) ∨
    (∃ r : AlertRecord, r.id = s.currentId ∧
      step H s request =
        { s with priceAlerts := s.priceAlerts ++ [r], currentId := s.currentId + 1 }) := by
  have hsame : ∃ (meds : List Medicine) (cl : List Client),
      s = { s with medicines := meds, clients := cl } := ⟨s.medicines, s.clients, rfl⟩
  cases request with
  | postAlertsPrice now medicine_id max_price email =>
    simp only [step, postAlertsPrice]
    split
    · exact Or.inl hsame
    · split
      · exact Or.inl hsame
      · split
        · exact Or.inl hsame
        · split
          · exact Or.inr (Or.inl rfl)
          · exact Or.inr (Or.inr (Or.inr (Or.inr (Or.inr ⟨_, rfl, rfl⟩))))
  | putAdminInventory now pharmacyId medicineId price =>
    left
    simp only [step, putAdminInventory]
    split
    · exact hsame
    · split
      · exact hsame
      · split_ifs
        all_goals first | exact hsame | exact ⟨_, s.clients, rfl⟩
  | postPrescriptionsUpload now patient_name doctor_name medicines_list notes =>
    exact Or.inr (Or.inr (Or.inl ⟨_, rfl, rfl⟩))
  | postConsultationsBook now patient_name phone preferred_time consultation_type query =>
    simp only [step, postConsultationsBook]
    split_ifs
    · exact Or.inl hsame
    · exact Or.inr (Or.inr (Or.inr (Or.inl ⟨_, rfl, rfl⟩)))
  | postOrders now estimated customer_name phone address medicines pharmacy_id
      delivery_option =>
    simp only [step, postOrders]
    cases medicines with
    | none => exact Or.inl hsame
    | some items =>
      simp only []
      split_ifs
      · exact Or.inl hsame
      · cases total_amount H items with
        | none => exact Or.inl hsame
        | some total => exact Or.inr (Or.inr (Or.inr (Or.inr (Or.inl ⟨_, rfl, rfl⟩))))
  | getReportsPriceTrends medicineId =>
    left
    simp only [step, getReportsPriceTrends]
    split
    · exact hsame
    · exact ⟨_, s.clients, rfl⟩
  | getMedicinesSearch now query => exact Or.inl ⟨_, s.clients, rfl⟩
  | readOnly => exact Or.inl hsame
  | clientsChanged clients => exact Or.inl ⟨s.medicines, clients, rfl⟩

/-- Appending a value above every element keeps a list increasing. -/
theorem sorted_append_singleton (l : List Nat) (c : Nat) (hl : l.Sorted (fun a b => a < b))
    (hc : ∀ i ∈ l, i < c) : (l ++ [c]).Sorted (fun a b => a < b) := by
  unfold List.Sorted at hl ⊢
  rw [List.pairwise_append]
  refine ⟨hl, List.pairwise_singleton _ _, ?_⟩
  intro a ha b hb
  rw [List.mem_singleton.mp hb]
  exact hc a ha

/-- What a request does to the stored ids: nothing, the counter staying or
advancing by one, or one new id, the value of the counter, which then advances
by one. -/
theorem step_ids (H : Host) (s : State) (request : Request) :
    (allIds (step H s request) = allIds s ∧
      ((step H s request).currentId = s.currentId ∨
        (step H s request).currentId = s.currentId + 1)) ∨
    ((step H s request).currentId = s.currentId + 1 ∧
      (allIds (step H s request)).Perm (s.currentId :: allIds s)) := by
  rcases step_cases H s request with ⟨meds, cl, h⟩ | h | ⟨r, hr, h⟩ | ⟨r, hr, h⟩ |
    ⟨r, hr, h⟩ | ⟨r, hr, h⟩
  · exact Or.inl (by rw [h]; exact ⟨rfl, Or.inl rfl⟩)
  · exact Or.inl (by rw [h]; exact ⟨rfl, Or.inr rfl⟩)
  all_goals
    right
    rw [h]
    refine ⟨rfl, ?_⟩
    simp only [allIds, List.map_append, List.map_cons, List.map_nil, hr]
    rw [List.perm_iff_count]
    intro a
    simp only [List.count_append, List.count_cons, List.count_nil]
    omega

/-- A request keeps the stored ids distinct, below the counter and increasing
within each list. -/
theorem step_idsOk (H : Host) (s : State) (request : Request) (hs : IdsOk s) :
    IdsOk (step H s request) := by
  obtain ⟨hnd, hlt, hcount, h1, h2, h3, h4⟩ := hs
  have hsplit : ∀ i, i ∈ allIds s ↔
      i ∈ s.prescriptions.map (fun r => r.id) ∨ i ∈ s.consultations.map (fun r => r.id) ∨
      i ∈ s.orders.map (fun r => r.id) ∨ i ∈ s.priceAlerts.map (fun r => r.id) := by
    intro i
    simp only [allIds, List.mem_append, or_assoc]
  have hfresh : s.currentId ∉ allIds s := fun h => Nat.lt_irrefl _ (hlt _ h).2
  have hnew : ∀ s' : State, s'.currentId = s.currentId + 1 →
      (allIds s').Perm (s.currentId :: allIds s) →
      (allIds s').Nodup ∧ (∀ i ∈ allIds s', 11 ≤ i ∧ i < s'.currentId) ∧
      11 + (allIds s').length ≤ s'.currentId := by
    intro s' hc hperm
    refine ⟨hperm.nodup_iff.mpr (List.nodup_cons.mpr ⟨hfresh, hnd⟩), ?_, ?_⟩
    · intro i hi
      rcases List.mem_cons.mp (hperm.mem_iff.mp hi) with rfl | hi
      · exact ⟨by omega, by omega⟩
      · exact ⟨(hlt i hi).1, by have := (hlt i hi).2; omega⟩
    · rw [hperm.length_eq, List.length_cons]
      omega
  rcases step_cases H s request with ⟨meds, cl, h⟩ | h | ⟨r, hr, h⟩ | ⟨r, hr, h⟩ |
    ⟨r, hr, h⟩ | ⟨r, hr, h⟩
  · rw [h]
    exact ⟨hnd, hlt, hcount, h1, h2, h3, h4⟩
  · rw [h]
    refine ⟨hnd, ?_, ?_, h1, h2, h3, h4⟩
    · intro i hi
      have := hlt i hi
      exact ⟨this.1, Nat.lt_succ_of_lt this.2⟩
    · exact Nat.le_succ_of_le hcount
  · have hp : (allIds (step H s request)).Perm (s.currentId :: allIds s) := by
      rw [h]
      simp only [allIds, List.map_append, List.map_cons, List.map_nil, hr]
      rw [List.perm_iff_count]
      intro a
      simp only [List.count_append, List.count_cons, List.count_nil]
      omega
    rw [h] at hp ⊢
    obtain ⟨a, b, c⟩ := hnew _ rfl hp
    refine ⟨a, b, c, ?_, h2, h3, h4⟩
    simp only [List.map_append, List.map_cons, List.map_nil, hr]
    exact sorted_append_singleton _ _ h1
      (fun i hi => (hlt i ((hsplit i).mpr (Or.inl hi))).2)
  · have hp : (allIds (step H s request)).Perm (s.currentId :: allIds s) := by
      rw [h]
      simp only [allIds, List.map_append, List.map_cons, List.map_nil, hr]
      rw [List.perm_iff_count]
      intro a
      simp only [List.count_append, List.count_cons, List.count_nil]
      omega
    rw [h] at hp ⊢
    obtain ⟨a, b, c⟩ := hnew _ rfl hp
    refine ⟨a, b, c, h1, ?_, h3, h4⟩
    simp only [List.map_append, List.map_cons, List.map_nil, hr]
    exact sorted_append_singleton _ _ h2
      (fun i hi => (hlt i ((hsplit i).mpr (Or.inr (Or.inl hi)))).2)
  · have hp : (allIds (step H s request)).Perm (s.currentId :: allIds s) := by
      rw [h]
      simp only [allIds, List.map_append, List.map_cons, List.map_nil, hr]
      rw [List.perm_iff_count]
      intro a
      simp only [List.count_append, List.count_cons, List.count_nil]
      omega
    rw [h] at hp ⊢
    obtain ⟨a, b, c⟩ := hnew _ rfl hp
    refine ⟨a, b, c, h1, h2, ?_, h4⟩
    simp only [List.map_append, List.map_cons, List.map_nil, hr]
    exact sorted_append_singleton _ _ h3
      (fun i hi => (hlt i ((hsplit i).mpr (Or.inr (Or.inr (Or.inl hi))))).2)
  · have hp : (allIds (step H s request)).Perm (s.currentId :: allIds s) := by
      rw [h]
      simp only [allIds, List.map_append, List.map_cons, List.map_nil, hr]
      rw [List.perm_iff_count]
      intro a
      simp only [List.count_append, List.count_cons, List.count_nil]
      omega
    rw [h] at hp ⊢
    obtain ⟨a, b, c⟩ := hnew _ rfl hp
    refine ⟨a, b, c, h1, h2, h3, ?_⟩
    simp only [List.map_append, List.map_cons, List.map_nil, hr]
    exact sorted_append_singleton _ _ h4
      (fun i hi => (hlt i ((hsplit i).mpr (Or.inr (Or.inr (Or.inr hi))))).2)

/-- Every sequence of requests keeps the stored ids in order. -/
theorem run_idsOk (H : Host) (requests : List Request) (s : State) (hs : IdsOk s) :
    IdsOk (run H s requests) := by
  induction requests generalizing s with
  | nil => exact hs
  | cons r rs ih => exact ih (step H s r) (step_idsOk H s r hs)

/-- The counter never decreases. -/
theorem run_currentId (H : Host) (requests : List Request) (s : State) :
    s.currentId ≤ (run H s requests).currentId := by
  induction requests generalizing s with
  | nil => exact Nat.le_refl _
  | cons r rs ih =>
    refine Nat.le_trans ?_ (ih (step H s r))
    rcases step_ids H s r with ⟨_, h | h⟩ | ⟨h, _⟩ <;> omega

/-- C21. In every state reached from the initial stores by any sequence of
requests, the ids stored in `prescriptions`, `consultations`, `orders` and
`priceAlerts` are pairwise distinct across the four lists, lie from 11 up to
below `currentId`, and increase within each list; `currentId` is at least 11
plus the number of stored records, and it never decreases.  A further request
either leaves the stored ids as they are, the counter staying or advancing by
one (an alert registration that throws after `currentId++`, answered 500,
consumes an id and stores nothing), or stores exactly one new id, the value of
the counter, which is greater than every id stored before, and advances the
counter by one.  A request answered 400 or 404 leaves the stores, the counter
included, as they were.  (The counter is a natural number here; a double
counts exactly up to `2^53`.) -/
theorem ids_unique_increasing (H : Host) (clients : List Client) (requests : List Request)
    (request : Request) (t : State) :
    (allIds (run H (initialState clients) requests)).Nodup ∧
    (∀ i ∈ allIds (run H (initialState clients) requests),
      11 ≤ i ∧ i < (run H (initialState clients) requests).currentId) ∧
    11 + (allIds (run H (initialState clients) requests)).length ≤
      (run H (initialState clients) requests).currentId ∧
    t.currentId ≤ (run H t requests).currentId ∧
    ((run H (initialState clients) requests).prescriptions.map (fun r => r.id)).Sorted
      (fun a b => a < b) ∧
    ((run H (initialState clients) requests).consultations.map (fun r => r.id)).Sorted
      (fun a b => a < b) ∧
    ((run H (initialState clients) requests).orders.map (fun r => r.id)).Sorted
      (fun a b => a < b) ∧
    ((run H (initialState clients) requests).priceAlerts.map (fun r => r.id)).Sorted
      (fun a b => a < b) ∧
    ((allIds (step H (run H (initialState clients) requests) request) =
          allIds (run H (initialState clients) requests) ∧
        ((step H (run H (initialState clients) requests) request).currentId =
            (run H (initialState clients) requests).currentId ∨
          (step H (run H (initialState clients) requests) request).currentId =
            (run H (initialState clients) requests).currentId + 1)) ∨
      ((step H (run H (initialState clients) requests) request).currentId =
          (run H (initialState clients) requests).currentId + 1 ∧
        (allIds (step H (run H (initialState clients) requests) request)).Perm
          ((run H (initialState clients) requests).currentId ::
            allIds (run H (initialState clients) requests)) ∧
        ∀ i ∈ allIds (run H (initialState clients) requests),
          i < (run H (initialState clients) requests).currentId)) ∧
    (∀ (now : String) (medicine_id max_price email : JSValue),
      ((postAlertsPrice H now t medicine_id max_price email).1.status = 400 ∨
        (postAlertsPrice H now t medicine_id max_price email).1.status = 404) →
      (postAlertsPrice H now t medicine_id max_price email).2 = t) ∧
    (∀ (now : String) (patient_name phone preferred_time consultation_type query : JSValue),
      ((postConsultationsBook now t patient_name phone preferred_time consultation_type
          query).1.status = 400 ∨
        (postConsultationsBook now t patient_name phone preferred_time consultation_type
          query).1.status = 404) →
      (postConsultationsBook now t patient_name phone preferred_time consultation_type
        query).2 = t) ∧
    (∀ (now estimated : String) (customer_name phone address : JSValue)
      (medicines : Option (List OrderItem)) (pharmacy_id delivery_option : JSValue),
      ((postOrders H now estimated t customer_name phone address medicines pharmacy_id
          delivery_option).1.status = 400 ∨
        (postOrders H now estimated t customer_name phone address medicines pharmacy_id
          delivery_option).1.status = 404) →
      (postOrders H now estimated t customer_name phone address medicines pharmacy_id
        delivery_option).2 = t) ∧
    (∀ (now : String) (pharmacyId medicineId : String) (price : JSValue),
      (putAdminInventory H now t pharmacyId medicineId price).state.currentId =
        t.currentId) := by
  have h0 : IdsOk (initialState clients) := by
    refine ⟨?_, ?_, ?_, ?_, ?_, ?_, ?_⟩ <;> simp [allIds, initialState]
  obtain ⟨hnd, hlt, hcount, h1, h2, h3, h4⟩ := run_idsOk H requests (initialState clients) h0
  refine ⟨hnd, hlt, hcount, run_currentId H requests t, h1, h2, h3, h4, ?_, ?_, ?_, ?_, ?_⟩
  · rcases step_ids H (run H (initialState clients) requests) request with h | ⟨hc, hp⟩
    · exact Or.inl h
    · exact Or.inr ⟨hc, hp, fun i hi => (hlt i hi).2⟩
  · intro now medicine_id max_price email
    unfold postAlertsPrice
    split
    · exact fun _ => rfl
    · split
      · exact fun _ => rfl
      · split
        · exact fun _ => rfl
        · split
          · intro h
            simp at h
          · intro h
            simp at h
  · intro now patient_name phone preferred_time consultation_type query
    unfold postConsultationsBook
    split_ifs
    · exact fun _ => rfl
    · intro h
      simp at h
  · intro now estimated customer_name phone address medicines pharmacy_id delivery_option
    unfold postOrders
    cases medicines with
    | none => exact fun _ => rfl
    | some items =>
      simp only []
      split_ifs
      · exact fun _ => rfl
      · cases total_amount H items with
        | none => exact fun _ => rfl
        | some total =>
          intro h
          simp at h
  · intro now pharmacyId medicineId price
    unfold putAdminInventory
    split
    · rfl
    · split
      · rfl
      · split_ifs <;> rfl

/-- Witness of C21: from the seeded stores, a prescription, a rejected
booking, an accepted booking, an order, an alert registration whose
`max_price` is `{"toString": 1}` and an accepted alert registration store the
ids 11, 12, 13 and 15; the id 14 is consumed by the registration that
throws. -/
theorem ids_unique_increasing_witness :
    allIds (run refHost (initialState [])
      [.postPrescriptionsUpload "2023-11-02T09:00:00.000Z" (.string "Asha") (.string "Dr Rao")
          (.string "Dolo 650") .undefined,
        .postConsultationsBook "2023-11-02T09:05:00.000Z" (.string "Asha") .undefined
          .undefined .undefined .undefined,
        .postConsultationsBook "2023-11-02T09:06:00.000Z" (.string "Asha")
          (.string "9876543210") .undefined .undefined .undefined,
        .postOrders "2023-11-02T09:10:00.000Z" "2023-11-03T09:10:00.000Z" (.string "Asha")
          (.string "9876543210") (.string "12 Park Road")
          (some [⟨.undefined, .number (.fin 1), .undefined, .number (.fin 2)⟩])
          (.number (.fin 2)) .undefined,
        .postAlertsPrice "2023-11-02T09:14:00.000Z" (.number (.fin 1)) .unprintable
          (.string "user@example.com"),
        .postAlertsPrice "2023-11-02T09:15:00.000Z" (.number (.fin 1)) (.number (.fin 40))
          (.string "user@example.com")]) = [11, 12, 13, 15] ∧
    (allIds (run refHost (initialState [])
      [.postPrescriptionsUpload "2023-11-02T09:00:00.000Z" (.string "Asha") (.string "Dr Rao")
          (.string "Dolo 650") .undefined,
        .postConsultationsBook "2023-11-02T09:05:00.000Z" (.string "Asha") .undefined
          .undefined .undefined .undefined,
        .postConsultationsBook "2023-11-02T09:06:00.000Z" (.string "Asha")
          (.string "9876543210") .undefined .undefined .undefined,
        .postOrders "2023-11-02T09:10:00.000Z" "2023-11-03T09:10:00.000Z" (.string "Asha")
          (.string "9876543210") (.string "12 Park Road")
          (some [⟨.undefined, .number (.fin 1), .undefined, .number (.fin 2)⟩])
          (.number (.fin 2)) .undefined,
        .postAlertsPrice "2023-11-02T09:14:00.000Z" (.number (.fin 1)) .unprintable
          (.string "user@example.com"),
        .postAlertsPrice "2023-11-02T09:15:00.000Z" (.number (.fin 1)) (.number (.fin 40))
          (.string "user@example.com")])).Nodup ∧
    (run refHost (initialState [])
      [.postPrescriptionsUpload "2023-11-02T09:00:00.000Z" (.string "Asha") (.string "Dr Rao")
          (.string "Dolo 650") .undefined,
        .postConsultationsBook "2023-11-02T09:05:00.000Z" (.string "Asha") .undefined
          .undefined .undefined .undefined,
        .postConsultationsBook "2023-11-02T09:06:00.000Z" (.string "Asha")
          (.string "9876543210") .undefined .undefined .undefined,
        .postOrders "2023-11-02T09:10:00.000Z" "2023-11-03T09:10:00.000Z" (.string "Asha")
          (.string "9876543210") (.string "12 Park Road")
          (some [⟨.undefined, .number (.fin 1), .undefined, .number (.fin 2)⟩])
          (.number (.fin 2)) .undefined,
        .postAlertsPrice "2023-11-02T09:14:00.000Z" (.number (.fin 1)) .unprintable
          (.string "user@example.com"),
        .postAlertsPrice "2023-11-02T09:15:00.000Z" (.number (.fin 1)) (.number (.fin 40))
          (.string "user@example.com")]).currentId = 16 :=
  have h := ids_unique_increasing refHost []
    [.postPrescriptionsUpload "2023-11-02T09:00:00.000Z" (.string "Asha") (.string "Dr Rao")
        (.string "Dolo 650") .undefined,
      .postConsultationsBook "2023-11-02T09:05:00.000Z" (.string "Asha") .undefined
        .undefined .undefined .undefined,
      .postConsultationsBook "2023-11-02T09:06:00.000Z" (.string "Asha")
        (.string "9876543210") .undefined .undefined .undefined,
      .postOrders "2023-11-02T09:10:00.000Z" "2023-11-03T09:10:00.000Z" (.string "Asha")
        (.string "9876543210") (.string "12 Park Road")
        (some [⟨.undefined, .number (.fin 1), .undefined, .number (.fin 2)⟩])
        (.number (.fin 2)) .undefined,
      .postAlertsPrice "2023-11-02T09:14:00.000Z" (.number (.fin 1)) .unprintable
        (.string "user@example.com"),
      .postAlertsPrice "2023-11-02T09:15:00.000Z" (.number (.fin 1)) (.number (.fin 40))
        (.string "user@example.com")]
    .readOnly (initialState [])
  ⟨by rfl, h.1, by rfl⟩

end MediFind
